import Mathlib

/-!
# VSFS consistency checker (`vsfs.c`): embedding and verified properties

The checker works on a flat image file through `fseek`/`fread`/`fwrite`.
The embedding keeps that shape:

* an image is its size together with its bytes (a byte is a `Nat`; every byte the
  program stores is reduced modulo 256);
* a memory buffer (`sb`, `inode`, the three bitmaps) is a function from the byte
  offset to the byte, so that a packed record is exactly its bytes and a field is
  decoded little-endian at its fixed offset;
* `int` arithmetic wraps at 32 bits (`to_int32`);
* what memory holds before the program first stores into it (the uninitialised
  records and arrays, the bytes that lie past `sb`) comes from an `Env`;
* everything observable is appended to one log in program order: the lines
  printed, the file operations, and the bitmap accesses.
-/

namespace VSFS

/-! ## Constants (`#define`s) -/

abbrev BLOCK_SIZE : Nat := 4096

abbrev TOTAL_BLOCKS : Nat := 64

abbrev INODE_SIZE : Nat := 256

abbrev INODES_PER_BLOCK : Nat := BLOCK_SIZE / INODE_SIZE

abbrev INODE_TABLE_BLOCKS : Nat := 5

abbrev INODE_TABLE_START : Nat := 3

abbrev DATA_BLOCK_START : Nat := 8

abbrev MAX_INODES : Nat := INODE_TABLE_BLOCKS * INODES_PER_BLOCK

abbrev DATA_BLOCK_COUNT : Nat := TOTAL_BLOCKS - DATA_BLOCK_START

abbrev SUPERBLOCK_MAGIC : Nat := 0xD34D

/-! ## Memory and records -/

/-- A region of memory: the byte at each offset from its start. -/
abbrev Buffer := Nat → Nat

/-- Little-endian `uint16_t` stored at offset `off`. -/
def get_u16 (buf : Buffer) (off : Nat) : Nat :=
  buf off + 256 * buf (off + 1)

/-- Little-endian `uint32_t` stored at offset `off`. -/
def get_u32 (buf : Buffer) (off : Nat) : Nat :=
  buf off + 256 * buf (off + 1) + 65536 * buf (off + 2) + 16777216 * buf (off + 3)

/-- Store `v` as a little-endian `uint16_t` at offset `off`. -/
def set_u16 (buf : Buffer) (off v : Nat) : Buffer :=
  fun j => if j = off then v % 256 else if j = off + 1 then v / 256 % 256 else buf j

/-- Store `v` as a little-endian `uint32_t` at offset `off`. -/
def set_u32 (buf : Buffer) (off v : Nat) : Buffer :=
  fun j =>
    if j = off then v % 256
    else if j = off + 1 then v / 256 % 256
    else if j = off + 2 then v / 65536 % 256
    else if j = off + 3 then v / 16777216 % 256
    else buf j

/-- Size of the packed `Superblock` record: `2 + 8 * 4 + 4058`. -/
abbrev sizeof_Superblock : Nat := 2 + 8 * 4 + 4058

/-- Size of the packed `Inode` record: `14 * 4 + 156`. -/
abbrev sizeof_Inode : Nat := 14 * 4 + 156

namespace Superblock

def magic (sb : Buffer) : Nat := get_u16 sb 0
def block_size (sb : Buffer) : Nat := get_u32 sb 2
def total_blocks (sb : Buffer) : Nat := get_u32 sb 6
def inode_bitmap_block (sb : Buffer) : Nat := get_u32 sb 10
def data_bitmap_block (sb : Buffer) : Nat := get_u32 sb 14
def inode_table_start (sb : Buffer) : Nat := get_u32 sb 18
def first_data_block (sb : Buffer) : Nat := get_u32 sb 22
def inode_size (sb : Buffer) : Nat := get_u32 sb 26
def inode_count (sb : Buffer) : Nat := get_u32 sb 30

end Superblock

namespace Inode

def mode (inode : Buffer) : Nat := get_u32 inode 0
def uid (inode : Buffer) : Nat := get_u32 inode 4
def gid (inode : Buffer) : Nat := get_u32 inode 8
def file_size (inode : Buffer) : Nat := get_u32 inode 12
def atime (inode : Buffer) : Nat := get_u32 inode 16
def ctime (inode : Buffer) : Nat := get_u32 inode 20
def mtime (inode : Buffer) : Nat := get_u32 inode 24
def dtime (inode : Buffer) : Nat := get_u32 inode 28
def links (inode : Buffer) : Nat := get_u32 inode 32
def blocks (inode : Buffer) : Nat := get_u32 inode 36
def direct (inode : Buffer) : Nat := get_u32 inode 40
def single_indirect (inode : Buffer) : Nat := get_u32 inode 44
def double_indirect (inode : Buffer) : Nat := get_u32 inode 48
def triple_indirect (inode : Buffer) : Nat := get_u32 inode 52

end Inode

/-! ## The image file and the stdio calls -/

/-- A disk image: its size in bytes and the byte at each offset below the size. -/
structure Image where
  size : Nat
  byte : Nat → Nat

/-- An open stream on an image: the image and the file position. -/
structure FILE where
  size : Nat
  byte : Nat → Nat
  pos : Nat

def FILE.image (fp : FILE) : Image := ⟨fp.size, fp.byte⟩

/-- The value of an `int` expression: the mathematical value wrapped to 32 bits,
two's complement. -/
def to_int32 (n : Int) : Int := (n + 2147483648) % 4294967296 - 2147483648

/-- Model of `fseek(fp, offset, SEEK_SET)`: a negative offset is refused and the position
stays where it was; any other offset (also one past the end) becomes the position. -/
def fseek (fp : FILE) (offset : Int) : FILE :=
  if offset < 0 then fp else { fp with pos := offset.toNat }

/-- Model of `fread(buffer, n, 1, fp)`: the bytes available from the position, at most `n`,
are stored at the start of `buffer`; the rest of `buffer` keeps what it held. -/
def fread (fp : FILE) (n : Nat) (buffer : Buffer) : Buffer × FILE :=
  let k := min n (fp.size - fp.pos)
  (fun j => if j < k then fp.byte (fp.pos + j) else buffer j, { fp with pos := fp.pos + k })

/-- Model of `fwrite(buffer, n, 1, fp)`: `n` bytes of `buffer` are stored from the
position on; a gap between the old end of the file and the position reads as zero. -/
def fwrite (fp : FILE) (n : Nat) (buffer : Buffer) : FILE :=
  { size := max fp.size (fp.pos + n)
    byte := fun j =>
      if fp.pos ≤ j ∧ j < fp.pos + n then buffer (j - fp.pos)
      else if fp.size ≤ j ∧ j < fp.pos then 0
      else fp.byte j
    pos := fp.pos + n }

/-- Source: `read_block`. The parameter `block_number` is an `int`. -/
def read_block (fp : FILE) (block_number : Int) (buffer : Buffer) : Buffer × FILE :=
  fread (fseek fp (to_int32 (block_number * BLOCK_SIZE))) BLOCK_SIZE buffer

/-- Source: `write_block`. -/
def write_block (fp : FILE) (block_number : Int) (buffer : Buffer) : FILE :=
  fwrite (fseek fp (to_int32 (block_number * BLOCK_SIZE))) BLOCK_SIZE buffer

/-- The byte offset `read_inode` and `write_inode` seek to. -/
def inode_seek_offset (index : Nat) : Int :=
  let block_offset := index / INODES_PER_BLOCK
  let inode_offset := index % INODES_PER_BLOCK
  to_int32 (((INODE_TABLE_START + block_offset) * BLOCK_SIZE + inode_offset * INODE_SIZE : Nat) : Int)

/-- Source: `read_inode`; `sizeof(Inode)` bytes are transferred. -/
def read_inode (fp : FILE) (index : Nat) (inode : Buffer) : Buffer × FILE :=
  fread (fseek fp (inode_seek_offset index)) sizeof_Inode inode

/-- Source: `write_inode`; `sizeof(Inode)` bytes are transferred. -/
def write_inode (fp : FILE) (index : Nat) (inode : Buffer) : FILE :=
  fwrite (fseek fp (inode_seek_offset index)) sizeof_Inode inode

/-! ## Bitmap utilities -/

/-- Source: `is_block_used`. -/
def is_block_used (bitmap : Buffer) (block_index : Nat) : Nat :=
  (bitmap (block_index / 8) >>> (block_index % 8)) &&& 1

/-- Source: `set_block_used`; the result of `|=` is stored into a `uint8_t`. -/
def set_block_used (bitmap : Buffer) (block_index : Nat) : Buffer :=
  fun j =>
    if j = block_index / 8 then (bitmap j ||| (1 <<< (block_index % 8))) % 256
    else bitmap j

/-- Source: `clear_block_used`; `~(1 << k)` is the 32-bit complement and the result of
`&=` is stored into a `uint8_t`. -/
def clear_block_used (bitmap : Buffer) (block_index : Nat) : Buffer :=
  fun j =>
    if j = block_index / 8 then
      (bitmap j &&& (4294967295 ^^^ (1 <<< (block_index % 8)))) % 256
    else bitmap j

/-! ## Observable behaviour -/

/-- The lines `main` prints on standard output, with the values it formats into them. -/
inductive Msg where
  /-- `Error: vsfs.img is too small: %ld bytes` -/
  | too_small (filesize : Nat)
  /-- `Validating Superblock...` -/
  | validating_superblock
  /-- `ERROR: Invalid magic number: 0x%x` -/
  | invalid_magic (magic : Nat)
  /-- `ERROR: Block size is %u` -/
  | block_size (v : Nat)
  /-- `ERROR: Total blocks is %u` -/
  | total_blocks (v : Nat)
  /-- `ERROR: Inode bitmap block is %u` -/
  | inode_bitmap_block (v : Nat)
  /-- `ERROR: Data bitmap block is %u` -/
  | data_bitmap_block (v : Nat)
  /-- `ERROR: Inode table start is %u` -/
  | inode_table_start (v : Nat)
  /-- `ERROR: First data block is %u` -/
  | first_data_block (v : Nat)
  /-- `ERROR: Inode size is %u` -/
  | inode_size (v : Nat)
  /-- `Warning: inode_count (%u) exceeds max (%d). Clamping.` -/
  | inode_count_exceeds (v : Nat)
  /-- `  --> Fixed` -/
  | fixed
  /-- `Writing fixed superblock to disk...` -/
  | writing_superblock
  /-- `Checking Inodes and Bitmaps...` -/
  | checking_inodes
  /-- `Warning: Inode %d marked used but invalid` -/
  | inode_marked_but_invalid (i : Nat)
  /-- `  --> Fixed: Inode bitmap cleared` -/
  | fixed_inode_bitmap_cleared
  /-- `Warning: Inode %d not marked but valid` -/
  | inode_not_marked_but_valid (i : Nat)
  /-- `  --> Fixed: Inode bitmap set` -/
  | fixed_inode_bitmap_set
  /-- `Error: Data block %u used by inode %d not marked in bitmap` -/
  | data_block_not_marked (direct i : Nat)
  /-- `  --> Fixed: Data bitmap set for block %u` -/
  | fixed_data_bitmap_set (direct : Nat)
  /-- `Error: Duplicate data block %u used in inode %d` -/
  | duplicate_block (direct i : Nat)
  /-- `  --> Fixed: Inode %d direct pointer cleared` -/
  | fixed_duplicate_cleared (i : Nat)
  /-- `Error: Invalid direct pointer %u in inode %d` -/
  | invalid_direct (direct i : Nat)
  /-- `  --> Fixed: Cleared invalid direct pointer in inode %d` -/
  | fixed_invalid_cleared (i : Nat)
  /-- `Warning: Data block %d marked used but unreferenced` -/
  | unreferenced (block : Nat)
  /-- `  --> Fixed: Cleared data bitmap for block %d` -/
  | fixed_unreferenced_cleared (block : Nat)
  /-- `All detected issues fixed and written to disk.` -/
  | all_fixed
  /-- `VSFS Check Completed.` -/
  | completed
  deriving DecidableEq, Repr

/-- The three bitmap arrays of `main`. -/
inductive Bitmap where
  | inode_bitmap
  | data_bitmap
  | seen_data_blocks
  deriving DecidableEq, Repr

/-- One observable step of a run, in program order. -/
inductive Event where
  | printf (m : Msg)
  | read_block (block_number : Int)
  | write_block (block_number : Int)
  | read_inode (index : Nat)
  | write_inode (index : Nat)
  | is_block_used (bitmap : Bitmap) (block_index : Nat)
  | set_block_used (bitmap : Bitmap) (block_index : Nat)
  | clear_block_used (bitmap : Bitmap) (block_index : Nat)
  deriving DecidableEq, Repr

/-- The lines that report an inconsistency of the file system (the superblock, inode,
bitmap and pointer lines that start with `ERROR:`, `Error:` or `Warning:`), as opposed to
the progress lines, the `-->` lines that follow a fix, and the line about an image that is
too small. -/
def Msg.isReport : Msg → Bool
  | .invalid_magic _ => true
  | .block_size _ => true
  | .total_blocks _ => true
  | .inode_bitmap_block _ => true
  | .data_bitmap_block _ => true
  | .inode_table_start _ => true
  | .first_data_block _ => true
  | .inode_size _ => true
  | .inode_count_exceeds _ => true
  | .inode_marked_but_invalid _ => true
  | .inode_not_marked_but_valid _ => true
  | .data_block_not_marked _ _ => true
  | .duplicate_block _ _ => true
  | .invalid_direct _ _ => true
  | .unreferenced _ => true
  | _ => false

/-- The inconsistency reports of a log, in order. -/
def reports : List Event → List Msg
  | [] => []
  | Event.printf m :: es => if m.isReport then m :: reports es else reports es
  | _ :: es => reports es

/-- The events that write to the image file: the `write_block` and `write_inode` calls. -/
def Event.isWrite : Event → Bool
  | .write_block _ => true
  | .write_inode _ => true
  | _ => false

/-- The file writes of a log, in order. -/
def writes (log : List Event) : List Event :=
  log.filter Event.isWrite

/-- Memory that `main` has not initialised: what the local records and arrays hold before
the first read into them, and what the bytes that follow `sb` in memory hold before
`read_block(fp, 0, &sb)` (the record is four bytes shorter than the block read into it). -/
structure Env where
  sb : Buffer
  past_sb : Buffer
  inode_bitmap : Buffer
  data_bitmap : Buffer
  inode : Buffer

/-! ## Superblock validation (`main`, lines 115-161) -/

/-- The variables the superblock checks work on. -/
structure SbState where
  sb : Buffer
  sb_changed : Bool
  log : List Event

/-- One check: `if (bad) { printf(msg); if (fix_mode) { field = expected; sb_changed = 1;
printf("  --> Fixed\n"); } }`, where `fixed` is `sb` after the assignment. -/
def sb_check (fix_mode : Bool) (bad : Bool) (msg : Msg) (fixed : Buffer) (st : SbState) :
    SbState :=
  if bad then
    if fix_mode then
      { sb := fixed, sb_changed := true,
        log := st.log ++ [Event.printf msg, Event.printf Msg.fixed] }
    else { st with log := st.log ++ [Event.printf msg] }
  else st

/-- The nine checks, in source order. -/
def validate_superblock (fix_mode : Bool) (st : SbState) : SbState :=
  let st := sb_check fix_mode (Superblock.magic st.sb != SUPERBLOCK_MAGIC)
    (Msg.invalid_magic (Superblock.magic st.sb)) (set_u16 st.sb 0 SUPERBLOCK_MAGIC) st
  let st := sb_check fix_mode (Superblock.block_size st.sb != BLOCK_SIZE)
    (Msg.block_size (Superblock.block_size st.sb)) (set_u32 st.sb 2 BLOCK_SIZE) st
  let st := sb_check fix_mode (Superblock.total_blocks st.sb != TOTAL_BLOCKS)
    (Msg.total_blocks (Superblock.total_blocks st.sb)) (set_u32 st.sb 6 TOTAL_BLOCKS) st
  let st := sb_check fix_mode (Superblock.inode_bitmap_block st.sb != 1)
    (Msg.inode_bitmap_block (Superblock.inode_bitmap_block st.sb)) (set_u32 st.sb 10 1) st
  let st := sb_check fix_mode (Superblock.data_bitmap_block st.sb != 2)
    (Msg.data_bitmap_block (Superblock.data_bitmap_block st.sb)) (set_u32 st.sb 14 2) st
  let st := sb_check fix_mode (Superblock.inode_table_start st.sb != INODE_TABLE_START)
    (Msg.inode_table_start (Superblock.inode_table_start st.sb))
    (set_u32 st.sb 18 INODE_TABLE_START) st
  let st := sb_check fix_mode (Superblock.first_data_block st.sb != DATA_BLOCK_START)
    (Msg.first_data_block (Superblock.first_data_block st.sb))
    (set_u32 st.sb 22 DATA_BLOCK_START) st
  let st := sb_check fix_mode (Superblock.inode_size st.sb != INODE_SIZE)
    (Msg.inode_size (Superblock.inode_size st.sb)) (set_u32 st.sb 26 INODE_SIZE) st
  let st := sb_check fix_mode (decide (Superblock.inode_count st.sb > MAX_INODES))
    (Msg.inode_count_exceeds (Superblock.inode_count st.sb)) (set_u32 st.sb 30 MAX_INODES) st
  st

/-! ## Inode scan and data-bitmap sweep (`main`, lines 163-235) -/

/-- The variables of `main` the two loops work on, with the log. -/
structure State where
  fp : FILE
  inode_bitmap : Buffer
  data_bitmap : Buffer
  seen_data_blocks : Buffer
  log : List Event

def State.emit (st : State) (e : Event) : State :=
  { st with log := st.log ++ [e] }

/-- Lines 196-224: the direct-pointer checks of a valid inode `i`. -/
def check_direct (fix_mode : Bool) (st : State) (i : Nat) (inode : Buffer) : State :=
  if DATA_BLOCK_START ≤ Inode.direct inode ∧ Inode.direct inode < TOTAL_BLOCKS then
    let rel_block := Inode.direct inode - DATA_BLOCK_START
    let used := is_block_used st.data_bitmap rel_block
    let st := st.emit (Event.is_block_used Bitmap.data_bitmap rel_block)
    let st :=
      if used = 0 then
        let st := st.emit (Event.printf (Msg.data_block_not_marked (Inode.direct inode) i))
        if fix_mode then
          ({ st with data_bitmap := set_block_used st.data_bitmap rel_block }.emit
            (Event.set_block_used Bitmap.data_bitmap rel_block)).emit
            (Event.printf (Msg.fixed_data_bitmap_set (Inode.direct inode)))
        else st
      else st
    let seen := is_block_used st.seen_data_blocks rel_block
    let st := st.emit (Event.is_block_used Bitmap.seen_data_blocks rel_block)
    if seen ≠ 0 then
      let st := st.emit (Event.printf (Msg.duplicate_block (Inode.direct inode) i))
      if fix_mode then
        ({ st with fp := write_inode st.fp i (set_u32 inode 40 0) }.emit
          (Event.write_inode i)).emit (Event.printf (Msg.fixed_duplicate_cleared i))
      else st
    else
      { st with seen_data_blocks := set_block_used st.seen_data_blocks rel_block }.emit
        (Event.set_block_used Bitmap.seen_data_blocks rel_block)
  else if Inode.direct inode ≠ 0 then
    let st := st.emit (Event.printf (Msg.invalid_direct (Inode.direct inode) i))
    if fix_mode then
      ({ st with fp := write_inode st.fp i (set_u32 inode 40 0) }.emit
        (Event.write_inode i)).emit (Event.printf (Msg.fixed_invalid_cleared i))
    else st
  else st

/-- Lines 177-191: the inode-bitmap check of inode `i`, whose validity is `valid_inode`. -/
def check_inode_bitmap (fix_mode : Bool) (st : State) (i : Nat) (valid_inode : Bool) : State :=
  let marked := is_block_used st.inode_bitmap i
  let st := st.emit (Event.is_block_used Bitmap.inode_bitmap i)
  if marked ≠ 0 ∧ valid_inode = false then
    let st := st.emit (Event.printf (Msg.inode_marked_but_invalid i))
    if fix_mode then
      ({ st with inode_bitmap := clear_block_used st.inode_bitmap i }.emit
        (Event.clear_block_used Bitmap.inode_bitmap i)).emit
        (Event.printf Msg.fixed_inode_bitmap_cleared)
    else st
  else if marked = 0 ∧ valid_inode = true then
    let st := st.emit (Event.printf (Msg.inode_not_marked_but_valid i))
    if fix_mode then
      ({ st with inode_bitmap := set_block_used st.inode_bitmap i }.emit
        (Event.set_block_used Bitmap.inode_bitmap i)).emit
        (Event.printf Msg.fixed_inode_bitmap_set)
    else st
  else st

/-- Lines 173-224: the body of the inode loop for index `i`. -/
def scan_step (env : Env) (fix_mode : Bool) (st : State) (i : Nat) : State :=
  let r := read_inode st.fp i env.inode
  let inode := r.1
  let st := { st with fp := r.2 }.emit (Event.read_inode i)
  let valid_inode : Bool := decide (Inode.links inode > 0) && decide (Inode.dtime inode = 0)
  let st := check_inode_bitmap fix_mode st i valid_inode
  if valid_inode = false then st
  else check_direct fix_mode st i inode

/-- Lines 172-225: `for (int i = 0; i < MAX_INODES; i++)`. -/
def scan (env : Env) (fix_mode : Bool) (st : State) : State :=
  (List.range MAX_INODES).foldl (scan_step env fix_mode) st

/-- Lines 228-234: the body of the sweep loop for relative block `i`; the second operand
of `&&` is evaluated only when the first is non-zero. -/
def sweep_step (fix_mode : Bool) (st : State) (i : Nat) : State :=
  let used := is_block_used st.data_bitmap i
  let st := st.emit (Event.is_block_used Bitmap.data_bitmap i)
  if used ≠ 0 then
    let seen := is_block_used st.seen_data_blocks i
    let st := st.emit (Event.is_block_used Bitmap.seen_data_blocks i)
    if seen = 0 then
      let st := st.emit (Event.printf (Msg.unreferenced (i + DATA_BLOCK_START)))
      if fix_mode then
        ({ st with data_bitmap := clear_block_used st.data_bitmap i }.emit
          (Event.clear_block_used Bitmap.data_bitmap i)).emit
          (Event.printf (Msg.fixed_unreferenced_cleared (i + DATA_BLOCK_START)))
      else st
    else st
  else st

/-- Lines 227-235: `for (int i = 0; i < DATA_BLOCK_COUNT; i++)`. -/
def sweep (fix_mode : Bool) (st : State) : State :=
  (List.range DATA_BLOCK_COUNT).foldl (sweep_step fix_mode) st

/-! ## `main` -/

/-- What a run leaves behind: the exit status, the image file and the log. -/
structure Result where
  status : Nat
  image : Image
  log : List Event

/-- The memory from `&sb` on: the 4092-byte record `sb`, then the bytes that follow it in
memory. A block transfer through `&sb` covers the record and the first four of these bytes. -/
def sb_block (env : Env) (sb : Buffer) : Buffer :=
  fun j => if j < sizeof_Superblock then sb j else env.past_sb (j - sizeof_Superblock)

/-- Lines 115-161: the superblock is read from block 0, checked, and written back in
repair mode when a check changed it. Yields `sb`, the stream and the log. Here `sb` is the
memory from `&sb` on (`sb_block`): `read_block` stores a whole block there, four bytes more
than the record, the checks assign to the fields of the record only, and `write_block` writes
a whole block from there, so the four bytes past the record go back as they were read. -/
def superblock_phase (env : Env) (fix_mode : Bool) (fp : FILE) : Buffer × FILE × List Event :=
  let r := read_block fp 0 (sb_block env env.sb)
  let s : SbState :=
    { sb := r.1, sb_changed := false,
      log := [Event.read_block 0, Event.printf Msg.validating_superblock] }
  let s := validate_superblock fix_mode s
  if fix_mode = true ∧ s.sb_changed = true then
    (s.sb, write_block r.2 0 s.sb,
      s.log ++ [Event.printf Msg.writing_superblock, Event.write_block 0])
  else (s.sb, r.2, s.log)

/-- Lines 163-170: the two bitmaps are read from the blocks the superblock record names
(the `uint32_t` fields are passed as `int`), and the seen set starts out empty. -/
def load_bitmaps (env : Env) (sb : Buffer) (fp : FILE) (log : List Event) : State :=
  let inode_bitmap_block := to_int32 (Superblock.inode_bitmap_block sb)
  let data_bitmap_block := to_int32 (Superblock.data_bitmap_block sb)
  let r1 := read_block fp inode_bitmap_block env.inode_bitmap
  let r2 := read_block r1.2 data_bitmap_block env.data_bitmap
  { fp := r2.2, inode_bitmap := r1.1, data_bitmap := r2.1,
    seen_data_blocks := fun _ => 0,
    log := log ++ [Event.read_block inode_bitmap_block,
      Event.read_block data_bitmap_block, Event.printf Msg.checking_inodes] }

/-- Lines 237-241: in repair mode both bitmaps are written to the blocks the superblock
record names. -/
def write_back (fix_mode : Bool) (sb : Buffer) (st : State) : State :=
  if fix_mode = true then
    let inode_bitmap_block := to_int32 (Superblock.inode_bitmap_block sb)
    let data_bitmap_block := to_int32 (Superblock.data_bitmap_block sb)
    { st with
      fp := write_block (write_block st.fp inode_bitmap_block st.inode_bitmap)
        data_bitmap_block st.data_bitmap
      log := st.log ++ [Event.write_block inode_bitmap_block,
        Event.write_block data_bitmap_block, Event.printf Msg.all_fixed] }
  else st

/-- Lines 105-245 of `main`: the run on an image that `fopen` has opened, in check-only
mode (`fix_mode = false`) or in repair mode (`fix_mode = true`). -/
def run (env : Env) (fix_mode : Bool) (img : Image) : Result :=
  let fp : FILE := { size := img.size, byte := img.byte, pos := 0 }
  let filesize := img.size
  if filesize < TOTAL_BLOCKS * BLOCK_SIZE then
    { status := 1, image := img, log := [Event.printf (Msg.too_small filesize)] }
  else
    let p := superblock_phase env fix_mode fp
    let st := load_bitmaps env p.1 p.2.1 p.2.2
    let st := scan env fix_mode st
    let st := sweep fix_mode st
    let st := write_back fix_mode p.1 st
    { status := 0, image := st.fp.image, log := st.log ++ [Event.printf Msg.completed] }

/-- How `main` ends: with the usage message, with a failed `fopen`, or after a run. -/
inductive Outcome where
  | usage
  | open_failed
  | ran (r : Result)

/-- The value `main` returns. -/
def Outcome.status : Outcome → Nat
  | .usage => 1
  | .open_failed => 1
  | .ran r => r.status

/-- Source: `main`. `argv` holds the program name and the arguments; `fopen name writable`
is the image opened under that name, if the open succeeds. -/
def main (env : Env) (argv : List String) (fopen : String → Bool → Option Image) : Outcome :=
  match argv with
  | [_, filename] =>
    match fopen filename false with
    | none => Outcome.open_failed
    | some img => Outcome.ran (run env false img)
  | [_, flag, filename] =>
    if flag = "--fix" then
      match fopen filename true with
      | none => Outcome.open_failed
      | some img => Outcome.ran (run env true img)
    else Outcome.usage
  | _ => Outcome.usage

/-! ## Reading an image: blocks, inode records, bits -/

/-- Block `n` of an image, as a buffer. -/
def block (img : Image) (n : Nat) : Buffer :=
  fun j => img.byte (n * BLOCK_SIZE + j)

/-- The record of inode `i` in the inode table of an image, as a buffer. -/
def inode_at (img : Image) (i : Nat) : Buffer :=
  fun j => img.byte ((INODE_TABLE_START + i / INODES_PER_BLOCK) * BLOCK_SIZE
    + i % INODES_PER_BLOCK * INODE_SIZE + j)

/-- Validity of inode `i` of an image: `links > 0` and `dtime == 0`. -/
def valid (img : Image) (i : Nat) : Bool :=
  decide (Inode.links (inode_at img i) > 0) && decide (Inode.dtime (inode_at img i) = 0)

/-- The direct pointer stored in inode `i` of an image. -/
def direct (img : Image) (i : Nat) : Nat :=
  Inode.direct (inode_at img i)

/-- Bit `i` of a bitmap: bit `i % 8`, counted from the least significant one, of byte
`i / 8`. -/
def bit (bitmap : Buffer) (i : Nat) : Bool :=
  (bitmap (i / 8)).testBit (i % 8)

/-- Some valid inode of index below `n` stores the direct pointer `b`. -/
def claimed (img : Image) (n b : Nat) : Bool :=
  (List.range n).any fun j => valid img j && decide (direct img j = b)

/-- Whether the direct-pointer checks clear the pointer `d` of a valid inode: it is a
duplicate (`sn`: the block is already in the seen set) or it is non-zero and out of range. -/
def clears (d : Nat) (sn : Bool) : Bool :=
  if DATA_BLOCK_START ≤ d ∧ d < TOTAL_BLOCKS then sn else decide (d ≠ 0)

/-- Inode `j` is valid and its direct pointer is one the scan clears: non-zero and out of
range, or in range and stored by a valid inode of lower index. -/
def cleared (img : Image) (j : Nat) : Bool :=
  valid img j && clears (direct img j) (claimed img j (direct img j))

/-- The bytes of an image file with the `direct` field of inode `i` set to zero. -/
def clear_direct (byte : Nat → Nat) (i : Nat) : Nat → Nat :=
  fun k => if 12288 + 256 * i + 40 ≤ k ∧ k < 12288 + 256 * i + 44 then 0 else byte k

/-! ## What the loops and the phases append to the log -/

/-- What lines 177-191 append to the log for inode `i` of validity `v` whose inode-bitmap
bit reads `m`. -/
def inode_bitmap_events (fix_mode : Bool) (i : Nat) (v m : Bool) : List Event :=
  Event.is_block_used Bitmap.inode_bitmap i
  :: (if m = true ∧ v = false then
        Event.printf (Msg.inode_marked_but_invalid i)
          :: (if fix_mode then
                [Event.clear_block_used Bitmap.inode_bitmap i,
                  Event.printf Msg.fixed_inode_bitmap_cleared]
              else [])
      else if m = false ∧ v = true then
        Event.printf (Msg.inode_not_marked_but_valid i)
          :: (if fix_mode then
                [Event.set_block_used Bitmap.inode_bitmap i,
                  Event.printf Msg.fixed_inode_bitmap_set]
              else [])
      else [])

/-- What lines 196-224 append to the log for a valid inode `i` with direct pointer `d`, when
the data-bitmap bit of `d` reads `u` and its seen bit reads `sn`. -/
def direct_events (fix_mode : Bool) (i d : Nat) (u sn : Bool) : List Event :=
  if DATA_BLOCK_START ≤ d ∧ d < TOTAL_BLOCKS then
    [Event.is_block_used Bitmap.data_bitmap (d - DATA_BLOCK_START)]
    ++ (if u then []
        else Event.printf (Msg.data_block_not_marked d i)
          :: (if fix_mode then
                [Event.set_block_used Bitmap.data_bitmap (d - DATA_BLOCK_START),
                  Event.printf (Msg.fixed_data_bitmap_set d)]
              else []))
    ++ [Event.is_block_used Bitmap.seen_data_blocks (d - DATA_BLOCK_START)]
    ++ (if sn then
          Event.printf (Msg.duplicate_block d i)
            :: (if fix_mode then
                  [Event.write_inode i, Event.printf (Msg.fixed_duplicate_cleared i)]
                else [])
        else [Event.set_block_used Bitmap.seen_data_blocks (d - DATA_BLOCK_START)])
  else if d ≠ 0 then
    Event.printf (Msg.invalid_direct d i)
      :: (if fix_mode then [Event.write_inode i, Event.printf (Msg.fixed_invalid_cleared i)]
          else [])
  else []

/-- What one iteration of the inode loop appends to the log for inode `i`, when the inode
read is valid or not (`v`), holds the direct pointer `d`, its inode-bitmap bit reads `m`, and
the data-bitmap bit and the seen bit of `d` read `u` and `sn`. -/
def step_events (fix_mode : Bool) (i : Nat) (v : Bool) (d : Nat) (m u sn : Bool) :
    List Event :=
  Event.read_inode i :: inode_bitmap_events fix_mode i v m
  ++ (if v then direct_events fix_mode i d u sn else [])

/-- What the iteration for inode `i` appends to the log, in terms of the image and the two
bitmaps the loop starts from. -/
def scan_events (fix_mode : Bool) (img : Image) (ib0 db0 : Buffer) (i : Nat) : List Event :=
  step_events fix_mode i (valid img i) (direct img i) (bit ib0 i)
    (bit db0 (direct img i - DATA_BLOCK_START) || (fix_mode && claimed img i (direct img i)))
    (claimed img i (direct img i))

/-- What one iteration of the sweep appends to the log for relative block `i`, when its
data-bitmap bit reads `u` and its seen bit reads `sn`. -/
def sweep_events (fix_mode : Bool) (i : Nat) (u sn : Bool) : List Event :=
  Event.is_block_used Bitmap.data_bitmap i
  :: (if u then
        Event.is_block_used Bitmap.seen_data_blocks i
          :: (if sn then []
              else Event.printf (Msg.unreferenced (i + DATA_BLOCK_START))
                :: (if fix_mode then
                      [Event.clear_block_used Bitmap.data_bitmap i,
                        Event.printf (Msg.fixed_unreferenced_cleared (i + DATA_BLOCK_START))]
                    else []))
      else [])

/-- The lines one superblock check prints. -/
def sb_check_msgs (fix_mode bad : Bool) (msg : Msg) : List Msg :=
  if bad then (if fix_mode then [msg, Msg.fixed] else [msg]) else []

/-- The lines the nine superblock checks print for the record `sb` read from block 0. -/
def sb_msgs (fix_mode : Bool) (sb : Buffer) : List Msg :=
  sb_check_msgs fix_mode (Superblock.magic sb != SUPERBLOCK_MAGIC)
    (Msg.invalid_magic (Superblock.magic sb))
  ++ sb_check_msgs fix_mode (Superblock.block_size sb != BLOCK_SIZE)
    (Msg.block_size (Superblock.block_size sb))
  ++ sb_check_msgs fix_mode (Superblock.total_blocks sb != TOTAL_BLOCKS)
    (Msg.total_blocks (Superblock.total_blocks sb))
  ++ sb_check_msgs fix_mode (Superblock.inode_bitmap_block sb != 1)
    (Msg.inode_bitmap_block (Superblock.inode_bitmap_block sb))
  ++ sb_check_msgs fix_mode (Superblock.data_bitmap_block sb != 2)
    (Msg.data_bitmap_block (Superblock.data_bitmap_block sb))
  ++ sb_check_msgs fix_mode (Superblock.inode_table_start sb != INODE_TABLE_START)
    (Msg.inode_table_start (Superblock.inode_table_start sb))
  ++ sb_check_msgs fix_mode (Superblock.first_data_block sb != DATA_BLOCK_START)
    (Msg.first_data_block (Superblock.first_data_block sb))
  ++ sb_check_msgs fix_mode (Superblock.inode_size sb != INODE_SIZE)
    (Msg.inode_size (Superblock.inode_size sb))
  ++ sb_check_msgs fix_mode (decide (Superblock.inode_count sb > MAX_INODES))
    (Msg.inode_count_exceeds (Superblock.inode_count sb))

/-- Some superblock check fires on the record `sb`. -/
def sb_bad (sb : Buffer) : Bool :=
  Superblock.magic sb != SUPERBLOCK_MAGIC || Superblock.block_size sb != BLOCK_SIZE
  || Superblock.total_blocks sb != TOTAL_BLOCKS || Superblock.inode_bitmap_block sb != 1
  || Superblock.data_bitmap_block sb != 2
  || Superblock.inode_table_start sb != INODE_TABLE_START
  || Superblock.first_data_block sb != DATA_BLOCK_START
  || Superblock.inode_size sb != INODE_SIZE
  || decide (Superblock.inode_count sb > MAX_INODES)

/-- The superblock fields the checker enforces, all at their expected value, with the inode
count at most `MAX_INODES`. -/
def sb_ok (sb : Buffer) : Prop :=
  Superblock.magic sb = SUPERBLOCK_MAGIC ∧ Superblock.block_size sb = BLOCK_SIZE
  ∧ Superblock.total_blocks sb = TOTAL_BLOCKS ∧ Superblock.inode_bitmap_block sb = 1
  ∧ Superblock.data_bitmap_block sb = 2
  ∧ Superblock.inode_table_start sb = INODE_TABLE_START
  ∧ Superblock.first_data_block sb = DATA_BLOCK_START
  ∧ Superblock.inode_size sb = INODE_SIZE
  ∧ Superblock.inode_count sb ≤ MAX_INODES

/-- The log when the inode loop of a run starts, given the blocks the bitmaps are read
from. -/
def start_log (fix_mode : Bool) (sb : Buffer) (b1 b2 : Int) : List Event :=
  [Event.read_block 0, Event.printf Msg.validating_superblock]
  ++ (sb_msgs fix_mode sb).map Event.printf
  ++ (if fix_mode = true ∧ sb_bad sb = true then
        [Event.printf Msg.writing_superblock, Event.write_block 0]
      else [])
  ++ [Event.read_block b1, Event.read_block b2, Event.printf Msg.checking_inodes]

/-- What the final write-back appends to the log. -/
def write_back_events (fix_mode : Bool) (b1 b2 : Int) : List Event :=
  if fix_mode = true then
    [Event.write_block b1, Event.write_block b2, Event.printf Msg.all_fixed]
  else []

/-! ## The loops step by step, and what holds after `n` iterations -/

/-- The state of the inode loop after its first `n` iterations. -/
def scan_upto (env : Env) (fix_mode : Bool) (st : State) (n : Nat) : State :=
  (List.range n).foldl (scan_step env fix_mode) st

/-- What holds after `n` iterations of the inode loop started on image `img` with the
bitmaps `ib0`, `db0`, an empty seen set and the log `log0`. -/
structure ScanInv (fix_mode : Bool) (img : Image) (ib0 db0 : Buffer) (log0 : List Event)
    (n : Nat) (st : State) : Prop where
  size : st.fp.size = img.size
  zeroed : ∀ j k, j < n → fix_mode = true → cleared img j = true →
    12288 + 256 * j + 40 ≤ k → k < 12288 + 256 * j + 44 → st.fp.byte k = 0
  kept : ∀ k, (∀ j, j < n → fix_mode = true → cleared img j = true →
    ¬ (12288 + 256 * j + 40 ≤ k ∧ k < 12288 + 256 * j + 44)) → st.fp.byte k = img.byte k
  ib : ∀ j, bit st.inode_bitmap j = if fix_mode = true ∧ j < n then valid img j else bit ib0 j
  ib_bytes : ∀ k, 10 ≤ k → st.inode_bitmap k = ib0 k
  ib_same : (fix_mode = true → ∀ j, j < n → bit ib0 j = valid img j) → st.inode_bitmap = ib0
  db : ∀ r, bit st.data_bitmap r
    = (bit db0 r || (fix_mode && (decide (r < 56) && claimed img n (r + 8))))
  db_bytes : ∀ k, 7 ≤ k → st.data_bitmap k = db0 k
  db_same : (fix_mode = true → ∀ j, j < n → valid img j = true → 8 ≤ direct img j →
    direct img j < 64 → bit db0 (direct img j - 8) = true) → st.data_bitmap = db0
  seen : ∀ r, bit st.seen_data_blocks r = (decide (r < 56) && claimed img n (r + 8))
  log : st.log = log0 ++ (List.range n).flatMap (scan_events fix_mode img ib0 db0)

/-- The state of the sweep loop after its first `n` iterations. -/
def sweep_upto (fix_mode : Bool) (st : State) (n : Nat) : State :=
  (List.range n).foldl (sweep_step fix_mode) st

/-- What holds after `n` iterations of the sweep started in state `st0`. -/
structure SweepInv (fix_mode : Bool) (st0 : State) (n : Nat) (st : State) : Prop where
  fp : st.fp = st0.fp
  ib : st.inode_bitmap = st0.inode_bitmap
  seen : st.seen_data_blocks = st0.seen_data_blocks
  db : ∀ r, bit st.data_bitmap r
    = if fix_mode = true ∧ r < n then (bit st0.data_bitmap r && bit st0.seen_data_blocks r)
      else bit st0.data_bitmap r
  db_bytes : ∀ k, n ≤ 8 * k → st.data_bitmap k = st0.data_bitmap k
  db_same : (fix_mode = true → ∀ r, r < n → bit st0.data_bitmap r = true →
    bit st0.seen_data_blocks r = true) → st.data_bitmap = st0.data_bitmap
  log : st.log = st0.log ++ (List.range n).flatMap
    (fun i => sweep_events fix_mode i (bit st0.data_bitmap i) (bit st0.seen_data_blocks i))

/-! ## The phases of a run -/

/-- The memory from `&sb` on as `read_block(fp, 0, &sb)` leaves it. -/
def sb_read (env : Env) (img : Image) : Buffer :=
  fun j => if j < 4096 then img.byte j else sb_block env env.sb j

/-- The superblock record after the nine checks of a run in the given mode. -/
def sb_used (env : Env) (fix_mode : Bool) (img : Image) : Buffer :=
  (superblock_phase env fix_mode { size := img.size, byte := img.byte, pos := 0 }).1

/-- The state in which the inode loop starts. -/
def scan_start (env : Env) (fix_mode : Bool) (img : Image) : State :=
  load_bitmaps env (sb_used env fix_mode img)
    (superblock_phase env fix_mode { size := img.size, byte := img.byte, pos := 0 }).2.1
    (superblock_phase env fix_mode { size := img.size, byte := img.byte, pos := 0 }).2.2

/-- The state after the inode loop of a run. -/
def scanned (env : Env) (fix_mode : Bool) (img : Image) : State :=
  scan env fix_mode (scan_start env fix_mode img)

/-- The state after the sweep of a run. -/
def swept (env : Env) (fix_mode : Bool) (img : Image) : State :=
  sweep fix_mode (scanned env fix_mode img)

/-- The state in which the run ends. -/
def final_state (env : Env) (fix_mode : Bool) (img : Image) : State :=
  write_back fix_mode (sb_used env fix_mode img)
    (sweep fix_mode (scan env fix_mode (scan_start env fix_mode img)))

/-- The bytes of the image file once the superblock phase of a repair run is over. -/
def sb_written (env : Env) (img : Image) : Nat → Nat :=
  if sb_bad (sb_read env img) = true then
    fun j => if j < 4096 then sb_used env true img j else img.byte j
  else img.byte

/-- The image file when the inode loop of a repair run starts: the input image with block 0
as the superblock phase left it. -/
def after_sb (env : Env) (img : Image) : Image :=
  { size := img.size, byte := sb_written env img }

/-- The inode bitmap a repair run loads. -/
def ib_loaded (env : Env) (img : Image) : Buffer :=
  fun j => if j < 4096 then img.byte (4096 + j) else env.inode_bitmap j

/-- The data bitmap a repair run loads. -/
def db_loaded (env : Env) (img : Image) : Buffer :=
  fun j => if j < 4096 then img.byte (8192 + j) else env.data_bitmap j

/-! ## Reports: kinds, counts, and the reports in order -/

/-- The kinds of inconsistency report. -/
inductive Kind where
  | superblock
  | inode_bitmap
  | data_bitmap
  | duplicate
  | invalid_pointer
  | unreferenced
  deriving DecidableEq, Repr

/-- The kind of a report line (`none` for the lines that are not reports). -/
def Msg.kind : Msg → Option Kind
  | .invalid_magic _ => some Kind.superblock
  | .block_size _ => some Kind.superblock
  | .total_blocks _ => some Kind.superblock
  | .inode_bitmap_block _ => some Kind.superblock
  | .data_bitmap_block _ => some Kind.superblock
  | .inode_table_start _ => some Kind.superblock
  | .first_data_block _ => some Kind.superblock
  | .inode_size _ => some Kind.superblock
  | .inode_count_exceeds _ => some Kind.superblock
  | .inode_marked_but_invalid _ => some Kind.inode_bitmap
  | .inode_not_marked_but_valid _ => some Kind.inode_bitmap
  | .data_block_not_marked _ _ => some Kind.data_bitmap
  | .duplicate_block _ _ => some Kind.duplicate
  | .invalid_direct _ _ => some Kind.invalid_pointer
  | .unreferenced _ => some Kind.unreferenced
  | _ => none

/-- The inode a report line names, if it names one. -/
def Msg.inode : Msg → Option Nat
  | .inode_marked_but_invalid i => some i
  | .inode_not_marked_but_valid i => some i
  | .data_block_not_marked _ i => some i
  | .duplicate_block _ i => some i
  | .invalid_direct _ i => some i
  | _ => none

/-- The inode an event is about, if any: the one named by the report it prints, or the one
whose record it reads or writes. -/
def Event.inode : Event → Option Nat
  | .printf m => m.inode
  | .read_inode i => some i
  | .write_inode i => some i
  | _ => none

/-- The event prints a report of kind `k` that names inode `i`. -/
def Event.reportsOn (k : Kind) (i : Nat) : Event → Bool
  | .printf m => decide (m.kind = some k) && decide (m.inode = some i)
  | _ => false

/-- The number of reports of kind `k` naming inode `i` in a log. -/
def report_count (k : Kind) (i : Nat) (log : List Event) : Nat :=
  log.countP (Event.reportsOn k i)

/-- The event prints a report of the sweep. -/
def Event.isUnreferenced : Event → Bool
  | .printf (.unreferenced _) => true
  | _ => false

/-- The reports of one iteration of the inode loop, spelled out. -/
def step_reports (i : Nat) (v : Bool) (d : Nat) (m u sn : Bool) : List Msg :=
  (if m = true ∧ v = false then [Msg.inode_marked_but_invalid i]
    else if m = false ∧ v = true then [Msg.inode_not_marked_but_valid i]
    else [])
  ++ (if v = true then
        (if DATA_BLOCK_START ≤ d ∧ d < TOTAL_BLOCKS then
          (if u = true then [] else [Msg.data_block_not_marked d i])
          ++ (if sn = true then [Msg.duplicate_block d i] else [])
        else if d ≠ 0 then [Msg.invalid_direct d i]
        else [])
      else [])

/-- The superblock reports for the record `sb`: one line for each field that deviates, in
the order of the checks. -/
def sb_deviations (sb : Buffer) : List Msg :=
  (if Superblock.magic sb ≠ SUPERBLOCK_MAGIC then [Msg.invalid_magic (Superblock.magic sb)]
    else [])
  ++ (if Superblock.block_size sb ≠ BLOCK_SIZE then [Msg.block_size (Superblock.block_size sb)]
      else [])
  ++ (if Superblock.total_blocks sb ≠ TOTAL_BLOCKS then
        [Msg.total_blocks (Superblock.total_blocks sb)] else [])
  ++ (if Superblock.inode_bitmap_block sb ≠ 1 then
        [Msg.inode_bitmap_block (Superblock.inode_bitmap_block sb)] else [])
  ++ (if Superblock.data_bitmap_block sb ≠ 2 then
        [Msg.data_bitmap_block (Superblock.data_bitmap_block sb)] else [])
  ++ (if Superblock.inode_table_start sb ≠ INODE_TABLE_START then
        [Msg.inode_table_start (Superblock.inode_table_start sb)] else [])
  ++ (if Superblock.first_data_block sb ≠ DATA_BLOCK_START then
        [Msg.first_data_block (Superblock.first_data_block sb)] else [])
  ++ (if Superblock.inode_size sb ≠ INODE_SIZE then
        [Msg.inode_size (Superblock.inode_size sb)] else [])
  ++ (if Superblock.inode_count sb > MAX_INODES then
        [Msg.inode_count_exceeds (Superblock.inode_count sb)] else [])

/-- The reports of the inode loop and of the sweep of a run, in order. -/
def later_reports (env : Env) (fix_mode : Bool) (img : Image) : List Msg :=
  (List.range MAX_INODES).flatMap (fun i =>
      step_reports i (valid img i) (direct img i)
        (bit (scan_start env fix_mode img).inode_bitmap i)
        (bit (scan_start env fix_mode img).data_bitmap (direct img i - DATA_BLOCK_START)
          || (fix_mode && claimed img i (direct img i)))
        (claimed img i (direct img i)))
  ++ (List.range DATA_BLOCK_COUNT).flatMap (fun r =>
      if (bit (scan_start env fix_mode img).data_bitmap r
            || (fix_mode && claimed img MAX_INODES (r + DATA_BLOCK_START))) = true
          ∧ claimed img MAX_INODES (r + DATA_BLOCK_START) = false
      then [Msg.unreferenced (r + DATA_BLOCK_START)] else [])

/-! ## Consistent images and the concrete scenario -/

/-- An image on which the checker has nothing to report: the superblock fields are the
expected ones, the inode bitmap agrees with validity, every valid inode has a direct pointer
that is zero or in range and stored by no valid inode of lower index, and the data bitmap
marks exactly the blocks that valid inodes store. -/
def Consistent (img : Image) : Prop :=
  sb_ok (block img 0)
  ∧ (∀ i, i < MAX_INODES → bit (block img 1) i = valid img i)
  ∧ (∀ i, i < MAX_INODES → cleared img i = false)
  ∧ (∀ r, r < DATA_BLOCK_COUNT →
      bit (block img 2) r = claimed img MAX_INODES (r + DATA_BLOCK_START))

/-- The images of the concrete scenario: 64 blocks of 4096 bytes, consistent except that
the superblock magic is 0 and that inode 5 (`links = 1`, `dtime = 0`, `direct = 10`) is
missing from both bitmaps: inode-bitmap bit 5 and data-bitmap bit 2 are clear. -/
structure Scenario (img : Image) : Prop where
  size : img.size = 64 * 4096
  magic : Superblock.magic (block img 0) = 0
  block_size : Superblock.block_size (block img 0) = 4096
  total_blocks : Superblock.total_blocks (block img 0) = 64
  inode_bitmap_block : Superblock.inode_bitmap_block (block img 0) = 1
  data_bitmap_block : Superblock.data_bitmap_block (block img 0) = 2
  inode_table_start : Superblock.inode_table_start (block img 0) = 3
  first_data_block : Superblock.first_data_block (block img 0) = 8
  inode_size : Superblock.inode_size (block img 0) = 256
  inode_count : Superblock.inode_count (block img 0) ≤ 80
  links5 : Inode.links (inode_at img 5) = 1
  dtime5 : Inode.dtime (inode_at img 5) = 0
  direct5 : Inode.direct (inode_at img 5) = 10
  inode_bit5 : bit (block img 1) 5 = false
  data_bit2 : bit (block img 2) 2 = false
  inode_bits : ∀ i, i < 80 → i ≠ 5 → bit (block img 1) i = valid img i
  pointers : ∀ i, i < 80 → i ≠ 5 → valid img i = true →
    direct img i = 0
      ∨ (8 ≤ direct img i ∧ direct img i < 64 ∧ direct img i ≠ 10
          ∧ ∀ j, j < i → valid img j = true → direct img j ≠ direct img i)
  data_bits : ∀ r, r < 56 → r ≠ 2 → bit (block img 2) r = claimed img 80 (r + 8)

/-! ## Sample inputs -/

/-- An environment whose uninitialised memory is all zero. -/
def sample_env : Env :=
  { sb := fun _ => 0, past_sb := fun _ => 0, inode_bitmap := fun _ => 0,
    data_bitmap := fun _ => 0, inode := fun _ => 0 }

/-- A 64-block image of zero bytes. -/
def zero_image : Image := { size := 262144, byte := fun _ => 0 }

/-- An image of 1000 zero bytes, too small to be checked. -/
def small_image : Image := { size := 1000, byte := fun _ => 0 }

/-- The image of the concrete scenario: 64 blocks, a superblock that is correct except for
a magic of 0, inode 5 with `links = 1`, `dtime = 0` and `direct = 10`, and both bitmaps
empty (so inode-bitmap bit 5 and data-bitmap bit 2 are clear). -/
def scenario_image : Image :=
  { size := 262144
    byte := fun k =>
      if k = 3 then 16
      else if k = 6 then 64
      else if k = 10 then 1
      else if k = 14 then 2
      else if k = 18 then 3
      else if k = 22 then 8
      else if k = 27 then 1
      else if k = 30 then 80
      else if k = 13600 then 1
      else if k = 13608 then 10
      else 0 }

/-- A 64-block image that is consistent (inode 0 is valid and owns block 9; inode-bitmap bit
0 and data-bitmap bit 1 are set) except that its superblock names block 2 as the inode
bitmap block. -/
def relocated_image : Image :=
  { size := 262144
    byte := fun k =>
      if k = 0 then 77 else if k = 1 then 211
      else if k = 3 then 16
      else if k = 6 then 64
      else if k = 10 then 2
      else if k = 14 then 2
      else if k = 18 then 3
      else if k = 22 then 8
      else if k = 27 then 1
      else if k = 30 then 80
      else if k = 4096 then 1
      else if k = 8192 then 2
      else if k = 12320 then 1
      else if k = 12328 then 9
      else 0 }

/-- An image with a correct superblock in which inodes 0 and 1 are valid and both store the
direct pointer 9, and inode 2 is valid and stores the out-of-range pointer 100; inode-bitmap
bits 0 to 2 and data-bitmap bit 1 are set. -/
def duplicate_image : Image :=
  { size := 262144
    byte := fun k =>
      if k = 0 then 77 else if k = 1 then 211
      else if k = 3 then 16
      else if k = 6 then 64
      else if k = 10 then 1
      else if k = 14 then 2
      else if k = 18 then 3
      else if k = 22 then 8
      else if k = 27 then 1
      else if k = 30 then 80
      else if k = 4096 then 7
      else if k = 8192 then 2
      else if k = 12320 then 1
      else if k = 12328 then 9
      else if k = 12576 then 1
      else if k = 12584 then 9
      else if k = 12832 then 1
      else if k = 12840 then 100
      else 0 }

/-! ## Visits and bitmap accesses in the log -/

/-- The inode indices of the `read_inode` calls of a log, in order. -/
def inode_reads (log : List Event) : List Nat :=
  log.filterMap fun e =>
    match e with
    | Event.read_inode i => some i
    | _ => none

/-- The bit indices at which a log tests the data bitmap, in order. -/
def data_bitmap_tests (log : List Event) : List Nat :=
  log.filterMap fun e =>
    match e with
    | Event.is_block_used Bitmap.data_bitmap i => some i
    | _ => none

/-- What the inode loop of a run appends to the log. -/
def scan_log (env : Env) (fix_mode : Bool) (img : Image) : List Event :=
  (scanned env fix_mode img).log.drop (scan_start env fix_mode img).log.length

/-- What the sweep of a run appends to the log. -/
def sweep_log (env : Env) (fix_mode : Bool) (img : Image) : List Event :=
  (swept env fix_mode img).log.drop (scanned env fix_mode img).log.length

/-- The number of bits of each bitmap that belong to a slot: one per inode for the inode
bitmap, one per data block for the data bitmap and the seen set. -/
def Bitmap.bits : Bitmap → Nat
  | .inode_bitmap => MAX_INODES
  | .data_bitmap => DATA_BLOCK_COUNT
  | .seen_data_blocks => DATA_BLOCK_COUNT

/-- The bitmap and the bit index of a call of `is_block_used`, `set_block_used` or
`clear_block_used` (`none` for the other events). -/
def Event.access : Event → Option (Bitmap × Nat)
  | .is_block_used b k => some (b, k)
  | .set_block_used b k => some (b, k)
  | .clear_block_used b k => some (b, k)
  | _ => none

/-- A bitmap access of iteration `i` of the inode loop is one it may make: bit `i` of the
inode bitmap, or, for a valid inode whose pointer `d` is in range, bit `d - 8` of the data
bitmap or of the seen set. -/
def step_access_ok (i : Nat) (v : Bool) (d : Nat) (e : Event) : Bool :=
  match e.access with
  | none => true
  | some (Bitmap.inode_bitmap, k) => decide (k = i)
  | some (_, k) => v && decide (DATA_BLOCK_START ≤ d ∧ d < TOTAL_BLOCKS ∧ d = k + DATA_BLOCK_START)

/-! ## The reports of the two modes compared -/

/-- A "not marked in bitmap" report that names an inode whose block is stored by a valid
inode of lower index as well. -/
def repeated_unmarked (img : Image) : Msg → Bool
  | .data_block_not_marked d i => claimed img i d
  | _ => false

/-- The reports of a run in terms of the image alone, for a run that loads the bitmaps from
blocks 1 and 2. -/
def reports_of (fix_mode : Bool) (img : Image) : List Msg :=
  sb_deviations (block img 0)
  ++ (List.range MAX_INODES).flatMap (fun i =>
      step_reports i (valid img i) (direct img i) (bit (block img 1) i)
        (bit (block img 2) (direct img i - DATA_BLOCK_START)
          || (fix_mode && claimed img i (direct img i)))
        (claimed img i (direct img i)))
  ++ (List.range DATA_BLOCK_COUNT).flatMap (fun r =>
      if (bit (block img 2) r
            || (fix_mode && claimed img MAX_INODES (r + DATA_BLOCK_START))) = true
          ∧ claimed img MAX_INODES (r + DATA_BLOCK_START) = false
      then [Msg.unreferenced (r + DATA_BLOCK_START)] else [])

/-! ## Further sample inputs -/

/-- A bitmap whose first two bytes are `0xA5` and `0x0F`, the rest zero. -/
def sample_bitmap : Buffer := fun j => if j = 0 then 165 else if j = 1 then 15 else 0

/-- An image with a correct superblock in which inode 0 is valid and stores the direct
pointer 9, inode 1 is not valid (`links = 0`) and stores 9 as well, and inode 2 is not valid
and stores the out-of-range pointer 100; inode-bitmap bit 0 and data-bitmap bit 1 are set. -/
def stale_pointer_image : Image :=
  { size := 262144
    byte := fun k =>
      if k = 0 then 77 else if k = 1 then 211
      else if k = 3 then 16
      else if k = 6 then 64
      else if k = 10 then 1
      else if k = 14 then 2
      else if k = 18 then 3
      else if k = 22 then 8
      else if k = 27 then 1
      else if k = 30 then 80
      else if k = 4096 then 1
      else if k = 8192 then 2
      else if k = 12320 then 1
      else if k = 12328 then 9
      else if k = 12584 then 9
      else if k = 12840 then 100
      else 0 }

/-- An environment in which the four bytes that follow `sb` in memory hold 1, 0, 0, 0 (an
`int` of value 1, say) and the rest of the uninitialised memory is zero. -/
def overrun_env : Env :=
  { sb := fun _ => 0, past_sb := fun j => if j = 0 then 1 else 0, inode_bitmap := fun _ => 0,
    data_bitmap := fun _ => 0, inode := fun _ => 0 }

/-- An image with a correct superblock in which inodes 0 and 1 are valid and both store the
direct pointer 9; inode-bitmap bits 0 and 1 are set and the data bitmap is empty. -/
def unmarked_shared_image : Image :=
  { size := 262144
    byte := fun k =>
      if k = 0 then 77 else if k = 1 then 211
      else if k = 3 then 16
      else if k = 6 then 64
      else if k = 10 then 1
      else if k = 14 then 2
      else if k = 18 then 3
      else if k = 22 then 8
      else if k = 27 then 1
      else if k = 30 then 80
      else if k = 4096 then 3
      else if k = 12320 then 1
      else if k = 12328 then 9
      else if k = 12576 then 1
      else if k = 12584 then 9
      else 0 }

/-! ## Arithmetic and bit lemmas -/

theorem to_int32_of_lt (n : Int) (h0 : 0 ≤ n) (h : n < 2147483648) : to_int32 n = n := by
  unfold to_int32
  omega

theorem inode_seek_offset_eq (i : Nat) (hi : i < MAX_INODES) :
    inode_seek_offset i = ((12288 + 256 * i : Nat) : Int) := by
  have hi2 : i < 80 := hi
  unfold inode_seek_offset
  simp only [INODE_TABLE_START, INODES_PER_BLOCK, BLOCK_SIZE, INODE_SIZE]
  rw [to_int32_of_lt _ (by omega) (by omega)]
  congr 1
  omega

theorem inode_at_apply (img : Image) (i j : Nat) :
    inode_at img i j = img.byte (12288 + 256 * i + j) := by
  unfold inode_at
  simp only [INODE_TABLE_START, INODES_PER_BLOCK, BLOCK_SIZE, INODE_SIZE]
  congr 1
  omega

theorem is_block_used_eq (b : Buffer) (i : Nat) :
    is_block_used b i = if bit b i then 1 else 0 := by
  unfold is_block_used bit
  rw [Nat.and_one_is_mod, Nat.testBit, Nat.and_comm, Nat.and_one_is_mod]
  rcases Nat.mod_two_eq_zero_or_one (b (i / 8) >>> (i % 8)) with h | h <;> simp [h]

theorem is_block_used_ne_zero (b : Buffer) (i : Nat) :
    is_block_used b i ≠ 0 ↔ bit b i = true := by
  rw [is_block_used_eq]; split <;> simp_all

theorem is_block_used_eq_zero (b : Buffer) (i : Nat) :
    is_block_used b i = 0 ↔ bit b i = false := by
  rw [is_block_used_eq]; split <;> simp_all

theorem index_eq_of_div_mod {i j : Nat} (h1 : j / 8 = i / 8) (h2 : i % 8 = j % 8) : j = i := by
  omega

theorem bit_set_block_used (b : Buffer) (i j : Nat) :
    bit (set_block_used b i) j = (decide (j = i) || bit b j) := by
  unfold bit set_block_used
  by_cases h : j / 8 = i / 8
  · have hj : j % 8 < 8 := Nat.mod_lt _ (by decide)
    have h256 : (256 : Nat) = 2 ^ 8 := by norm_num
    simp only [h, if_true]
    rw [h256, Nat.testBit_mod_two_pow, Nat.testBit_or, Nat.one_shiftLeft, Nat.testBit_two_pow]
    by_cases hm : i % 8 = j % 8
    · have : j = i := index_eq_of_div_mod h hm
      simp [hj, hm, this]
    · have : j ≠ i := fun e => hm (by rw [e])
      simp [hj, hm, this]
  · have : j ≠ i := fun e => h (by rw [e])
    simp [h, this]

theorem bit_clear_block_used (b : Buffer) (i j : Nat) :
    bit (clear_block_used b i) j = (decide (j ≠ i) && bit b j) := by
  unfold bit clear_block_used
  by_cases h : j / 8 = i / 8
  · have hj : j % 8 < 8 := Nat.mod_lt _ (by decide)
    have hi : i % 8 < 8 := Nat.mod_lt _ (by decide)
    have h256 : (256 : Nat) = 2 ^ 8 := by norm_num
    have h32 : (4294967295 : Nat) = 2 ^ 32 - 1 := by norm_num
    simp only [h, if_true]
    rw [h256, Nat.testBit_mod_two_pow, Nat.testBit_and, Nat.testBit_xor, h32,
      Nat.testBit_two_pow_sub_one, Nat.one_shiftLeft, Nat.testBit_two_pow]
    have hj32 : j % 8 < 32 := by omega
    by_cases hm : i % 8 = j % 8
    · have hji : j = i := index_eq_of_div_mod h hm
      subst hji
      simp [hj, hj32]
    · have : j ≠ i := fun e => hm (by rw [e])
      simp [hj, hj32, hm, this]
  · have : j ≠ i := fun e => h (by rw [e])
    simp [h, this]

/-! ## The stdio calls inside the file -/

theorem fread_fseek (fp : FILE) (o n : Nat) (buf : Buffer) (h : o + n ≤ fp.size) :
    fread (fseek fp (o : Int)) n buf
      = (fun j => if j < n then fp.byte (o + j) else buf j,
          { size := fp.size, byte := fp.byte, pos := o + n }) := by
  have hneg : ¬ ((o : Int) < 0) := by omega
  have hk : min n (fp.size - o) = n := by omega
  simp [fread, fseek, hneg, hk]

theorem fwrite_fseek (fp : FILE) (o n : Nat) (buf : Buffer) (h : o + n ≤ fp.size) :
    fwrite (fseek fp (o : Int)) n buf
      = { size := fp.size,
          byte := fun j => if o ≤ j ∧ j < o + n then buf (j - o) else fp.byte j,
          pos := o + n } := by
  have hneg : ¬ ((o : Int) < 0) := by omega
  have hk : max fp.size (o + n) = fp.size := by omega
  simp only [fwrite, fseek, hneg, if_false, Int.toNat_ofNat, hk]
  congr 1
  funext j
  by_cases h1 : o ≤ j ∧ j < o + n
  · simp [h1]
  · have h2 : ¬ (fp.size ≤ j ∧ j < o) := by omega
    simp [h1, h2]

theorem block_offset_eq (n : Nat) (hn : n < TOTAL_BLOCKS) :
    to_int32 ((n : Int) * (BLOCK_SIZE : Nat)) = ((n * 4096 : Nat) : Int) := by
  have hn2 : n < 64 := hn
  rw [to_int32_of_lt _ (by simp only [BLOCK_SIZE]; omega) (by simp only [BLOCK_SIZE]; omega)]
  simp only [BLOCK_SIZE]
  omega

theorem read_block_eq (fp : FILE) (n : Nat) (buf : Buffer) (hn : n < TOTAL_BLOCKS)
    (hs : TOTAL_BLOCKS * BLOCK_SIZE ≤ fp.size) :
    read_block fp (n : Int) buf
      = (fun j => if j < 4096 then fp.byte (n * 4096 + j) else buf j,
          { size := fp.size, byte := fp.byte, pos := n * 4096 + 4096 }) := by
  have hn2 : n < 64 := hn
  have hs2 : 262144 ≤ fp.size := hs
  unfold read_block
  rw [block_offset_eq n hn, fread_fseek fp (n * 4096) BLOCK_SIZE buf
    (by simp only [BLOCK_SIZE]; omega)]

theorem write_block_eq (fp : FILE) (n : Nat) (buf : Buffer) (hn : n < TOTAL_BLOCKS)
    (hs : TOTAL_BLOCKS * BLOCK_SIZE ≤ fp.size) :
    write_block fp (n : Int) buf
      = { size := fp.size,
          byte := fun j => if n * 4096 ≤ j ∧ j < n * 4096 + 4096 then buf (j - n * 4096)
            else fp.byte j,
          pos := n * 4096 + 4096 } := by
  have hn2 : n < 64 := hn
  have hs2 : 262144 ≤ fp.size := hs
  unfold write_block
  rw [block_offset_eq n hn, fwrite_fseek fp (n * 4096) BLOCK_SIZE buf
    (by simp only [BLOCK_SIZE]; omega)]

theorem read_inode_eq (fp : FILE) (i : Nat) (buf : Buffer) (hi : i < MAX_INODES)
    (hs : TOTAL_BLOCKS * BLOCK_SIZE ≤ fp.size) :
    read_inode fp i buf
      = (fun j => if j < 212 then fp.byte (12288 + 256 * i + j) else buf j,
          { size := fp.size, byte := fp.byte, pos := 12288 + 256 * i + 212 }) := by
  have hi2 : i < 80 := hi
  have hs2 : 262144 ≤ fp.size := hs
  unfold read_inode
  rw [inode_seek_offset_eq i hi, fread_fseek fp (12288 + 256 * i) sizeof_Inode buf
    (by simp only [sizeof_Inode]; omega)]

theorem write_inode_eq (fp : FILE) (i : Nat) (buf : Buffer) (hi : i < MAX_INODES)
    (hs : TOTAL_BLOCKS * BLOCK_SIZE ≤ fp.size) :
    write_inode fp i buf
      = { size := fp.size,
          byte := fun j => if 12288 + 256 * i ≤ j ∧ j < 12288 + 256 * i + 212
            then buf (j - (12288 + 256 * i)) else fp.byte j,
          pos := 12288 + 256 * i + 212 } := by
  have hi2 : i < 80 := hi
  have hs2 : 262144 ≤ fp.size := hs
  unfold write_inode
  rw [inode_seek_offset_eq i hi, fwrite_fseek fp (12288 + 256 * i) sizeof_Inode buf
    (by simp only [sizeof_Inode]; omega)]

/-- Fields of a record depend only on the bytes they occupy. -/
theorem get_u32_congr (a b : Buffer) (off : Nat)
    (h : ∀ j, off ≤ j → j < off + 4 → a j = b j) : get_u32 a off = get_u32 b off := by
  unfold get_u32
  rw [h off (by omega) (by omega), h (off + 1) (by omega) (by omega),
    h (off + 2) (by omega) (by omega), h (off + 3) (by omega) (by omega)]

theorem get_u16_congr (a b : Buffer) (off : Nat)
    (h : ∀ j, off ≤ j → j < off + 2 → a j = b j) : get_u16 a off = get_u16 b off := by
  unfold get_u16
  rw [h off (by omega) (by omega), h (off + 1) (by omega) (by omega)]

theorem bit_congr (a b : Buffer) (i : Nat) (h : a (i / 8) = b (i / 8)) : bit a i = bit b i := by
  unfold bit
  rw [h]

/-! ## One iteration of each loop in closed form -/

/-- Lines 196-224 in closed form. -/
theorem check_direct_eq (fix_mode : Bool) (st : State) (i : Nat) (inode : Buffer) :
    check_direct fix_mode st i inode
      = { fp := if fix_mode = true ∧ clears (Inode.direct inode)
                    (bit st.seen_data_blocks (Inode.direct inode - DATA_BLOCK_START)) = true
                then write_inode st.fp i (set_u32 inode 40 0) else st.fp
          inode_bitmap := st.inode_bitmap
          data_bitmap :=
            if fix_mode = true ∧ (DATA_BLOCK_START ≤ Inode.direct inode
                ∧ Inode.direct inode < TOTAL_BLOCKS)
                ∧ bit st.data_bitmap (Inode.direct inode - DATA_BLOCK_START) = false
            then set_block_used st.data_bitmap (Inode.direct inode - DATA_BLOCK_START)
            else st.data_bitmap
          seen_data_blocks :=
            if (DATA_BLOCK_START ≤ Inode.direct inode ∧ Inode.direct inode < TOTAL_BLOCKS)
                ∧ bit st.seen_data_blocks (Inode.direct inode - DATA_BLOCK_START) = false
            then set_block_used st.seen_data_blocks (Inode.direct inode - DATA_BLOCK_START)
            else st.seen_data_blocks
          log := st.log ++ direct_events fix_mode i (Inode.direct inode)
            (bit st.data_bitmap (Inode.direct inode - DATA_BLOCK_START))
            (bit st.seen_data_blocks (Inode.direct inode - DATA_BLOCK_START)) } := by
  unfold check_direct direct_events clears
  cases fix_mode <;>
    cases hu : bit st.data_bitmap (Inode.direct inode - DATA_BLOCK_START) <;>
    cases hs : bit st.seen_data_blocks (Inode.direct inode - DATA_BLOCK_START) <;>
    by_cases hr : (DATA_BLOCK_START ≤ Inode.direct inode ∧ Inode.direct inode < TOTAL_BLOCKS) <;>
    by_cases hz : Inode.direct inode = 0 <;>
    simp [hr, hz, hu, hs, State.emit, is_block_used_eq]

/-- Lines 177-191 in closed form. -/
theorem check_inode_bitmap_eq (fix_mode : Bool) (st : State) (i : Nat) (v : Bool) :
    check_inode_bitmap fix_mode st i v
      = { fp := st.fp
          inode_bitmap :=
            if fix_mode = true ∧ bit st.inode_bitmap i = true ∧ v = false
            then clear_block_used st.inode_bitmap i
            else if fix_mode = true ∧ bit st.inode_bitmap i = false ∧ v = true
            then set_block_used st.inode_bitmap i
            else st.inode_bitmap
          data_bitmap := st.data_bitmap
          seen_data_blocks := st.seen_data_blocks
          log := st.log ++ inode_bitmap_events fix_mode i v (bit st.inode_bitmap i) } := by
  unfold check_inode_bitmap inode_bitmap_events
  cases fix_mode <;> cases v <;> cases hm : bit st.inode_bitmap i <;>
    simp [hm, State.emit, is_block_used_eq]

theorem read_inode_valid (fp : FILE) (i : Nat) (buf : Buffer) :
    (decide (Inode.links (fun j => if j < 212 then fp.byte (12288 + 256 * i + j) else buf j) > 0)
      && decide (Inode.dtime (fun j => if j < 212 then fp.byte (12288 + 256 * i + j) else buf j)
        = 0)) = valid fp.image i := by
  unfold valid Inode.links Inode.dtime
  rw [get_u32_congr _ (inode_at fp.image i) 32, get_u32_congr _ (inode_at fp.image i) 28]
  · intro j h1 h2
    have : j < 212 := by omega
    simp [this, inode_at_apply, FILE.image]
  · intro j h1 h2
    have : j < 212 := by omega
    simp [this, inode_at_apply, FILE.image]

theorem read_inode_direct (fp : FILE) (i : Nat) (buf : Buffer) :
    Inode.direct (fun j => if j < 212 then fp.byte (12288 + 256 * i + j) else buf j)
      = direct fp.image i := by
  unfold direct Inode.direct
  rw [get_u32_congr _ (inode_at fp.image i) 40]
  intro j h1 h2
  have : j < 212 := by omega
  simp [this, inode_at_apply, FILE.image]

/-- Writing back the record just read, with its `direct` field zeroed, changes the four
bytes of that field only. -/
theorem write_inode_cleared (s p : Nat) (b : Nat → Nat) (i : Nat) (buf : Buffer)
    (hi : i < MAX_INODES) (hs : TOTAL_BLOCKS * BLOCK_SIZE ≤ s) :
    write_inode { size := s, byte := b, pos := p } i
        (set_u32 (fun j => if j < 212 then b (12288 + 256 * i + j) else buf j) 40 0)
      = { size := s, byte := clear_direct b i, pos := 12288 + 256 * i + 212 } := by
  rw [write_inode_eq _ i _ hi hs]
  congr 1
  funext k
  unfold clear_direct set_u32
  by_cases h1 : 12288 + 256 * i ≤ k ∧ k < 12288 + 256 * i + 212
  · by_cases h2 : 12288 + 256 * i + 40 ≤ k ∧ k < 12288 + 256 * i + 44
    · have h3 : k - (12288 + 256 * i) = 40 ∨ k - (12288 + 256 * i) = 40 + 1
          ∨ k - (12288 + 256 * i) = 40 + 2 ∨ k - (12288 + 256 * i) = 40 + 3 := by omega
      rcases h3 with h3 | h3 | h3 | h3 <;> simp [h1, h2, h3]
    · have h40 : k - (12288 + 256 * i) ≠ 40 := by omega
      have h41 : k - (12288 + 256 * i) ≠ 40 + 1 := by omega
      have h42 : k - (12288 + 256 * i) ≠ 40 + 2 := by omega
      have h43 : k - (12288 + 256 * i) ≠ 40 + 3 := by omega
      have h5 : k - (12288 + 256 * i) < 212 := by omega
      have h6 : 12288 + 256 * i + (k - (12288 + 256 * i)) = k := by omega
      simp only [h1, h2, h40, h41, h42, h43, h5, h6, and_self, if_true, if_false]
  · have h2 : ¬ (12288 + 256 * i + 40 ≤ k ∧ k < 12288 + 256 * i + 44) := by omega
    simp only [h1, h2, if_false]

/-- One iteration of the inode loop in closed form, in terms of the image file and the
bitmaps the iteration starts from. -/
theorem scan_step_eq (env : Env) (fix_mode : Bool) (st : State) (i : Nat)
    (hi : i < MAX_INODES) (hs : TOTAL_BLOCKS * BLOCK_SIZE ≤ st.fp.size) :
    scan_step env fix_mode st i
      = { fp :=
            { size := st.fp.size
              byte :=
                if fix_mode = true ∧ valid st.fp.image i = true
                    ∧ clears (direct st.fp.image i) (bit st.seen_data_blocks
                        (direct st.fp.image i - DATA_BLOCK_START)) = true
                then clear_direct st.fp.byte i else st.fp.byte
              pos := 12288 + 256 * i + 212 }
          inode_bitmap :=
            if fix_mode = true ∧ bit st.inode_bitmap i = true ∧ valid st.fp.image i = false
            then clear_block_used st.inode_bitmap i
            else if fix_mode = true ∧ bit st.inode_bitmap i = false
                ∧ valid st.fp.image i = true
            then set_block_used st.inode_bitmap i
            else st.inode_bitmap
          data_bitmap :=
            if fix_mode = true ∧ valid st.fp.image i = true
                ∧ (DATA_BLOCK_START ≤ direct st.fp.image i
                    ∧ direct st.fp.image i < TOTAL_BLOCKS)
                ∧ bit st.data_bitmap (direct st.fp.image i - DATA_BLOCK_START) = false
            then set_block_used st.data_bitmap (direct st.fp.image i - DATA_BLOCK_START)
            else st.data_bitmap
          seen_data_blocks :=
            if valid st.fp.image i = true
                ∧ (DATA_BLOCK_START ≤ direct st.fp.image i
                    ∧ direct st.fp.image i < TOTAL_BLOCKS)
                ∧ bit st.seen_data_blocks (direct st.fp.image i - DATA_BLOCK_START) = false
            then set_block_used st.seen_data_blocks (direct st.fp.image i - DATA_BLOCK_START)
            else st.seen_data_blocks
          log := st.log ++ step_events fix_mode i (valid st.fp.image i)
            (direct st.fp.image i) (bit st.inode_bitmap i)
            (bit st.data_bitmap (direct st.fp.image i - DATA_BLOCK_START))
            (bit st.seen_data_blocks (direct st.fp.image i - DATA_BLOCK_START)) } := by
  unfold scan_step
  simp only [read_inode_eq st.fp i env.inode hi hs, read_inode_valid, check_inode_bitmap_eq,
    check_direct_eq, read_inode_direct, State.emit, write_inode_cleared _ _ _ _ _ hi hs]
  unfold step_events
  cases hv : valid st.fp.image i
  · simp
  · simp only [true_and, if_true, Bool.true_eq_false, if_false, State.mk.injEq, and_true,
      List.cons_append, List.append_assoc, List.singleton_append]
    split <;> simp

theorem sweep_step_eq (fix_mode : Bool) (st : State) (i : Nat) :
    sweep_step fix_mode st i
      = { fp := st.fp
          inode_bitmap := st.inode_bitmap
          data_bitmap :=
            if fix_mode = true ∧ bit st.data_bitmap i = true
                ∧ bit st.seen_data_blocks i = false
            then clear_block_used st.data_bitmap i else st.data_bitmap
          seen_data_blocks := st.seen_data_blocks
          log := st.log ++ sweep_events fix_mode i (bit st.data_bitmap i)
            (bit st.seen_data_blocks i) } := by
  unfold sweep_step sweep_events
  cases fix_mode <;> cases hu : bit st.data_bitmap i <;>
    cases hs : bit st.seen_data_blocks i <;>
    simp [hu, hs, State.emit, is_block_used_eq]

/-! ## What the inode table of an image says -/

theorem claimed_zero (img : Image) (b : Nat) : claimed img 0 b = false := by
  simp [claimed]

theorem claimed_succ (img : Image) (n b : Nat) :
    claimed img (n + 1) b = (claimed img n b || (valid img n && decide (direct img n = b))) := by
  simp [claimed, List.range_succ, List.any_append]

theorem claimed_iff (img : Image) (n b : Nat) :
    claimed img n b = true ↔ ∃ j, j < n ∧ valid img j = true ∧ direct img j = b := by
  simp [claimed, List.any_eq_true]

theorem valid_congr (a b : Image) (i : Nat)
    (h : ∀ j, 28 ≤ j → j < 36 → a.byte (12288 + 256 * i + j) = b.byte (12288 + 256 * i + j)) :
    valid a i = valid b i := by
  unfold valid Inode.links Inode.dtime
  rw [get_u32_congr (inode_at a i) (inode_at b i) 32, get_u32_congr (inode_at a i) (inode_at b i) 28]
  · intro j h1 h2
    rw [inode_at_apply, inode_at_apply]
    exact h j (by omega) (by omega)
  · intro j h1 h2
    rw [inode_at_apply, inode_at_apply]
    exact h j (by omega) (by omega)

theorem direct_congr (a b : Image) (i : Nat)
    (h : ∀ j, 40 ≤ j → j < 44 → a.byte (12288 + 256 * i + j) = b.byte (12288 + 256 * i + j)) :
    direct a i = direct b i := by
  unfold direct Inode.direct
  rw [get_u32_congr (inode_at a i) (inode_at b i) 40]
  intro j h1 h2
  rw [inode_at_apply, inode_at_apply]
  exact h j (by omega) (by omega)

theorem direct_eq_zero (a : Image) (i : Nat)
    (h : ∀ k, 12288 + 256 * i + 40 ≤ k → k < 12288 + 256 * i + 44 → a.byte k = 0) :
    direct a i = 0 := by
  unfold direct Inode.direct get_u32
  simp only [inode_at_apply]
  rw [h _ (by omega) (by omega), h _ (by omega) (by omega), h _ (by omega) (by omega),
    h _ (by omega) (by omega)]

/-! ## The inode loop as a whole -/

theorem foldl_range_succ {α : Type} (f : α → Nat → α) (a : α) (n : Nat) :
    (List.range (n + 1)).foldl f a = f ((List.range n).foldl f a) n := by
  rw [List.range_succ, List.foldl_append]
  rfl

theorem scan_upto_succ (env : Env) (fix_mode : Bool) (st : State) (n : Nat) :
    scan_upto env fix_mode st (n + 1)
      = scan_step env fix_mode (scan_upto env fix_mode st n) n :=
  foldl_range_succ (scan_step env fix_mode) st n

theorem scan_eq_upto (env : Env) (fix_mode : Bool) (st : State) :
    scan env fix_mode st = scan_upto env fix_mode st MAX_INODES := rfl

theorem ScanInv.valid_eq {fix_mode : Bool} {img : Image} {ib0 db0 : Buffer}
    {log0 : List Event} {n : Nat} {st : State}
    (h : ScanInv fix_mode img ib0 db0 log0 n st) (i : Nat) :
    valid st.fp.image i = valid img i := by
  apply valid_congr
  intro j h1 h2
  apply h.kept
  intro j' _ _ _
  omega

theorem ScanInv.direct_eq {fix_mode : Bool} {img : Image} {ib0 db0 : Buffer}
    {log0 : List Event} {n : Nat} {st : State}
    (h : ScanInv fix_mode img ib0 db0 log0 n st) (i : Nat) (hi : n ≤ i) :
    direct st.fp.image i = direct img i := by
  apply direct_congr
  intro j h1 h2
  apply h.kept
  intro j' _ _ _
  omega

theorem clears_congr (d : Nat) (a b : Bool)
    (h : DATA_BLOCK_START ≤ d → d < TOTAL_BLOCKS → a = b) : clears d a = clears d b := by
  unfold clears
  split
  · next hr => exact h hr.1 hr.2
  · rfl

theorem direct_events_congr (fix_mode : Bool) (i d : Nat) (u u2 sn sn2 : Bool)
    (hu : DATA_BLOCK_START ≤ d → d < TOTAL_BLOCKS → u = u2)
    (hsn : DATA_BLOCK_START ≤ d → d < TOTAL_BLOCKS → sn = sn2) :
    direct_events fix_mode i d u sn = direct_events fix_mode i d u2 sn2 := by
  unfold direct_events
  split
  · next hr => rw [hu hr.1 hr.2, hsn hr.1 hr.2]
  · rfl

theorem scan_inv_zero (fix_mode : Bool) (st : State)
    (hseen : ∀ r, bit st.seen_data_blocks r = false) :
    ScanInv fix_mode st.fp.image st.inode_bitmap st.data_bitmap st.log 0 st where
  size := rfl
  zeroed := fun j k hj => absurd hj (Nat.not_lt_zero j)
  kept := fun k _ => rfl
  ib := fun j => by simp
  ib_bytes := fun k _ => rfl
  ib_same := fun _ => rfl
  db := fun r => by simp [claimed_zero]
  db_bytes := fun k _ => rfl
  db_same := fun _ => rfl
  seen := fun r => by simp [claimed_zero, hseen]
  log := by simp

theorem cleared_eq (img : Image) (j : Nat) :
    cleared img j = (valid img j && clears (direct img j) (claimed img j (direct img j))) := rfl

theorem scan_inv_step (env : Env) {fix_mode : Bool} {img : Image} {ib0 db0 : Buffer}
    {log0 : List Event} {n : Nat} {st : State}
    (h : ScanInv fix_mode img ib0 db0 log0 n st) (hn : n < MAX_INODES)
    (hs : TOTAL_BLOCKS * BLOCK_SIZE ≤ img.size) :
    ScanInv fix_mode img ib0 db0 log0 (n + 1) (scan_step env fix_mode st n) := by
  have hs2 : TOTAL_BLOCKS * BLOCK_SIZE ≤ st.fp.size := by rw [h.size]; exact hs
  have hn80 : n < 80 := hn
  have hv := h.valid_eq n
  have hd := h.direct_eq n (le_refl n)
  have hm : bit st.inode_bitmap n = bit ib0 n := by rw [h.ib]; simp
  have hsn : DATA_BLOCK_START ≤ direct img n → direct img n < TOTAL_BLOCKS →
      bit st.seen_data_blocks (direct img n - DATA_BLOCK_START)
        = claimed img n (direct img n) := by
    intro h1 h2
    have h3 : direct img n - DATA_BLOCK_START + 8 = direct img n := by
      simp only [DATA_BLOCK_START] at h1 ⊢; omega
    have h4 : direct img n - DATA_BLOCK_START < 56 := by
      simp only [DATA_BLOCK_START, TOTAL_BLOCKS] at h1 h2 ⊢; omega
    rw [h.seen, h3]; simp [h4]
  have hu : DATA_BLOCK_START ≤ direct img n → direct img n < TOTAL_BLOCKS →
      bit st.data_bitmap (direct img n - DATA_BLOCK_START)
        = (bit db0 (direct img n - DATA_BLOCK_START)
            || (fix_mode && claimed img n (direct img n))) := by
    intro h1 h2
    have h3 : direct img n - DATA_BLOCK_START + 8 = direct img n := by
      simp only [DATA_BLOCK_START] at h1 ⊢; omega
    have h4 : direct img n - DATA_BLOCK_START < 56 := by
      simp only [DATA_BLOCK_START, TOTAL_BLOCKS] at h1 h2 ⊢; omega
    rw [h.db, h3]; simp [h4]
  have hcl : (valid img n && clears (direct img n)
      (bit st.seen_data_blocks (direct img n - DATA_BLOCK_START))) = cleared img n := by
    rw [cleared_eq, clears_congr _ _ _ hsn]
  rw [scan_step_eq env fix_mode st n hn hs2]
  simp only [hv, hd, hm]
  refine ⟨h.size, ?_, ?_, ?_, ?_, ?_, ?_, ?_, ?_, ?_, ?_⟩
  · -- zeroed
    intro j k hj hfix hc h1 h2
    dsimp only
    rcases Nat.lt_succ_iff_lt_or_eq.mp hj with hj2 | hj2
    · have h0 := h.zeroed j k hj2 hfix hc h1 h2
      split
      · unfold clear_direct; split
        · rfl
        · exact h0
      · exact h0
    · subst hj2
      have hc2 := hc
      rw [← hcl, Bool.and_eq_true] at hc2
      rw [if_pos ⟨hfix, hc2.1, hc2.2⟩]
      unfold clear_direct
      rw [if_pos ⟨h1, h2⟩]
  · -- kept
    intro k hk
    dsimp only
    have h0 := h.kept k (fun j hj => hk j (Nat.lt_succ_of_lt hj))
    split
    · next hc =>
      have hc2 : cleared img n = true := by
        rw [← hcl, Bool.and_eq_true]; exact ⟨hc.2.1, hc.2.2⟩
      have hk2 := hk n (Nat.lt_succ_self n) hc.1 hc2
      unfold clear_direct
      rw [if_neg hk2]
      exact h0
    · exact h0
  · -- ib
    intro j
    dsimp only
    have hj := h.ib j
    by_cases hjn : j = n
    · subst hjn
      cases fix_mode <;> cases hvv : valid img j <;> cases hmm : bit ib0 j <;>
        simp [bit_set_block_used, bit_clear_block_used, hmm, hm]
    · have hlt : (j < n + 1) ↔ (j < n) := by
        constructor <;> intro hh <;> omega
      simp only [hlt]
      rw [← hj]
      split
      · rw [bit_clear_block_used]; simp [hjn]
      · split
        · rw [bit_set_block_used]; simp [hjn]
        · rfl
  · -- ib_bytes
    intro k hk
    dsimp only
    have h0 := h.ib_bytes k hk
    have hne : ¬ k = n / 8 := by omega
    split
    · unfold clear_block_used; rw [if_neg hne]; exact h0
    · split
      · unfold set_block_used; rw [if_neg hne]; exact h0
      · exact h0
  · -- ib_same
    intro hall
    dsimp only
    have h0 := h.ib_same (fun hf j hj => hall hf j (Nat.lt_succ_of_lt hj))
    have hbn : fix_mode = true → bit ib0 n = valid img n :=
      fun hf => hall hf n (Nat.lt_succ_self n)
    rw [if_neg, if_neg]
    · exact h0
    · rintro ⟨hf, h1, h2⟩
      rw [hbn hf, h2] at h1; exact absurd h1 (by simp)
    · rintro ⟨hf, h1, h2⟩
      rw [hbn hf, h2] at h1; exact absurd h1 (by simp)
  · -- db
    intro r
    dsimp only
    have hr := h.db r
    rw [claimed_succ]
    split
    · next hc =>
      obtain ⟨hf, hvv, ⟨hr1, hr2⟩, hbit⟩ := hc
      have hr1b : 8 ≤ direct img n := hr1
      have hr2b : direct img n < 64 := hr2
      rw [bit_set_block_used, hr, hf, hvv]
      by_cases e1 : direct img n = r + 8
      · have a1 : decide (r = direct img n - DATA_BLOCK_START) = true := by
          simp only [DATA_BLOCK_START, decide_eq_true_eq]; omega
        have a2 : decide (r < 56) = true := by
          simp only [decide_eq_true_eq]; omega
        have a3 : decide (direct img n = r + 8) = true := by
          simp only [decide_eq_true_eq]; exact e1
        rw [a1, a2, a3]; simp
      · have a1 : decide (r = direct img n - DATA_BLOCK_START) = false := by
          simp only [DATA_BLOCK_START, decide_eq_false_iff_not]; omega
        have a3 : decide (direct img n = r + 8) = false := by
          simp only [decide_eq_false_iff_not]; exact e1
        rw [a1, a3]; simp
    · next hc =>
      rw [hr]
      cases hf : fix_mode
      · simp
      · cases hvv : valid img n
        · simp
        · by_cases e1 : direct img n = r + 8
          · have hr1 : DATA_BLOCK_START ≤ direct img n := by
              simp only [DATA_BLOCK_START]; omega
            by_cases e2 : r < 56
            · have hr2 : direct img n < TOTAL_BLOCKS := by
                simp only [TOTAL_BLOCKS]; omega
              have hb : bit st.data_bitmap (direct img n - DATA_BLOCK_START) = true := by
                by_contra hb
                exact hc ⟨hf, hvv, ⟨hr1, hr2⟩, by simpa using hb⟩
              have e3 : direct img n - DATA_BLOCK_START = r := by
                simp only [DATA_BLOCK_START]; omega
              rw [e3, hr, hf] at hb
              simp only [Bool.true_and, e2, decide_True] at hb
              simp [e1, e2, hb]
            · simp [e2]
          · simp [e1]
  · -- db_bytes
    intro k hk
    dsimp only
    have h0 := h.db_bytes k hk
    split
    · next hc =>
      have h1 : 8 ≤ direct img n := hc.2.2.1.1
      have h2 : direct img n < 64 := hc.2.2.1.2
      have hne : ¬ k = (direct img n - DATA_BLOCK_START) / 8 := by
        simp only [DATA_BLOCK_START]; omega
      unfold set_block_used; rw [if_neg hne]; exact h0
    · exact h0
  · -- db_same
    intro hall
    dsimp only
    have h0 := h.db_same (fun hf j hj => hall hf j (Nat.lt_succ_of_lt hj))
    rw [if_neg]
    · exact h0
    · rintro ⟨hf, hvv, ⟨hr1, hr2⟩, hbit⟩
      have := hall hf n (Nat.lt_succ_self n) hvv hr1 hr2
      rw [h0] at hbit
      have e : direct img n - DATA_BLOCK_START = direct img n - 8 := rfl
      rw [e, this] at hbit
      exact absurd hbit (by simp)
  · -- seen
    intro r
    dsimp only
    have hr := h.seen r
    rw [claimed_succ]
    split
    · next hc =>
      obtain ⟨hvv, ⟨hr1, hr2⟩, hbit⟩ := hc
      have hr1b : 8 ≤ direct img n := hr1
      have hr2b : direct img n < 64 := hr2
      rw [bit_set_block_used, hr, hvv]
      by_cases e1 : direct img n = r + 8
      · have a1 : decide (r = direct img n - DATA_BLOCK_START) = true := by
          simp only [DATA_BLOCK_START, decide_eq_true_eq]; omega
        have a2 : decide (r < 56) = true := by
          simp only [decide_eq_true_eq]; omega
        have a3 : decide (direct img n = r + 8) = true := by
          simp only [decide_eq_true_eq]; exact e1
        rw [a1, a2, a3]; simp
      · have a1 : decide (r = direct img n - DATA_BLOCK_START) = false := by
          simp only [DATA_BLOCK_START, decide_eq_false_iff_not]; omega
        have a3 : decide (direct img n = r + 8) = false := by
          simp only [decide_eq_false_iff_not]; exact e1
        rw [a1, a3]; simp
    · next hc =>
      rw [hr]
      cases hvv : valid img n
      · simp
      · by_cases e1 : direct img n = r + 8
        · have hr1 : DATA_BLOCK_START ≤ direct img n := by
            simp only [DATA_BLOCK_START]; omega
          by_cases e2 : r < 56
          · have hr2 : direct img n < TOTAL_BLOCKS := by
              simp only [TOTAL_BLOCKS]; omega
            have hb : bit st.seen_data_blocks (direct img n - DATA_BLOCK_START) = true := by
              by_contra hb
              exact hc ⟨hvv, ⟨hr1, hr2⟩, by simpa using hb⟩
            have e3 : direct img n - DATA_BLOCK_START = r := by
              simp only [DATA_BLOCK_START]; omega
            rw [e3, hr] at hb
            simp only [e2, decide_True, Bool.true_and] at hb
            simp [e1, e2, hb]
          · simp [e2]
        · simp [e1]
  · -- log
    dsimp only
    rw [h.log, List.range_succ, List.flatMap_append, List.flatMap_singleton, List.append_assoc]
    unfold scan_events step_events
    rw [direct_events_congr fix_mode n (direct img n) _ _ _ _ hu hsn]

theorem scan_inv (env : Env) (fix_mode : Bool) (st : State)
    (hs : TOTAL_BLOCKS * BLOCK_SIZE ≤ st.fp.size)
    (hseen : ∀ r, bit st.seen_data_blocks r = false) (n : Nat) (hn : n ≤ MAX_INODES) :
    ScanInv fix_mode st.fp.image st.inode_bitmap st.data_bitmap st.log n
      (scan_upto env fix_mode st n) := by
  induction n with
  | zero => exact scan_inv_zero fix_mode st hseen
  | succ n ih =>
    rw [scan_upto_succ]
    exact scan_inv_step env (ih (Nat.le_of_succ_le hn)) hn hs

/-! ## The sweep loop as a whole -/

theorem sweep_upto_succ (fix_mode : Bool) (st : State) (n : Nat) :
    sweep_upto fix_mode st (n + 1) = sweep_step fix_mode (sweep_upto fix_mode st n) n :=
  foldl_range_succ (sweep_step fix_mode) st n

theorem sweep_eq_upto (fix_mode : Bool) (st : State) :
    sweep fix_mode st = sweep_upto fix_mode st DATA_BLOCK_COUNT := rfl

theorem sweep_inv (fix_mode : Bool) (st0 : State) (n : Nat) :
    SweepInv fix_mode st0 n (sweep_upto fix_mode st0 n) := by
  induction n with
  | zero =>
    have h0 : sweep_upto fix_mode st0 0 = st0 := by simp [sweep_upto]
    rw [h0]
    exact ⟨rfl, rfl, rfl, fun r => by simp, fun k _ => rfl, fun _ => rfl, by simp⟩
  | succ n ih =>
    rw [sweep_upto_succ, sweep_step_eq]
    have hbn : bit (sweep_upto fix_mode st0 n).data_bitmap n = bit st0.data_bitmap n := by
      rw [ih.db]; simp
    simp only [hbn, ih.seen]
    refine ⟨ih.fp, ih.ib, rfl, ?_, ?_, ?_, ?_⟩
    · intro r
      dsimp only
      have hr := ih.db r
      by_cases hrn : r = n
      · subst hrn
        cases fix_mode <;> cases hu : bit st0.data_bitmap r <;>
          cases hsn : bit st0.seen_data_blocks r <;>
          simp [bit_clear_block_used, hu, hbn]
      · have hlt : (r < n + 1) ↔ (r < n) := by
          constructor <;> intro hh <;> omega
        simp only [hlt]
        rw [← hr]
        split
        · rw [bit_clear_block_used]; simp [hrn]
        · rfl
    · intro k hk
      dsimp only
      have h0 := ih.db_bytes k (by omega)
      have hne : ¬ k = n / 8 := by omega
      split
      · unfold clear_block_used; rw [if_neg hne]; exact h0
      · exact h0
    · intro hall
      dsimp only
      have h0 := ih.db_same (fun hf r hr => hall hf r (Nat.lt_succ_of_lt hr))
      rw [if_neg]
      · exact h0
      · rintro ⟨hf, h1, h2⟩
        rw [hall hf n (Nat.lt_succ_self n) h1] at h2
        exact absurd h2 (by simp)
    · dsimp only
      rw [ih.log, List.range_succ, List.flatMap_append, List.flatMap_singleton,
        List.append_assoc]

/-! ## Superblock validation in closed form -/

theorem get_u32_set_u32_ne (b : Buffer) (off off2 v : Nat) (h : off + 4 ≤ off2 ∨ off2 + 4 ≤ off) :
    get_u32 (set_u32 b off v) off2 = get_u32 b off2 := by
  apply get_u32_congr
  intro j h1 h2
  have e0 : ¬ j = off := by omega
  have e1 : ¬ j = off + 1 := by omega
  have e2 : ¬ j = off + 2 := by omega
  have e3 : ¬ j = off + 3 := by omega
  simp only [set_u32, e0, e1, e2, e3, if_false]

theorem get_u32_set_u16_ne (b : Buffer) (off off2 v : Nat) (h : off + 2 ≤ off2 ∨ off2 + 4 ≤ off) :
    get_u32 (set_u16 b off v) off2 = get_u32 b off2 := by
  apply get_u32_congr
  intro j h1 h2
  have e0 : ¬ j = off := by omega
  have e1 : ¬ j = off + 1 := by omega
  simp only [set_u16, e0, e1, if_false]

theorem get_u16_set_u32_ne (b : Buffer) (off off2 v : Nat) (h : off + 4 ≤ off2 ∨ off2 + 2 ≤ off) :
    get_u16 (set_u32 b off v) off2 = get_u16 b off2 := by
  apply get_u16_congr
  intro j h1 h2
  have e0 : ¬ j = off := by omega
  have e1 : ¬ j = off + 1 := by omega
  have e2 : ¬ j = off + 2 := by omega
  have e3 : ¬ j = off + 3 := by omega
  simp only [set_u32, e0, e1, e2, e3, if_false]

theorem get_u32_set_u32 (b : Buffer) (off v : Nat) (hv : v < 4294967296) :
    get_u32 (set_u32 b off v) off = v := by
  unfold get_u32 set_u32
  have e1 : ¬ off + 1 = off := by omega
  have e2 : ¬ off + 2 = off := by omega
  have e3 : ¬ off + 3 = off := by omega
  have e4 : ¬ off + 2 = off + 1 := by omega
  have e5 : ¬ off + 3 = off + 1 := by omega
  have e6 : ¬ off + 3 = off + 2 := by omega
  simp only [e1, e2, e3, e4, e5, e6, if_true, if_false]
  omega

theorem get_u16_set_u16 (b : Buffer) (off v : Nat) (hv : v < 65536) :
    get_u16 (set_u16 b off v) off = v := by
  unfold get_u16 set_u16
  have e1 : ¬ off + 1 = off := by omega
  simp only [e1, if_true, if_false]
  omega

theorem sb_check_eq (fix_mode bad : Bool) (msg : Msg) (fixed : Buffer) (st : SbState) :
    sb_check fix_mode bad msg fixed st
      = { sb := if bad = true ∧ fix_mode = true then fixed else st.sb
          sb_changed := st.sb_changed || (bad && fix_mode)
          log := st.log ++ (sb_check_msgs fix_mode bad msg).map Event.printf } := by
  unfold sb_check sb_check_msgs
  cases bad <;> cases fix_mode <;> simp

theorem get_ite_u32 (c : Prop) [Decidable c] (a b : Buffer) (off : Nat) :
    get_u32 (if c then a else b) off = if c then get_u32 a off else get_u32 b off := by
  split <;> rfl

theorem get_ite_u16 (c : Prop) [Decidable c] (a b : Buffer) (off : Nat) :
    get_u16 (if c then a else b) off = if c then get_u16 a off else get_u16 b off := by
  split <;> rfl

theorem validate_superblock_log (fix_mode : Bool) (st : SbState) :
    (validate_superblock fix_mode st).log = st.log ++ (sb_msgs fix_mode st.sb).map Event.printf := by
  unfold validate_superblock sb_msgs
  simp only [sb_check_eq, Superblock.magic, Superblock.block_size, Superblock.total_blocks,
    Superblock.inode_bitmap_block, Superblock.data_bitmap_block, Superblock.inode_table_start,
    Superblock.first_data_block, Superblock.inode_size, Superblock.inode_count,
    get_ite_u32, get_ite_u16, get_u32_set_u32_ne, get_u32_set_u16_ne, get_u16_set_u32_ne,
    Nat.reduceAdd, Nat.reduceLeDiff, or_true, true_or, ite_self, List.map_append,
    List.append_assoc]

theorem validate_superblock_changed (fix_mode : Bool) (st : SbState) :
    (validate_superblock fix_mode st).sb_changed
      = (st.sb_changed || (fix_mode && sb_bad st.sb)) := by
  unfold validate_superblock sb_bad
  simp only [sb_check_eq, Superblock.magic, Superblock.block_size, Superblock.total_blocks,
    Superblock.inode_bitmap_block, Superblock.data_bitmap_block, Superblock.inode_table_start,
    Superblock.first_data_block, Superblock.inode_size, Superblock.inode_count,
    get_ite_u32, get_ite_u16, get_u32_set_u32_ne, get_u32_set_u16_ne, get_u16_set_u32_ne,
    Nat.reduceAdd, Nat.reduceLeDiff, or_true, true_or, ite_self]
  cases fix_mode <;> simp [Bool.or_assoc]

theorem validate_superblock_check (st : SbState) :
    (validate_superblock false st).sb = st.sb := by
  unfold validate_superblock
  simp [sb_check_eq]

theorem validate_superblock_good (fix_mode : Bool) (st : SbState) (h : sb_bad st.sb = false) :
    (validate_superblock fix_mode st).sb = st.sb := by
  unfold sb_bad at h
  simp only [Bool.or_eq_false_iff] at h
  obtain ⟨⟨⟨⟨⟨⟨⟨⟨h1, h2⟩, h3⟩, h4⟩, h5⟩, h6⟩, h7⟩, h8⟩, h9⟩ := h
  unfold validate_superblock
  simp only [sb_check_eq, h1, h2, h3, h4, h5, h6, h7, h8, h9, Bool.false_eq_true, false_and,
    if_false]

theorem sb_bad_eq_false_iff (sb : Buffer) : sb_bad sb = false ↔ sb_ok sb := by
  unfold sb_bad sb_ok
  simp only [Bool.or_eq_false_iff, bne_eq_false_iff_eq, decide_eq_false_iff_not, not_lt,
    gt_iff_lt, and_assoc]

theorem validate_superblock_fix (st : SbState) :
    sb_ok (validate_superblock true st).sb
      ∧ Superblock.inode_count (validate_superblock true st).sb
          = min (Superblock.inode_count st.sb) MAX_INODES := by
  unfold validate_superblock sb_ok
  simp only [sb_check_eq, Superblock.magic, Superblock.block_size, Superblock.total_blocks,
    Superblock.inode_bitmap_block, Superblock.data_bitmap_block, Superblock.inode_table_start,
    Superblock.first_data_block, Superblock.inode_size, Superblock.inode_count,
    get_ite_u32, get_ite_u16, get_u32_set_u32_ne, get_u32_set_u16_ne, get_u16_set_u32_ne,
    Nat.reduceAdd, Nat.reduceLeDiff, or_true, true_or, ite_self, and_true,
    get_u32_set_u32 _ _ _ (show BLOCK_SIZE < 4294967296 by decide),
    get_u32_set_u32 _ _ _ (show TOTAL_BLOCKS < 4294967296 by decide),
    get_u32_set_u32 _ _ _ (show 1 < 4294967296 by decide),
    get_u32_set_u32 _ _ _ (show 2 < 4294967296 by decide),
    get_u32_set_u32 _ _ _ (show INODE_TABLE_START < 4294967296 by decide),
    get_u32_set_u32 _ _ _ (show DATA_BLOCK_START < 4294967296 by decide),
    get_u32_set_u32 _ _ _ (show INODE_SIZE < 4294967296 by decide),
    get_u32_set_u32 _ _ _ (show MAX_INODES < 4294967296 by decide),
    get_u16_set_u16 _ _ _ (show SUPERBLOCK_MAGIC < 65536 by decide),
    bne_iff_ne, ne_eq, decide_eq_true_eq, gt_iff_lt, ite_not]
  refine ⟨⟨?_, ?_, ?_, ?_, ?_, ?_, ?_, ?_, ?_⟩, ?_⟩ <;> split <;> first | rfl | assumption | omega

theorem sb_check_sb_apply (fix_mode bad : Bool) (msg : Msg) (fixed : Buffer) (st : SbState)
    (j : Nat) (h : fixed j = st.sb j) : (sb_check fix_mode bad msg fixed st).sb j = st.sb j := by
  rw [sb_check_eq]
  dsimp only
  split
  · exact h
  · rfl

theorem validate_superblock_frame (fix_mode : Bool) (st : SbState) (j : Nat) (hj : 34 ≤ j) :
    (validate_superblock fix_mode st).sb j = st.sb j := by
  have s32 : ∀ (b : Buffer) (off v : Nat), off + 4 ≤ j → set_u32 b off v j = b j := by
    intro b off v h
    have e0 : ¬ j = off := by omega
    have e1 : ¬ j = off + 1 := by omega
    have e2 : ¬ j = off + 2 := by omega
    have e3 : ¬ j = off + 3 := by omega
    simp only [set_u32, e0, e1, e2, e3, if_false]
  have s16 : ∀ (b : Buffer) (off v : Nat), off + 2 ≤ j → set_u16 b off v j = b j := by
    intro b off v h
    have e0 : ¬ j = off := by omega
    have e1 : ¬ j = off + 1 := by omega
    simp only [set_u16, e0, e1, if_false]
  have f0 : ∀ (b : Buffer) (v : Nat), set_u16 b 0 v j = b j := fun b v => s16 b 0 v (by omega)
  have f2 : ∀ (b : Buffer) (v : Nat), set_u32 b 2 v j = b j := fun b v => s32 b 2 v (by omega)
  have f6 : ∀ (b : Buffer) (v : Nat), set_u32 b 6 v j = b j := fun b v => s32 b 6 v (by omega)
  have f10 : ∀ (b : Buffer) (v : Nat), set_u32 b 10 v j = b j :=
    fun b v => s32 b 10 v (by omega)
  have f14 : ∀ (b : Buffer) (v : Nat), set_u32 b 14 v j = b j :=
    fun b v => s32 b 14 v (by omega)
  have f18 : ∀ (b : Buffer) (v : Nat), set_u32 b 18 v j = b j :=
    fun b v => s32 b 18 v (by omega)
  have f22 : ∀ (b : Buffer) (v : Nat), set_u32 b 22 v j = b j :=
    fun b v => s32 b 22 v (by omega)
  have f26 : ∀ (b : Buffer) (v : Nat), set_u32 b 26 v j = b j :=
    fun b v => s32 b 26 v (by omega)
  have f30 : ∀ (b : Buffer) (v : Nat), set_u32 b 30 v j = b j :=
    fun b v => s32 b 30 v (by omega)
  unfold validate_superblock
  simp only [sb_check_eq, Superblock.magic, Superblock.block_size, Superblock.total_blocks,
    Superblock.inode_bitmap_block, Superblock.data_bitmap_block, Superblock.inode_table_start,
    Superblock.first_data_block, Superblock.inode_size, Superblock.inode_count,
    get_ite_u32, get_ite_u16, get_u32_set_u32_ne, get_u32_set_u16_ne, get_u16_set_u32_ne,
    Nat.reduceAdd, Nat.reduceLeDiff, or_true, true_or, ite_self,
    ite_apply, f0, f2, f6, f10, f14, f18, f22, f26, f30]

/-! ## The phases of a run -/

theorem run_small (env : Env) (fix_mode : Bool) (img : Image)
    (hs : img.size < TOTAL_BLOCKS * BLOCK_SIZE) :
    run env fix_mode img
      = { status := 1, image := img, log := [Event.printf (Msg.too_small img.size)] } := by
  unfold run
  simp only [if_pos hs]

theorem run_eq (env : Env) (fix_mode : Bool) (img : Image)
    (hs : TOTAL_BLOCKS * BLOCK_SIZE ≤ img.size) :
    run env fix_mode img
      = { status := 0, image := (final_state env fix_mode img).fp.image,
          log := (final_state env fix_mode img).log ++ [Event.printf Msg.completed] } := by
  unfold run final_state scan_start sb_used
  simp only [if_neg (not_lt.mpr hs)]

theorem fseek_size (fp : FILE) (o : Int) : (fseek fp o).size = fp.size := by
  unfold fseek; split <;> rfl

theorem fseek_byte (fp : FILE) (o : Int) : (fseek fp o).byte = fp.byte := by
  unfold fseek; split <;> rfl

theorem read_block_size (fp : FILE) (n : Int) (buf : Buffer) :
    (read_block fp n buf).2.size = fp.size := by
  unfold read_block fread
  exact fseek_size fp _

theorem read_block_byte (fp : FILE) (n : Int) (buf : Buffer) :
    (read_block fp n buf).2.byte = fp.byte := by
  unfold read_block fread
  exact fseek_byte fp _

theorem read_block_zero (fp : FILE) (buf : Buffer)
    (hs : TOTAL_BLOCKS * BLOCK_SIZE ≤ fp.size) :
    read_block fp 0 buf
      = (fun j => if j < 4096 then fp.byte j else buf j,
          { size := fp.size, byte := fp.byte, pos := 4096 }) := by
  have h := read_block_eq fp 0 buf (by decide) hs
  simpa using h

theorem write_block_zero (fp : FILE) (buf : Buffer)
    (hs : TOTAL_BLOCKS * BLOCK_SIZE ≤ fp.size) :
    write_block fp 0 buf
      = { size := fp.size, byte := fun j => if j < 4096 then buf j else fp.byte j,
          pos := 4096 } := by
  have h := write_block_eq fp 0 buf (by decide) hs
  simpa using h

theorem read_block_one (fp : FILE) (buf : Buffer)
    (hs : TOTAL_BLOCKS * BLOCK_SIZE ≤ fp.size) :
    read_block fp 1 buf
      = (fun j => if j < 4096 then fp.byte (4096 + j) else buf j,
          { size := fp.size, byte := fp.byte, pos := 8192 }) := by
  have h := read_block_eq fp 1 buf (by decide) hs
  simpa using h

theorem read_block_two (fp : FILE) (buf : Buffer)
    (hs : TOTAL_BLOCKS * BLOCK_SIZE ≤ fp.size) :
    read_block fp 2 buf
      = (fun j => if j < 4096 then fp.byte (8192 + j) else buf j,
          { size := fp.size, byte := fp.byte, pos := 12288 }) := by
  have h := read_block_eq fp 2 buf (by decide) hs
  simpa using h

theorem write_block_one (fp : FILE) (buf : Buffer)
    (hs : TOTAL_BLOCKS * BLOCK_SIZE ≤ fp.size) :
    write_block fp 1 buf
      = { size := fp.size,
          byte := fun j => if 4096 ≤ j ∧ j < 8192 then buf (j - 4096) else fp.byte j,
          pos := 8192 } := by
  have h := write_block_eq fp 1 buf (by decide) hs
  simpa using h

theorem write_block_two (fp : FILE) (buf : Buffer)
    (hs : TOTAL_BLOCKS * BLOCK_SIZE ≤ fp.size) :
    write_block fp 2 buf
      = { size := fp.size,
          byte := fun j => if 8192 ≤ j ∧ j < 12288 then buf (j - 8192) else fp.byte j,
          pos := 12288 } := by
  have h := write_block_eq fp 2 buf (by decide) hs
  simpa using h

theorem superblock_phase_eq (env : Env) (fix_mode : Bool) (img : Image)
    (hs : TOTAL_BLOCKS * BLOCK_SIZE ≤ img.size) :
    superblock_phase env fix_mode { size := img.size, byte := img.byte, pos := 0 }
      = ((validate_superblock fix_mode
            { sb := sb_read env img, sb_changed := false,
              log := [Event.read_block 0, Event.printf Msg.validating_superblock] }).sb,
          if fix_mode = true ∧ sb_bad (sb_read env img) = true then
            { size := img.size,
              byte := fun j =>
                if j < 4096 then
                  (validate_superblock fix_mode
                    { sb := sb_read env img, sb_changed := false,
                      log := [Event.read_block 0,
                        Event.printf Msg.validating_superblock] }).sb j
                else img.byte j,
              pos := 4096 }
          else { size := img.size, byte := img.byte, pos := 4096 },
          [Event.read_block 0, Event.printf Msg.validating_superblock]
            ++ (sb_msgs fix_mode (sb_read env img)).map Event.printf
            ++ (if fix_mode = true ∧ sb_bad (sb_read env img) = true then
                  [Event.printf Msg.writing_superblock, Event.write_block 0]
                else [])) := by
  unfold superblock_phase
  rw [read_block_zero _ _ hs]
  simp only [validate_superblock_changed, validate_superblock_log, Bool.false_or,
    Bool.and_eq_true]
  change (if fix_mode = true ∧ (fix_mode = true ∧ sb_bad (sb_read env img) = true) then _
    else _) = _
  by_cases h : fix_mode = true ∧ sb_bad (sb_read env img) = true
  · rw [if_pos ⟨h.1, h⟩, if_pos h, if_pos h,
      write_block_zero { size := img.size, byte := img.byte, pos := 4096 } _ hs]
    unfold sb_read
    simp only []
  · have h2 : ¬ (fix_mode = true ∧ (fix_mode = true ∧ sb_bad (sb_read env img) = true)) :=
      fun hh => h hh.2
    rw [if_neg h2, if_neg h, if_neg h]
    simp only [List.append_nil]
    rfl

theorem sb_used_eq (env : Env) (fix_mode : Bool) (img : Image)
    (hs : TOTAL_BLOCKS * BLOCK_SIZE ≤ img.size) :
    sb_used env fix_mode img
      = (validate_superblock fix_mode
          { sb := sb_read env img, sb_changed := false,
            log := [Event.read_block 0, Event.printf Msg.validating_superblock] }).sb := by
  unfold sb_used
  rw [superblock_phase_eq env fix_mode img hs]

theorem sb_used_fix_ok (env : Env) (img : Image) (hs : TOTAL_BLOCKS * BLOCK_SIZE ≤ img.size) :
    sb_ok (sb_used env true img) := by
  rw [sb_used_eq env true img hs]
  exact (validate_superblock_fix _).1

theorem sb_used_check (env : Env) (img : Image) (hs : TOTAL_BLOCKS * BLOCK_SIZE ≤ img.size) :
    sb_used env false img = sb_read env img := by
  rw [sb_used_eq env false img hs]
  exact validate_superblock_check _

theorem sb_used_good (env : Env) (fix_mode : Bool) (img : Image)
    (hs : TOTAL_BLOCKS * BLOCK_SIZE ≤ img.size) (h : sb_bad (sb_read env img) = false) :
    sb_used env fix_mode img = sb_read env img := by
  rw [sb_used_eq env fix_mode img hs]
  exact validate_superblock_good fix_mode _ h

/-- The stream and the log after the superblock phase. -/
theorem superblock_phase_snd (env : Env) (fix_mode : Bool) (img : Image)
    (hs : TOTAL_BLOCKS * BLOCK_SIZE ≤ img.size) :
    (superblock_phase env fix_mode { size := img.size, byte := img.byte, pos := 0 }).2
      = (if fix_mode = true ∧ sb_bad (sb_read env img) = true then
            { size := img.size,
              byte := fun j =>
                if j < 4096 then sb_used env fix_mode img j else img.byte j,
              pos := 4096 }
          else { size := img.size, byte := img.byte, pos := 4096 },
          [Event.read_block 0, Event.printf Msg.validating_superblock]
            ++ (sb_msgs fix_mode (sb_read env img)).map Event.printf
            ++ (if fix_mode = true ∧ sb_bad (sb_read env img) = true then
                  [Event.printf Msg.writing_superblock, Event.write_block 0]
                else [])) := by
  rw [sb_used_eq env fix_mode img hs, superblock_phase_eq env fix_mode img hs]

theorem sb_written_ge (env : Env) (img : Image) (k : Nat) (hk : 4096 ≤ k) :
    sb_written env img k = img.byte k := by
  unfold sb_written
  split
  · simp only [if_neg (not_lt.mpr hk)]
  · rfl

theorem to_int32_one : to_int32 ((1 : Nat) : Int) = 1 := by decide

theorem to_int32_two : to_int32 ((2 : Nat) : Int) = 2 := by decide

theorem scan_start_fix (env : Env) (img : Image) (hs : TOTAL_BLOCKS * BLOCK_SIZE ≤ img.size) :
    scan_start env true img
      = { fp := { size := img.size, byte := sb_written env img, pos := 12288 }
          inode_bitmap := fun j => if j < 4096 then img.byte (4096 + j) else env.inode_bitmap j
          data_bitmap := fun j => if j < 4096 then img.byte (8192 + j) else env.data_bitmap j
          seen_data_blocks := fun _ => 0
          log := start_log true (sb_read env img) 1 2 } := by
  have hok := sb_used_fix_ok env img hs
  obtain ⟨-, -, -, h1, h2, -⟩ := hok
  have key : (if true = true ∧ sb_bad (sb_read env img) = true then
        ({ size := img.size,
           byte := fun j =>
             if j < 4096 then sb_used env true img j else img.byte j,
           pos := 4096 } : FILE)
      else { size := img.size, byte := img.byte, pos := 4096 })
      = { size := img.size, byte := sb_written env img, pos := 4096 } := by
    unfold sb_written
    by_cases h : sb_bad (sb_read env img) = true
    · simp [h]
    · simp [h]
  unfold scan_start load_bitmaps
  rw [superblock_phase_snd env true img hs, h1, h2, to_int32_one, to_int32_two, key]
  simp only []
  rw [read_block_one _ _ hs]
  simp only []
  rw [read_block_two _ _ hs]
  simp only [start_log, State.mk.injEq, true_and, and_true, List.append_assoc]
  constructor
  · funext j
    split
    · rw [sb_written_ge _ _ _ (by omega)]
    · rfl
  · funext j
    split
    · rw [sb_written_ge _ _ _ (by omega)]
    · rfl

theorem scan_start_check (env : Env) (img : Image)
    (hs : TOTAL_BLOCKS * BLOCK_SIZE ≤ img.size) :
    (scan_start env false img).fp.size = img.size
      ∧ (scan_start env false img).fp.byte = img.byte
      ∧ (scan_start env false img).seen_data_blocks = (fun _ => 0)
      ∧ (scan_start env false img).log
          = start_log false (sb_read env img)
              (to_int32 (Superblock.inode_bitmap_block (sb_read env img)))
              (to_int32 (Superblock.data_bitmap_block (sb_read env img))) := by
  unfold scan_start load_bitmaps
  rw [superblock_phase_snd env false img hs, sb_used_check env img hs]
  simp only [read_block_size, read_block_byte, Bool.false_eq_true, false_and, if_false,
    start_log, List.append_nil, List.append_assoc, and_self]

theorem bit_zero_buffer (r : Nat) : bit (fun _ => 0) r = false := by
  simp [bit]

theorem final_state_eq (env : Env) (fix_mode : Bool) (img : Image) :
    final_state env fix_mode img
      = write_back fix_mode (sb_used env fix_mode img) (swept env fix_mode img) := rfl

theorem scanned_inv (env : Env) (fix_mode : Bool) (img : Image)
    (hs : TOTAL_BLOCKS * BLOCK_SIZE ≤ (scan_start env fix_mode img).fp.size)
    (hseen : (scan_start env fix_mode img).seen_data_blocks = fun _ => 0) :
    ScanInv fix_mode (scan_start env fix_mode img).fp.image
      (scan_start env fix_mode img).inode_bitmap (scan_start env fix_mode img).data_bitmap
      (scan_start env fix_mode img).log MAX_INODES (scanned env fix_mode img) := by
  unfold scanned
  rw [scan_eq_upto]
  apply scan_inv env fix_mode _ hs _ MAX_INODES (le_refl _)
  intro r
  rw [hseen]
  exact bit_zero_buffer r

theorem swept_inv (env : Env) (fix_mode : Bool) (img : Image) :
    SweepInv fix_mode (scanned env fix_mode img) DATA_BLOCK_COUNT (swept env fix_mode img) := by
  unfold swept
  rw [sweep_eq_upto]
  exact sweep_inv fix_mode _ DATA_BLOCK_COUNT

/-! ## Check-only mode leaves the image alone -/

theorem check_final_image (env : Env) (img : Image)
    (hs : TOTAL_BLOCKS * BLOCK_SIZE ≤ img.size) :
    (final_state env false img).fp.image = img := by
  obtain ⟨h1, h2, h3, -⟩ := scan_start_check env img hs
  have hinv := scanned_inv env false img (by rw [h1]; exact hs) h3
  have hsw := swept_inv env false img
  rw [final_state_eq]
  unfold write_back
  simp only [Bool.false_eq_true, if_false]
  unfold FILE.image
  rw [hsw.fp]
  have hb : (scanned env false img).fp.byte = img.byte := by
    funext k
    have := hinv.kept k (fun j _ hf => absurd hf (by simp))
    rw [this]
    unfold FILE.image
    rw [h2]
  rw [hinv.size, hb]
  unfold FILE.image
  rw [h1]

/-! ## The log of a run -/

theorem write_back_log (fix_mode : Bool) (sb : Buffer) (st : State) :
    (write_back fix_mode sb st).log
      = st.log ++ write_back_events fix_mode (to_int32 (Superblock.inode_bitmap_block sb))
          (to_int32 (Superblock.data_bitmap_block sb)) := by
  unfold write_back write_back_events
  split
  · rfl
  · simp

theorem writes_append (a b : List Event) : writes (a ++ b) = writes a ++ writes b := by
  unfold writes
  exact List.filter_append a b

theorem writes_flatMap_nil {α : Type} (l : List α) (f : α → List Event)
    (h : ∀ x, writes (f x) = []) : writes (l.flatMap f) = [] := by
  induction l with
  | nil => rfl
  | cons x xs ih => rw [List.flatMap_cons, writes_append, h x, ih]; rfl

theorem writes_map_printf (l : List Msg) : writes (l.map Event.printf) = [] := by
  induction l with
  | nil => rfl
  | cons x xs ih =>
    unfold writes at ih ⊢
    rw [List.map_cons, List.filter_cons_of_neg (by simp [Event.isWrite])]
    exact ih

theorem writes_step_events_check (i : Nat) (v : Bool) (d : Nat) (m u sn : Bool) :
    writes (step_events false i v d m u sn) = [] := by
  unfold step_events inode_bitmap_events direct_events writes
  cases v <;> cases m <;> cases u <;> cases sn <;>
    by_cases hr : (DATA_BLOCK_START ≤ d ∧ d < TOTAL_BLOCKS) <;>
    by_cases hz : d = 0 <;>
    simp [hr, hz, Event.isWrite]

theorem writes_scan_events_check (img : Image) (ib0 db0 : Buffer) (i : Nat) :
    writes (scan_events false img ib0 db0 i) = [] := by
  unfold scan_events
  exact writes_step_events_check i _ _ _ _ _

theorem writes_sweep_events (fix_mode : Bool) (i : Nat) (u sn : Bool) :
    writes (sweep_events fix_mode i u sn) = [] := by
  unfold sweep_events writes
  cases fix_mode <;> cases u <;> cases sn <;> simp [Event.isWrite]

theorem writes_start_log_check (sb : Buffer) (b1 b2 : Int) :
    writes (start_log false sb b1 b2) = [] := by
  unfold start_log
  simp only [writes_append, writes_map_printf, Bool.false_eq_true, false_and, if_false]
  simp [writes, Event.isWrite]

theorem check_final_writes (env : Env) (img : Image)
    (hs : TOTAL_BLOCKS * BLOCK_SIZE ≤ img.size) :
    writes (final_state env false img).log = [] := by
  obtain ⟨h1, h2, h3, h4⟩ := scan_start_check env img hs
  have hinv := scanned_inv env false img (by rw [h1]; exact hs) h3
  have hsw := swept_inv env false img
  rw [final_state_eq, write_back_log, hsw.log, hinv.log, h4]
  rw [writes_append, writes_append, writes_append, writes_start_log_check,
    writes_flatMap_nil _ _ (writes_scan_events_check _ _ _),
    writes_flatMap_nil _ _ (fun x => writes_sweep_events false x _ _)]
  rfl

/-! ## The image a repair run leaves behind -/

theorem write_back_fix (sb : Buffer) (st : State) (hok : sb_ok sb)
    (hs : TOTAL_BLOCKS * BLOCK_SIZE ≤ st.fp.size) :
    write_back true sb st
      = { fp :=
            { size := st.fp.size
              byte := fun k =>
                if 8192 ≤ k ∧ k < 12288 then st.data_bitmap (k - 8192)
                else if 4096 ≤ k ∧ k < 8192 then st.inode_bitmap (k - 4096)
                else st.fp.byte k
              pos := 12288 }
          inode_bitmap := st.inode_bitmap
          data_bitmap := st.data_bitmap
          seen_data_blocks := st.seen_data_blocks
          log := st.log ++ [Event.write_block 1, Event.write_block 2,
            Event.printf Msg.all_fixed] } := by
  obtain ⟨-, -, -, h1, h2, -⟩ := hok
  unfold write_back
  simp only [if_true, h1, h2, to_int32_one, to_int32_two]
  rw [write_block_one _ _ hs, write_block_two _ _ (by exact hs)]

theorem scan_start_fix_image (env : Env) (img : Image)
    (hs : TOTAL_BLOCKS * BLOCK_SIZE ≤ img.size) :
    (scan_start env true img).fp.image = { size := img.size, byte := sb_written env img } := by
  rw [scan_start_fix env img hs]
  rfl

theorem valid_after_sb (env : Env) (img : Image) (i : Nat) :
    valid (after_sb env img) i = valid img i := by
  apply valid_congr
  intro j _ _
  exact sb_written_ge env img _ (by omega)

theorem direct_after_sb (env : Env) (img : Image) (i : Nat) :
    direct (after_sb env img) i = direct img i := by
  apply direct_congr
  intro j _ _
  exact sb_written_ge env img _ (by omega)

theorem claimed_after_sb (env : Env) (img : Image) (n b : Nat) :
    claimed (after_sb env img) n b = claimed img n b := by
  unfold claimed
  simp only [valid_after_sb, direct_after_sb]

theorem cleared_after_sb (env : Env) (img : Image) (j : Nat) :
    cleared (after_sb env img) j = cleared img j := by
  unfold cleared
  simp only [valid_after_sb, direct_after_sb, claimed_after_sb]

theorem bit_ib_loaded (env : Env) (img : Image) (i : Nat) (hi : i < 32768) :
    bit (ib_loaded env img) i = bit (block img 1) i := by
  apply bit_congr
  have : i / 8 < 4096 := by omega
  simp only [ib_loaded, block, this, if_true, BLOCK_SIZE]

theorem bit_db_loaded (env : Env) (img : Image) (i : Nat) (hi : i < 32768) :
    bit (db_loaded env img) i = bit (block img 2) i := by
  apply bit_congr
  have : i / 8 < 4096 := by omega
  simp only [db_loaded, block, this, if_true, BLOCK_SIZE]

/-- The invariant of the inode loop at its end, for a repair run on `img`. -/
theorem scanned_fix_inv (env : Env) (img : Image) (hs : TOTAL_BLOCKS * BLOCK_SIZE ≤ img.size) :
    ScanInv true (after_sb env img) (ib_loaded env img) (db_loaded env img)
      (start_log true (sb_read env img) 1 2) MAX_INODES (scanned env true img) := by
  have h := scanned_inv env true img (by rw [scan_start_fix env img hs]; exact hs)
    (by rw [scan_start_fix env img hs])
  rw [scan_start_fix_image env img hs] at h
  rw [scan_start_fix env img hs] at h
  exact h

theorem image_byte (fp : FILE) : fp.image.byte = fp.byte := rfl

theorem image_size (fp : FILE) : fp.image.size = fp.size := rfl

theorem repair_final_state (env : Env) (img : Image)
    (hs : TOTAL_BLOCKS * BLOCK_SIZE ≤ img.size) :
    final_state env true img
      = { fp :=
            { size := img.size
              byte := fun k =>
                if 8192 ≤ k ∧ k < 12288 then (swept env true img).data_bitmap (k - 8192)
                else if 4096 ≤ k ∧ k < 8192 then (scanned env true img).inode_bitmap (k - 4096)
                else (scanned env true img).fp.byte k
              pos := 12288 }
          inode_bitmap := (scanned env true img).inode_bitmap
          data_bitmap := (swept env true img).data_bitmap
          seen_data_blocks := (scanned env true img).seen_data_blocks
          log := (swept env true img).log ++ [Event.write_block 1, Event.write_block 2,
            Event.printf Msg.all_fixed] } := by
  have hinv := scanned_fix_inv env img hs
  have hsw := swept_inv env true img
  have hsz : TOTAL_BLOCKS * BLOCK_SIZE ≤ (swept env true img).fp.size := by
    rw [hsw.fp, hinv.size]; exact hs
  rw [final_state_eq, write_back_fix _ _ (sb_used_fix_ok env img hs) hsz, hsw.fp, hsw.ib,
    hsw.seen, hinv.size]
  rfl

/-- The image a repair run leaves behind: blocks 1 and 2 hold the two bitmaps as the loops
left them, and every other byte is as the inode loop left it. -/
theorem repair_image (env : Env) (img : Image) (hs : TOTAL_BLOCKS * BLOCK_SIZE ≤ img.size) :
    (run env true img).image
      = { size := img.size
          byte := fun k =>
            if 8192 ≤ k ∧ k < 12288 then (swept env true img).data_bitmap (k - 8192)
            else if 4096 ≤ k ∧ k < 8192 then (scanned env true img).inode_bitmap (k - 4096)
            else (scanned env true img).fp.byte k } := by
  rw [run_eq env true img hs, repair_final_state env img hs]
  rfl

theorem repair_image_size (env : Env) (img : Image)
    (hs : TOTAL_BLOCKS * BLOCK_SIZE ≤ img.size) :
    (run env true img).image.size = img.size := by
  rw [repair_image env img hs]

theorem repair_image_table (env : Env) (img : Image)
    (hs : TOTAL_BLOCKS * BLOCK_SIZE ≤ img.size) (k : Nat) (hk : 12288 ≤ k) :
    (run env true img).image.byte k = (scanned env true img).fp.byte k := by
  rw [repair_image env img hs]
  have h1 : ¬ (8192 ≤ k ∧ k < 12288) := by omega
  have h2 : ¬ (4096 ≤ k ∧ k < 8192) := by omega
  simp only [h1, h2, if_false]

theorem repair_image_block0 (env : Env) (img : Image)
    (hs : TOTAL_BLOCKS * BLOCK_SIZE ≤ img.size) (k : Nat) (hk : k < 4096) :
    (run env true img).image.byte k = sb_written env img k := by
  rw [repair_image env img hs]
  have h1 : ¬ (8192 ≤ k ∧ k < 12288) := by omega
  have h2 : ¬ (4096 ≤ k ∧ k < 8192) := by omega
  simp only [h1, h2, if_false]
  exact (scanned_fix_inv env img hs).kept k (fun j _ _ _ => by omega)

/-- Validity of every inode is the same after a repair run as before it. -/
theorem repair_valid (env : Env) (img : Image) (hs : TOTAL_BLOCKS * BLOCK_SIZE ≤ img.size)
    (i : Nat) : valid (run env true img).image i = valid img i := by
  rw [← valid_after_sb env img i, ← (scanned_fix_inv env img hs).valid_eq i]
  apply valid_congr
  intro j _ _
  rw [repair_image_table env img hs _ (by omega), image_byte]

/-- The direct pointer of an inode after a repair run: zero if the scan cleared it, the
stored value otherwise. -/
theorem repair_direct (env : Env) (img : Image) (hs : TOTAL_BLOCKS * BLOCK_SIZE ≤ img.size)
    (i : Nat) (hi : i < MAX_INODES) :
    direct (run env true img).image i = if cleared img i = true then 0 else direct img i := by
  have hinv := scanned_fix_inv env img hs
  split
  · next hc =>
    apply direct_eq_zero
    intro k h1 h2
    rw [repair_image_table env img hs _ (by omega)]
    exact hinv.zeroed i k hi rfl (by rw [cleared_after_sb]; exact hc) h1 h2
  · next hc =>
    rw [← direct_after_sb env img i]
    apply direct_congr
    intro j h1 h2
    rw [repair_image_table env img hs _ (by omega)]
    apply hinv.kept
    intro j2 hj2 _ hc2
    rw [cleared_after_sb] at hc2
    have hne : j2 ≠ i := fun e => hc (e ▸ hc2)
    omega

/-- Bits of the inode bitmap after a repair run. -/
theorem repair_inode_bit (env : Env) (img : Image) (hs : TOTAL_BLOCKS * BLOCK_SIZE ≤ img.size)
    (i : Nat) (hi : i < 32768) :
    bit (block (run env true img).image 1) i
      = if i < MAX_INODES then valid img i else bit (block img 1) i := by
  have hinv := scanned_fix_inv env img hs
  have h8 : i / 8 < 4096 := by omega
  have e : bit (block (run env true img).image 1) i = bit (scanned env true img).inode_bitmap i := by
    apply bit_congr
    rw [repair_image env img hs]
    have h1 : ¬ (8192 ≤ 1 * BLOCK_SIZE + i / 8 ∧ 1 * BLOCK_SIZE + i / 8 < 12288) := by
      simp only [BLOCK_SIZE]; omega
    have h2 : 4096 ≤ 1 * BLOCK_SIZE + i / 8 ∧ 1 * BLOCK_SIZE + i / 8 < 8192 := by
      simp only [BLOCK_SIZE]; omega
    have h3 : 1 * BLOCK_SIZE + i / 8 - 4096 = i / 8 := by
      simp only [BLOCK_SIZE]; omega
    simp only [block, h1, h2, h3, if_false, if_true, and_self]
  rw [e, hinv.ib i, valid_after_sb, bit_ib_loaded env img i hi]
  simp only [true_and]

/-- Bits of the data bitmap after a repair run. -/
theorem repair_data_bit (env : Env) (img : Image) (hs : TOTAL_BLOCKS * BLOCK_SIZE ≤ img.size)
    (r : Nat) (hr : r < 32768) :
    bit (block (run env true img).image 2) r
      = if r < DATA_BLOCK_COUNT then claimed img MAX_INODES (r + DATA_BLOCK_START)
        else bit (block img 2) r := by
  have hinv := scanned_fix_inv env img hs
  have hsw := swept_inv env true img
  have h8 : r / 8 < 4096 := by omega
  have e : bit (block (run env true img).image 2) r = bit (swept env true img).data_bitmap r := by
    apply bit_congr
    rw [repair_image env img hs]
    have h1 : 8192 ≤ 2 * BLOCK_SIZE + r / 8 ∧ 2 * BLOCK_SIZE + r / 8 < 12288 := by
      simp only [BLOCK_SIZE]; omega
    have h3 : 2 * BLOCK_SIZE + r / 8 - 8192 = r / 8 := by
      simp only [BLOCK_SIZE]; omega
    simp only [block, h1, h3, if_true, and_self]
  rw [e, hsw.db r, hinv.db r, hinv.seen r, claimed_after_sb, bit_db_loaded env img r hr]
  by_cases h56 : r < 56
  · have h56b : r < DATA_BLOCK_COUNT := h56
    simp only [h56, h56b, true_and, if_true, decide_True, Bool.true_and]
    cases bit (block img 2) r <;> cases claimed img MAX_INODES (r + 8) <;> rfl
  · have h56b : ¬ r < DATA_BLOCK_COUNT := h56
    simp only [h56, h56b, and_false, if_false, decide_False, Bool.false_and, Bool.and_false,
      Bool.or_false]

/-! ## Counting reports in the log of a run -/

theorem reportsOn_inode (k : Kind) (i : Nat) (e : Event) (h : e.reportsOn k i = true) :
    e.inode = some i := by
  cases e with
  | printf m =>
    simp only [Event.reportsOn, Bool.and_eq_true, decide_eq_true_eq] at h
    exact h.2
  | _ => simp [Event.reportsOn] at h

theorem countP_eq_zero_of_inode {P : Event → Bool} {i : Nat}
    (hP : ∀ e, P e = true → e.inode = some i) (l : List Event)
    (hl : ∀ e ∈ l, e.inode ≠ some i) : l.countP P = 0 := by
  rw [List.countP_eq_zero]
  intro e he hpe
  exact hl e he (hP e (by simpa using hpe))

theorem countP_flatMap_range {P : Event → Bool} (f : Nat → List Event) (n i : Nat)
    (h : ∀ j, j ≠ i → (f j).countP P = 0) :
    ((List.range n).flatMap f).countP P = if i < n then (f i).countP P else 0 := by
  induction n with
  | zero => simp
  | succ n ih =>
    rw [List.range_succ, List.flatMap_append, List.countP_append, ih, List.flatMap_singleton]
    by_cases hin : i = n
    · subst hin
      simp
    · rw [h n (fun e => hin e.symm)]
      have e1 : (i < n + 1) ↔ (i < n) := by omega
      simp only [e1, Nat.add_zero]

theorem mem_sb_check_msgs (fix_mode bad : Bool) (msg m : Msg)
    (h : m ∈ sb_check_msgs fix_mode bad msg) : m = msg ∨ m = Msg.fixed := by
  unfold sb_check_msgs at h
  cases bad <;> cases fix_mode <;> simp at h <;> tauto

theorem sb_msgs_inode (fix_mode : Bool) (sb : Buffer) (m : Msg) (h : m ∈ sb_msgs fix_mode sb) :
    m.inode = none := by
  unfold sb_msgs at h
  simp only [List.mem_append] at h
  rcases h with ((((((((h | h) | h) | h) | h) | h) | h) | h) | h) <;>
    rcases mem_sb_check_msgs _ _ _ _ h with h2 | h2 <;> rw [h2] <;> rfl

theorem start_log_inode (fix_mode : Bool) (sb : Buffer) (b1 b2 : Int) (i : Nat) :
    ∀ e ∈ start_log fix_mode sb b1 b2, e.inode ≠ some i := by
  intro e he
  unfold start_log at he
  simp only [List.mem_append, List.mem_map, List.mem_cons, List.mem_singleton,
    List.not_mem_nil, or_false] at he
  rcases he with ((he | he) | he) | he
  · rcases he with he | he <;> rw [he] <;> simp [Event.inode, Msg.inode]
  · obtain ⟨m, hm, rfl⟩ := he
    simp [Event.inode, sb_msgs_inode fix_mode sb m hm]
  · split at he
    · simp only [List.mem_cons, List.mem_singleton, List.not_mem_nil, or_false] at he
      rcases he with he | he <;> rw [he] <;> simp [Event.inode, Msg.inode]
    · simp at he
  · rcases he with he | he | he <;> rw [he] <;> simp [Event.inode, Msg.inode]

theorem sweep_events_inode (fix_mode : Bool) (r : Nat) (u sn : Bool) (i : Nat) :
    ∀ e ∈ sweep_events fix_mode r u sn, e.inode ≠ some i := by
  intro e he
  unfold sweep_events at he
  cases fix_mode <;> cases u <;> cases sn <;>
    simp only [List.mem_cons, List.mem_singleton, List.not_mem_nil, or_false, if_true,
      if_false, Bool.false_eq_true] at he <;>
    rcases he with he | he | he | he | he <;> (try rw [he]) <;>
    simp_all [Event.inode, Msg.inode]

theorem write_back_events_inode (fix_mode : Bool) (b1 b2 : Int) (i : Nat) :
    ∀ e ∈ write_back_events fix_mode b1 b2 ++ [Event.printf Msg.completed],
      e.inode ≠ some i := by
  intro e he
  unfold write_back_events at he
  cases fix_mode <;>
    simp only [List.mem_append, List.mem_cons, List.mem_singleton, List.not_mem_nil, or_false,
      if_true, if_false, Bool.false_eq_true, false_or] at he
  · rw [he]; simp [Event.inode, Msg.inode]
  · rcases he with (he | he | he) | he <;> rw [he] <;> simp [Event.inode, Msg.inode]

theorem step_events_inode (fix_mode : Bool) (j : Nat) (v : Bool) (d : Nat) (m u sn : Bool)
    (i : Nat) (hne : j ≠ i) :
    ∀ e ∈ step_events fix_mode j v d m u sn, e.inode ≠ some i := by
  have hne2 : ¬ j = i := hne
  have h : (step_events fix_mode j v d m u sn).all (fun e => decide (e.inode ≠ some i))
      = true := by
    unfold step_events inode_bitmap_events direct_events
    cases fix_mode <;> cases v <;> cases m <;> cases u <;> cases sn <;>
      by_cases hr : (DATA_BLOCK_START ≤ d ∧ d < TOTAL_BLOCKS) <;>
      by_cases hz : d = 0 <;>
      simp [hr, hz, Event.inode, Msg.inode, hne2]
  intro e he
  exact of_decide_eq_true (List.all_eq_true.mp h e he)

theorem scan_start_size (env : Env) (fix_mode : Bool) (img : Image)
    (hs : TOTAL_BLOCKS * BLOCK_SIZE ≤ img.size) :
    (scan_start env fix_mode img).fp.size = img.size := by
  cases fix_mode
  · exact (scan_start_check env img hs).1
  · rw [scan_start_fix env img hs]

theorem scan_start_seen (env : Env) (fix_mode : Bool) (img : Image)
    (hs : TOTAL_BLOCKS * BLOCK_SIZE ≤ img.size) :
    (scan_start env fix_mode img).seen_data_blocks = fun _ => 0 := by
  cases fix_mode
  · exact (scan_start_check env img hs).2.2.1
  · rw [scan_start_fix env img hs]

theorem scan_start_log (env : Env) (fix_mode : Bool) (img : Image)
    (hs : TOTAL_BLOCKS * BLOCK_SIZE ≤ img.size) :
    (scan_start env fix_mode img).log
      = start_log fix_mode (sb_read env img)
          (to_int32 (Superblock.inode_bitmap_block (sb_used env fix_mode img)))
          (to_int32 (Superblock.data_bitmap_block (sb_used env fix_mode img))) := by
  cases fix_mode
  · rw [sb_used_check env img hs]
    exact (scan_start_check env img hs).2.2.2
  · obtain ⟨-, -, -, h1, h2, -⟩ := sb_used_fix_ok env img hs
    rw [scan_start_fix env img hs, h1, h2, to_int32_one, to_int32_two]

/-- The log of a run on an image that passes the size check, phase by phase. -/
theorem run_log (env : Env) (fix_mode : Bool) (img : Image)
    (hs : TOTAL_BLOCKS * BLOCK_SIZE ≤ img.size) :
    (run env fix_mode img).log
      = start_log fix_mode (sb_read env img)
          (to_int32 (Superblock.inode_bitmap_block (sb_used env fix_mode img)))
          (to_int32 (Superblock.data_bitmap_block (sb_used env fix_mode img)))
        ++ (List.range MAX_INODES).flatMap
            (scan_events fix_mode (scan_start env fix_mode img).fp.image
              (scan_start env fix_mode img).inode_bitmap
              (scan_start env fix_mode img).data_bitmap)
        ++ (List.range DATA_BLOCK_COUNT).flatMap
            (fun i => sweep_events fix_mode i (bit (scanned env fix_mode img).data_bitmap i)
              (bit (scanned env fix_mode img).seen_data_blocks i))
        ++ (write_back_events fix_mode
              (to_int32 (Superblock.inode_bitmap_block (sb_used env fix_mode img)))
              (to_int32 (Superblock.data_bitmap_block (sb_used env fix_mode img)))
            ++ [Event.printf Msg.completed]) := by
  have hinv := scanned_inv env fix_mode img (by rw [scan_start_size env fix_mode img hs]; exact hs)
    (scan_start_seen env fix_mode img hs)
  have hsw := swept_inv env fix_mode img
  rw [run_eq env fix_mode img hs]
  show (final_state env fix_mode img).log ++ [Event.printf Msg.completed] = _
  rw [final_state_eq, write_back_log, hsw.log, hinv.log, scan_start_log env fix_mode img hs,
    List.append_assoc]

/-- Reports that name inode `i` come from the iteration of the inode loop for `i`. -/
theorem run_countP_inode (env : Env) (fix_mode : Bool) (img : Image)
    (hs : TOTAL_BLOCKS * BLOCK_SIZE ≤ img.size) (P : Event → Bool) (i : Nat)
    (hi : i < MAX_INODES) (hP : ∀ e, P e = true → e.inode = some i) :
    (run env fix_mode img).log.countP P
      = (scan_events fix_mode (scan_start env fix_mode img).fp.image
          (scan_start env fix_mode img).inode_bitmap
          (scan_start env fix_mode img).data_bitmap i).countP P := by
  rw [run_log env fix_mode img hs, List.countP_append, List.countP_append, List.countP_append,
    countP_eq_zero_of_inode hP _ (start_log_inode _ _ _ _ i),
    countP_eq_zero_of_inode hP _ (write_back_events_inode _ _ _ i),
    countP_flatMap_range _ MAX_INODES i, countP_flatMap_range _ DATA_BLOCK_COUNT 0, if_pos hi]
  · rw [countP_eq_zero_of_inode hP _ (sweep_events_inode _ _ _ _ i)]
    simp
  · intro j _
    exact countP_eq_zero_of_inode hP _ (sweep_events_inode _ _ _ _ i)
  · intro j hj
    unfold scan_events
    exact countP_eq_zero_of_inode hP _ (step_events_inode _ _ _ _ _ _ _ i hj)

theorem step_count_inode_bitmap (fix_mode : Bool) (i : Nat) (v : Bool) (d : Nat)
    (m u sn : Bool) :
    (step_events fix_mode i v d m u sn).countP (Event.reportsOn Kind.inode_bitmap i)
      = if m = v then 0 else 1 := by
  unfold step_events inode_bitmap_events direct_events
  cases fix_mode <;> cases v <;> cases m <;> cases u <;> cases sn <;>
    by_cases hr : (DATA_BLOCK_START ≤ d ∧ d < TOTAL_BLOCKS) <;>
    by_cases hz : d = 0 <;>
    simp [hr, hz, Event.reportsOn, Msg.kind, Msg.inode, List.countP_cons]

theorem step_count_data_bitmap (fix_mode : Bool) (i : Nat) (v : Bool) (d : Nat)
    (m u sn : Bool) :
    (step_events fix_mode i v d m u sn).countP (Event.reportsOn Kind.data_bitmap i)
      = if v = true ∧ (DATA_BLOCK_START ≤ d ∧ d < TOTAL_BLOCKS) ∧ u = false then 1 else 0 := by
  unfold step_events inode_bitmap_events direct_events
  cases fix_mode <;> cases v <;> cases m <;> cases u <;> cases sn <;>
    by_cases hr : (DATA_BLOCK_START ≤ d ∧ d < TOTAL_BLOCKS) <;>
    by_cases hz : d = 0 <;>
    simp [hr, hz, Event.reportsOn, Msg.kind, Msg.inode, List.countP_cons]

theorem step_count_duplicate (fix_mode : Bool) (i : Nat) (v : Bool) (d : Nat)
    (m u sn : Bool) :
    (step_events fix_mode i v d m u sn).countP (Event.reportsOn Kind.duplicate i)
      = if v = true ∧ (DATA_BLOCK_START ≤ d ∧ d < TOTAL_BLOCKS) ∧ sn = true then 1 else 0 := by
  unfold step_events inode_bitmap_events direct_events
  cases fix_mode <;> cases v <;> cases m <;> cases u <;> cases sn <;>
    by_cases hr : (DATA_BLOCK_START ≤ d ∧ d < TOTAL_BLOCKS) <;>
    by_cases hz : d = 0 <;>
    simp [hr, hz, Event.reportsOn, Msg.kind, Msg.inode, List.countP_cons]

theorem step_count_invalid_pointer (fix_mode : Bool) (i : Nat) (v : Bool) (d : Nat)
    (m u sn : Bool) :
    (step_events fix_mode i v d m u sn).countP (Event.reportsOn Kind.invalid_pointer i)
      = if v = true ∧ ¬ (DATA_BLOCK_START ≤ d ∧ d < TOTAL_BLOCKS) ∧ d ≠ 0 then 1 else 0 := by
  unfold step_events inode_bitmap_events direct_events
  cases fix_mode <;> cases v <;> cases m <;> cases u <;> cases sn <;>
    by_cases hr : (DATA_BLOCK_START ≤ d ∧ d < TOTAL_BLOCKS) <;>
    by_cases hz : d = 0 <;>
    simp [hr, hz, Event.reportsOn, Msg.kind, Msg.inode, List.countP_cons]

/-- The image file when the inode loop starts agrees with the input image from block 1
on. -/
theorem scan_start_byte (env : Env) (fix_mode : Bool) (img : Image)
    (hs : TOTAL_BLOCKS * BLOCK_SIZE ≤ img.size) (k : Nat) (hk : 4096 ≤ k) :
    (scan_start env fix_mode img).fp.image.byte k = img.byte k := by
  rw [image_byte]
  cases fix_mode
  · rw [(scan_start_check env img hs).2.1]
  · rw [scan_start_fix env img hs]
    exact sb_written_ge env img k hk

theorem scan_start_valid (env : Env) (fix_mode : Bool) (img : Image)
    (hs : TOTAL_BLOCKS * BLOCK_SIZE ≤ img.size) (i : Nat) :
    valid (scan_start env fix_mode img).fp.image i = valid img i := by
  apply valid_congr
  intro j _ _
  exact scan_start_byte env fix_mode img hs _ (by omega)

theorem scan_start_direct (env : Env) (fix_mode : Bool) (img : Image)
    (hs : TOTAL_BLOCKS * BLOCK_SIZE ≤ img.size) (i : Nat) :
    direct (scan_start env fix_mode img).fp.image i = direct img i := by
  apply direct_congr
  intro j _ _
  exact scan_start_byte env fix_mode img hs _ (by omega)

theorem scan_start_claimed (env : Env) (fix_mode : Bool) (img : Image)
    (hs : TOTAL_BLOCKS * BLOCK_SIZE ≤ img.size) (n b : Nat) :
    claimed (scan_start env fix_mode img).fp.image n b = claimed img n b := by
  unfold claimed
  simp only [scan_start_valid env fix_mode img hs, scan_start_direct env fix_mode img hs]

theorem sb_read_inode_bitmap_block (env : Env) (img : Image) :
    Superblock.inode_bitmap_block (sb_read env img)
      = Superblock.inode_bitmap_block (block img 0) := by
  unfold Superblock.inode_bitmap_block
  apply get_u32_congr
  intro j _ h2
  have : j < 4096 := by omega
  simp [sb_read, block, this]

theorem sb_read_data_bitmap_block (env : Env) (img : Image) :
    Superblock.data_bitmap_block (sb_read env img)
      = Superblock.data_bitmap_block (block img 0) := by
  unfold Superblock.data_bitmap_block
  apply get_u32_congr
  intro j _ h2
  have : j < 4096 := by omega
  simp [sb_read, block, this]

/-- The inode bitmap the inode loop works on is block 1 of the image, in repair mode and
whenever the stored superblock names block 1. -/
theorem scan_start_inode_bitmap (env : Env) (fix_mode : Bool) (img : Image)
    (hs : TOTAL_BLOCKS * BLOCK_SIZE ≤ img.size)
    (h : fix_mode = true ∨ Superblock.inode_bitmap_block (block img 0) = 1) :
    (scan_start env fix_mode img).inode_bitmap = ib_loaded env img := by
  cases fix_mode
  · have h1 : Superblock.inode_bitmap_block (block img 0) = 1 := by
      rcases h with h | h
      · exact absurd h (by simp)
      · exact h
    unfold scan_start load_bitmaps
    rw [superblock_phase_snd env false img hs, sb_used_check env img hs,
      sb_read_inode_bitmap_block, h1, to_int32_one]
    simp only [Bool.false_eq_true, false_and, if_false]
    rw [read_block_one _ _ hs]
    rfl
  · rw [scan_start_fix env img hs]
    rfl

/-! ## Counting the reports of the sweep -/

theorem sb_msgs_not_unreferenced (fix_mode : Bool) (sb : Buffer) (m : Msg)
    (h : m ∈ sb_msgs fix_mode sb) : (Event.printf m).isUnreferenced = false := by
  unfold sb_msgs at h
  simp only [List.mem_append] at h
  rcases h with ((((((((h | h) | h) | h) | h) | h) | h) | h) | h) <;>
    rcases mem_sb_check_msgs _ _ _ _ h with h2 | h2 <;> rw [h2] <;> rfl

theorem start_log_not_unreferenced (fix_mode : Bool) (sb : Buffer) (b1 b2 : Int) :
    ∀ e ∈ start_log fix_mode sb b1 b2, e.isUnreferenced = false := by
  intro e he
  unfold start_log at he
  simp only [List.mem_append, List.mem_map, List.mem_cons, List.mem_singleton,
    List.not_mem_nil, or_false] at he
  rcases he with ((he | he) | he) | he
  · rcases he with he | he <;> rw [he] <;> rfl
  · obtain ⟨m, hm, rfl⟩ := he
    exact sb_msgs_not_unreferenced fix_mode sb m hm
  · split at he
    · simp only [List.mem_cons, List.mem_singleton, List.not_mem_nil, or_false] at he
      rcases he with he | he <;> rw [he] <;> rfl
    · simp at he
  · rcases he with he | he | he <;> rw [he] <;> rfl

theorem step_events_not_unreferenced (fix_mode : Bool) (j : Nat) (v : Bool) (d : Nat)
    (m u sn : Bool) :
    ∀ e ∈ step_events fix_mode j v d m u sn, e.isUnreferenced = false := by
  have h : (step_events fix_mode j v d m u sn).all (fun e => !e.isUnreferenced) = true := by
    unfold step_events inode_bitmap_events direct_events
    cases fix_mode <;> cases v <;> cases m <;> cases u <;> cases sn <;>
      by_cases hr : (DATA_BLOCK_START ≤ d ∧ d < TOTAL_BLOCKS) <;>
      by_cases hz : d = 0 <;>
      simp [hr, hz, Event.isUnreferenced]
  intro e he
  simpa using List.all_eq_true.mp h e he

theorem write_back_events_not_unreferenced (fix_mode : Bool) (b1 b2 : Int) :
    ∀ e ∈ write_back_events fix_mode b1 b2 ++ [Event.printf Msg.completed],
      e.isUnreferenced = false := by
  intro e he
  unfold write_back_events at he
  cases fix_mode <;>
    simp only [List.mem_append, List.mem_cons, List.mem_singleton, List.not_mem_nil, or_false,
      if_true, if_false, Bool.false_eq_true, false_or] at he
  · rw [he]; rfl
  · rcases he with (he | he | he) | he <;> rw [he] <;> rfl

theorem sweep_count_unreferenced (fix_mode : Bool) (j r : Nat) (u sn : Bool) :
    (sweep_events fix_mode j u sn).count (Event.printf (Msg.unreferenced (r + DATA_BLOCK_START)))
      = if j = r ∧ u = true ∧ sn = false then 1 else 0 := by
  unfold sweep_events
  by_cases hjr : j = r
  · subst hjr
    cases fix_mode <;> cases u <;> cases sn <;> simp [List.count_cons]
  · have h2 : ¬ j + DATA_BLOCK_START = r + DATA_BLOCK_START := by omega
    have h3 : ¬ j + 8 = r + 8 := by omega
    cases fix_mode <;> cases u <;> cases sn <;> simp [List.count_cons, hjr, h2, h3]

theorem count_eq_zero_of_not_unreferenced (l : List Event) (b : Nat)
    (h : ∀ e ∈ l, e.isUnreferenced = false) :
    l.count (Event.printf (Msg.unreferenced b)) = 0 := by
  rw [List.count_eq_zero]
  intro hmem
  have := h _ hmem
  simp [Event.isUnreferenced] at this

theorem count_flatMap_range (a : Event) (f : Nat → List Event) (n i : Nat)
    (h : ∀ j, j ≠ i → (f j).count a = 0) :
    ((List.range n).flatMap f).count a = if i < n then (f i).count a else 0 := by
  induction n with
  | zero => simp
  | succ n ih =>
    rw [List.range_succ, List.flatMap_append, List.count_append, ih, List.flatMap_singleton]
    by_cases hin : i = n
    · subst hin
      simp
    · rw [h n (fun e => hin e.symm)]
      have e1 : (i < n + 1) ↔ (i < n) := by omega
      simp only [e1, Nat.add_zero]

theorem count_flatMap_zero (a : Event) (f : Nat → List Event) (n : Nat)
    (h : ∀ j, (f j).count a = 0) : ((List.range n).flatMap f).count a = 0 := by
  induction n with
  | zero => simp
  | succ n ih =>
    rw [List.range_succ, List.flatMap_append, List.count_append, ih, List.flatMap_singleton,
      h n]

/-- The sweep reports of a run for relative block `r` come from iteration `r` of the
sweep. -/
theorem run_count_unreferenced (env : Env) (fix_mode : Bool) (img : Image)
    (hs : TOTAL_BLOCKS * BLOCK_SIZE ≤ img.size) (r : Nat) (hr : r < DATA_BLOCK_COUNT) :
    (run env fix_mode img).log.count (Event.printf (Msg.unreferenced (r + DATA_BLOCK_START)))
      = if bit (scanned env fix_mode img).data_bitmap r = true
            ∧ bit (scanned env fix_mode img).seen_data_blocks r = false
        then 1 else 0 := by
  rw [run_log env fix_mode img hs, List.count_append, List.count_append, List.count_append,
    count_eq_zero_of_not_unreferenced _ _ (start_log_not_unreferenced _ _ _ _),
    count_eq_zero_of_not_unreferenced _ _ (write_back_events_not_unreferenced _ _ _),
    count_flatMap_zero _ _ MAX_INODES, count_flatMap_range _ _ DATA_BLOCK_COUNT r, if_pos hr,
    sweep_count_unreferenced]
  · simp
  · intro j hj
    rw [sweep_count_unreferenced, if_neg (fun h => hj h.1)]
  · intro j
    unfold scan_events
    exact count_eq_zero_of_not_unreferenced _ _ (step_events_not_unreferenced _ _ _ _ _ _ _)

/-! ## The reports of a run, in order -/

theorem reports_append (a b : List Event) : reports (a ++ b) = reports a ++ reports b := by
  induction a with
  | nil => rfl
  | cons e es ih =>
    cases e with
    | printf m =>
      by_cases h : m.isReport = true <;> simp [reports, h, ih]
    | _ => simpa [reports] using ih

theorem reports_flatMap {α : Type} (l : List α) (f : α → List Event) :
    reports (l.flatMap f) = l.flatMap (fun x => reports (f x)) := by
  induction l with
  | nil => rfl
  | cons x xs ih => rw [List.flatMap_cons, reports_append, ih, List.flatMap_cons]

theorem reports_map_printf (l : List Msg) :
    reports (l.map Event.printf) = l.filter Msg.isReport := by
  induction l with
  | nil => rfl
  | cons m ms ih =>
    simp only [List.map_cons, reports, List.filter_cons]
    split <;> rw [ih]

theorem reports_step_events (fix_mode : Bool) (i : Nat) (v : Bool) (d : Nat) (m u sn : Bool) :
    reports (step_events fix_mode i v d m u sn) = step_reports i v d m u sn := by
  unfold step_events inode_bitmap_events direct_events step_reports
  cases fix_mode <;> cases v <;> cases m <;> cases u <;> cases sn <;>
    by_cases hr : (DATA_BLOCK_START ≤ d ∧ d < TOTAL_BLOCKS) <;>
    by_cases hz : d = 0 <;>
    simp [hr, hz, reports, Msg.isReport]

theorem reports_sweep_events (fix_mode : Bool) (i : Nat) (u sn : Bool) :
    reports (sweep_events fix_mode i u sn)
      = if u = true ∧ sn = false then [Msg.unreferenced (i + DATA_BLOCK_START)] else [] := by
  unfold sweep_events
  cases fix_mode <;> cases u <;> cases sn <;> simp [reports, Msg.isReport]

theorem reports_write_back_events (fix_mode : Bool) (b1 b2 : Int) :
    reports (write_back_events fix_mode b1 b2 ++ [Event.printf Msg.completed]) = [] := by
  unfold write_back_events
  cases fix_mode <;> simp [reports, Msg.isReport]

theorem filter_sb_check_msgs (fix_mode bad : Bool) (msg : Msg) (h : msg.isReport = true) :
    (sb_check_msgs fix_mode bad msg).filter Msg.isReport = if bad = true then [msg] else [] := by
  have hf : Msg.fixed.isReport = false := rfl
  unfold sb_check_msgs
  cases bad <;> cases fix_mode <;> simp [List.filter_cons, h, hf]

theorem filter_sb_msgs (fix_mode : Bool) (sb : Buffer) :
    (sb_msgs fix_mode sb).filter Msg.isReport = sb_deviations sb := by
  unfold sb_msgs sb_deviations
  simp only [List.filter_append,
    filter_sb_check_msgs _ _ (Msg.invalid_magic _) rfl,
    filter_sb_check_msgs _ _ (Msg.block_size _) rfl,
    filter_sb_check_msgs _ _ (Msg.total_blocks _) rfl,
    filter_sb_check_msgs _ _ (Msg.inode_bitmap_block _) rfl,
    filter_sb_check_msgs _ _ (Msg.data_bitmap_block _) rfl,
    filter_sb_check_msgs _ _ (Msg.inode_table_start _) rfl,
    filter_sb_check_msgs _ _ (Msg.first_data_block _) rfl,
    filter_sb_check_msgs _ _ (Msg.inode_size _) rfl,
    filter_sb_check_msgs _ _ (Msg.inode_count_exceeds _) rfl,
    bne_iff_ne, ne_eq, decide_eq_true_eq]

theorem reports_start_log (fix_mode : Bool) (sb : Buffer) (b1 b2 : Int) :
    reports (start_log fix_mode sb b1 b2) = sb_deviations sb := by
  unfold start_log
  rw [reports_append, reports_append, reports_append, reports_map_printf, filter_sb_msgs]
  have h1 : reports [Event.read_block 0, Event.printf Msg.validating_superblock] = [] := rfl
  have h2 : reports (if fix_mode = true ∧ sb_bad sb = true then
      [Event.printf Msg.writing_superblock, Event.write_block 0] else []) = [] := by
    split <;> rfl
  have h3 : reports [Event.read_block b1, Event.read_block b2,
      Event.printf Msg.checking_inodes] = [] := rfl
  rw [h1, h2, h3, List.nil_append, List.append_nil, List.append_nil]

theorem flatMap_range_congr {β : Type} (f g : Nat → List β) (n : Nat)
    (h : ∀ j, j < n → f j = g j) : (List.range n).flatMap f = (List.range n).flatMap g := by
  induction n with
  | zero => rfl
  | succ n ih =>
    rw [List.range_succ, List.flatMap_append, List.flatMap_append, List.flatMap_singleton,
      List.flatMap_singleton, ih (fun j hj => h j (Nat.lt_succ_of_lt hj)),
      h n (Nat.lt_succ_self n)]

theorem flatMap_range_nil {β : Type} (f : Nat → List β) (n : Nat)
    (h : ∀ j, j < n → f j = []) : (List.range n).flatMap f = [] := by
  rw [flatMap_range_congr f (fun _ => []) n h]
  clear h
  induction n with
  | zero => rfl
  | succ n ih => rw [List.range_succ, List.flatMap_append, ih]; rfl

/-- Two records that agree on their first 34 bytes have the same nine checked fields. -/
theorem sb_fields_congr (a b : Buffer) (h : ∀ j, j < 34 → a j = b j) :
    Superblock.magic a = Superblock.magic b
      ∧ Superblock.block_size a = Superblock.block_size b
      ∧ Superblock.total_blocks a = Superblock.total_blocks b
      ∧ Superblock.inode_bitmap_block a = Superblock.inode_bitmap_block b
      ∧ Superblock.data_bitmap_block a = Superblock.data_bitmap_block b
      ∧ Superblock.inode_table_start a = Superblock.inode_table_start b
      ∧ Superblock.first_data_block a = Superblock.first_data_block b
      ∧ Superblock.inode_size a = Superblock.inode_size b
      ∧ Superblock.inode_count a = Superblock.inode_count b := by
  refine ⟨get_u16_congr a b 0 ?_, get_u32_congr a b 2 ?_, get_u32_congr a b 6 ?_,
    get_u32_congr a b 10 ?_, get_u32_congr a b 14 ?_, get_u32_congr a b 18 ?_,
    get_u32_congr a b 22 ?_, get_u32_congr a b 26 ?_, get_u32_congr a b 30 ?_⟩ <;>
  · intro j _ _
    exact h j (by omega)

theorem sb_deviations_congr (a b : Buffer) (h : ∀ j, j < 34 → a j = b j) :
    sb_deviations a = sb_deviations b := by
  obtain ⟨h1, h2, h3, h4, h5, h6, h7, h8, h9⟩ := sb_fields_congr a b h
  unfold sb_deviations
  rw [h1, h2, h3, h4, h5, h6, h7, h8, h9]

theorem sb_bad_congr (a b : Buffer) (h : ∀ j, j < 34 → a j = b j) : sb_bad a = sb_bad b := by
  obtain ⟨h1, h2, h3, h4, h5, h6, h7, h8, h9⟩ := sb_fields_congr a b h
  unfold sb_bad
  rw [h1, h2, h3, h4, h5, h6, h7, h8, h9]

theorem sb_ok_congr (a b : Buffer) (h : ∀ j, j < 34 → a j = b j) : sb_ok a ↔ sb_ok b := by
  obtain ⟨h1, h2, h3, h4, h5, h6, h7, h8, h9⟩ := sb_fields_congr a b h
  unfold sb_ok
  rw [h1, h2, h3, h4, h5, h6, h7, h8, h9]

theorem sb_read_block0 (env : Env) (img : Image) (j : Nat) (hj : j < 34) :
    sb_read env img j = block img 0 j := by
  have : j < 4096 := by omega
  simp [sb_read, block, this]

/-- The inconsistency reports of a run, in order: the superblock deviations, then the
reports of each inode in ascending index order, then the sweep reports in ascending block
order. Here `ib` and `db` are the bitmaps the run loaded. -/
theorem run_reports (env : Env) (fix_mode : Bool) (img : Image)
    (hs : TOTAL_BLOCKS * BLOCK_SIZE ≤ img.size) :
    reports (run env fix_mode img).log
      = sb_deviations (block img 0)
        ++ (List.range MAX_INODES).flatMap (fun i =>
            step_reports i (valid img i) (direct img i)
              (bit (scan_start env fix_mode img).inode_bitmap i)
              (bit (scan_start env fix_mode img).data_bitmap (direct img i - DATA_BLOCK_START)
                || (fix_mode && claimed img i (direct img i)))
              (claimed img i (direct img i)))
        ++ (List.range DATA_BLOCK_COUNT).flatMap (fun r =>
            if (bit (scan_start env fix_mode img).data_bitmap r
                  || (fix_mode && claimed img MAX_INODES (r + DATA_BLOCK_START))) = true
                ∧ claimed img MAX_INODES (r + DATA_BLOCK_START) = false
            then [Msg.unreferenced (r + DATA_BLOCK_START)] else []) := by
  have hinv := scanned_inv env fix_mode img (by rw [scan_start_size env fix_mode img hs]; exact hs)
    (scan_start_seen env fix_mode img hs)
  rw [run_log env fix_mode img hs, reports_append, reports_append, reports_append,
    reports_start_log, reports_write_back_events, List.append_nil, reports_flatMap,
    reports_flatMap, sb_deviations_congr _ _ (sb_read_block0 env img)]
  congr 1
  · congr 1
    apply flatMap_range_congr
    intro i _
    unfold scan_events
    rw [reports_step_events, scan_start_valid env fix_mode img hs,
      scan_start_direct env fix_mode img hs, scan_start_claimed env fix_mode img hs]
  · apply flatMap_range_congr
    intro r hr
    have hr56 : r < 56 := hr
    rw [reports_sweep_events, hinv.db r, hinv.seen r, scan_start_claimed env fix_mode img hs]
    have h56 : decide (r < 56) = true := by simpa using hr56
    rw [h56]
    simp only [Bool.true_and]

theorem step_count_write_inode (fix_mode : Bool) (i : Nat) (v : Bool) (d : Nat)
    (m u sn : Bool) :
    (step_events fix_mode i v d m u sn).count (Event.write_inode i)
      = if fix_mode = true ∧ v = true ∧ clears d sn = true then 1 else 0 := by
  unfold step_events inode_bitmap_events direct_events clears
  cases fix_mode <;> cases v <;> cases m <;> cases u <;> cases sn <;>
    by_cases hr : (DATA_BLOCK_START ≤ d ∧ d < TOTAL_BLOCKS) <;>
    by_cases hz : d = 0 <;>
    simp [hr, hz, List.count_cons]

theorem step_count_duplicate_event (fix_mode : Bool) (i : Nat) (v : Bool) (d : Nat)
    (m u sn : Bool) :
    (step_events fix_mode i v d m u sn).count (Event.printf (Msg.duplicate_block d i))
      = if v = true ∧ (DATA_BLOCK_START ≤ d ∧ d < TOTAL_BLOCKS) ∧ sn = true then 1 else 0 := by
  unfold step_events inode_bitmap_events direct_events
  cases fix_mode <;> cases v <;> cases m <;> cases u <;> cases sn <;>
    by_cases hr : (DATA_BLOCK_START ≤ d ∧ d < TOTAL_BLOCKS) <;>
    by_cases hz : d = 0 <;>
    simp [hr, hz, List.count_cons]

/-- Occurrences in the log of an event about inode `i` come from iteration `i` of the inode
loop. -/
theorem run_count_inode_event (env : Env) (fix_mode : Bool) (img : Image)
    (hs : TOTAL_BLOCKS * BLOCK_SIZE ≤ img.size) (a : Event) (i : Nat)
    (hi : i < MAX_INODES) (ha : a.inode = some i) :
    (run env fix_mode img).log.count a
      = (step_events fix_mode i (valid img i) (direct img i)
          (bit (scan_start env fix_mode img).inode_bitmap i)
          (bit (scan_start env fix_mode img).data_bitmap (direct img i - DATA_BLOCK_START)
            || (fix_mode && claimed img i (direct img i)))
          (claimed img i (direct img i))).count a := by
  unfold List.count
  rw [run_countP_inode env fix_mode img hs _ i hi]
  · unfold scan_events
    rw [scan_start_valid env fix_mode img hs, scan_start_direct env fix_mode img hs,
      scan_start_claimed env fix_mode img hs]
  · intro e he
    have : e = a := by simpa using he
    rw [this]; exact ha

/-- Reports of kind `k` naming inode `i` come from iteration `i` of the inode loop. -/
theorem run_report_count (env : Env) (fix_mode : Bool) (img : Image)
    (hs : TOTAL_BLOCKS * BLOCK_SIZE ≤ img.size) (k : Kind) (i : Nat) (hi : i < MAX_INODES) :
    report_count k i (run env fix_mode img).log
      = (step_events fix_mode i (valid img i) (direct img i)
          (bit (scan_start env fix_mode img).inode_bitmap i)
          (bit (scan_start env fix_mode img).data_bitmap (direct img i - DATA_BLOCK_START)
            || (fix_mode && claimed img i (direct img i)))
          (claimed img i (direct img i))).countP (Event.reportsOn k i) := by
  unfold report_count
  rw [run_countP_inode env fix_mode img hs _ i hi (reportsOn_inode k i)]
  unfold scan_events
  rw [scan_start_valid env fix_mode img hs, scan_start_direct env fix_mode img hs,
    scan_start_claimed env fix_mode img hs]

/-! ## The writes of a run, in order -/

theorem writes_step_events (fix_mode : Bool) (i : Nat) (v : Bool) (d : Nat) (m u sn : Bool) :
    writes (step_events fix_mode i v d m u sn)
      = if fix_mode = true ∧ v = true ∧ clears d sn = true then [Event.write_inode i]
        else [] := by
  unfold step_events inode_bitmap_events direct_events clears writes
  cases fix_mode <;> cases v <;> cases m <;> cases u <;> cases sn <;>
    by_cases hr : (DATA_BLOCK_START ≤ d ∧ d < TOTAL_BLOCKS) <;>
    by_cases hz : d = 0 <;>
    simp [hr, hz, Event.isWrite]

theorem writes_start_log (fix_mode : Bool) (sb : Buffer) (b1 b2 : Int) :
    writes (start_log fix_mode sb b1 b2)
      = if fix_mode = true ∧ sb_bad sb = true then [Event.write_block 0] else [] := by
  unfold start_log
  rw [writes_append, writes_append, writes_append, writes_map_printf]
  have h1 : writes [Event.read_block 0, Event.printf Msg.validating_superblock] = [] := rfl
  have h3 : writes [Event.read_block b1, Event.read_block b2,
      Event.printf Msg.checking_inodes] = [] := rfl
  rw [h1, h3, List.nil_append, List.nil_append, List.append_nil]
  split <;> rfl

theorem writes_write_back_events (fix_mode : Bool) (b1 b2 : Int) :
    writes (write_back_events fix_mode b1 b2 ++ [Event.printf Msg.completed])
      = if fix_mode = true then [Event.write_block b1, Event.write_block b2] else [] := by
  unfold write_back_events
  cases fix_mode <;> rfl

theorem writes_flatMap {α : Type} (l : List α) (f : α → List Event) :
    writes (l.flatMap f) = l.flatMap (fun x => writes (f x)) := by
  induction l with
  | nil => rfl
  | cons x xs ih => rw [List.flatMap_cons, writes_append, ih, List.flatMap_cons]

/-- The writes of a repair run, in order: block 0 if a superblock check fired, then the
record of each inode whose pointer is cleared, in ascending index order, then blocks 1
and 2. -/
theorem repair_writes (env : Env) (img : Image) (hs : TOTAL_BLOCKS * BLOCK_SIZE ≤ img.size) :
    writes (run env true img).log
      = (if sb_bad (block img 0) = true then [Event.write_block 0] else [])
        ++ (List.range MAX_INODES).flatMap
            (fun i => if cleared img i = true then [Event.write_inode i] else [])
        ++ [Event.write_block 1, Event.write_block 2] := by
  obtain ⟨-, -, -, h1, h2, -⟩ := sb_used_fix_ok env img hs
  rw [run_log env true img hs, writes_append, writes_append, writes_append, writes_start_log,
    writes_write_back_events, writes_flatMap, writes_flatMap, h1, h2, to_int32_one,
    to_int32_two, sb_bad_congr _ _ (sb_read_block0 env img)]
  have hsw : ((List.range DATA_BLOCK_COUNT).flatMap fun x =>
        writes (sweep_events true x (bit (scanned env true img).data_bitmap x)
            (bit (scanned env true img).seen_data_blocks x))) = [] :=
    flatMap_range_nil _ _ (fun j _ => writes_sweep_events true j _ _)
  have hA : (if true = true ∧ sb_bad (block img 0) = true then [Event.write_block 0] else [])
      = (if sb_bad (block img 0) = true then [Event.write_block 0] else []) := by
    simp only [true_and]
  have hF : ((List.range MAX_INODES).flatMap fun x =>
        writes (scan_events true (scan_start env true img).fp.image
          (scan_start env true img).inode_bitmap (scan_start env true img).data_bitmap x))
      = (List.range MAX_INODES).flatMap
          (fun i => if cleared img i = true then [Event.write_inode i] else []) := by
    apply flatMap_range_congr
    intro i _
    unfold scan_events
    rw [writes_step_events, scan_start_valid env true img hs, scan_start_direct env true img hs,
      scan_start_claimed env true img hs, cleared_eq]
    simp only [true_and, Bool.and_eq_true]
  rw [hsw, List.append_nil, hA, hF, if_pos rfl]

theorem sb_deviations_eq_nil (sb : Buffer) : sb_deviations sb = [] ↔ sb_bad sb = false := by
  rw [sb_bad_eq_false_iff]
  unfold sb_deviations sb_ok
  simp only [List.append_eq_nil, ite_eq_right_iff, List.cons_ne_nil, imp_false, not_not,
    gt_iff_lt, not_lt, and_assoc]

theorem step_reports_kind (i : Nat) (v : Bool) (d : Nat) (m u sn : Bool) :
    ∀ x ∈ step_reports i v d m u sn, x.kind ≠ some Kind.superblock := by
  have h : (step_reports i v d m u sn).all (fun x => decide (x.kind ≠ some Kind.superblock))
      = true := by
    unfold step_reports
    cases v <;> cases m <;> cases u <;> cases sn <;>
      by_cases hr : (DATA_BLOCK_START ≤ d ∧ d < TOTAL_BLOCKS) <;>
      by_cases hz : d = 0 <;>
      simp [hr, hz, Msg.kind]
  intro x hx
  exact of_decide_eq_true (List.all_eq_true.mp h x hx)

/-- The first 34 bytes of block 0 after a repair run are those of the record the checks
left. -/
theorem repair_block0_fields (env : Env) (img : Image)
    (hs : TOTAL_BLOCKS * BLOCK_SIZE ≤ img.size) (j : Nat) (hj : j < 34) :
    block (run env true img).image 0 j = sb_used env true img j := by
  have hj2 : j < 4096 := by omega
  have e : block (run env true img).image 0 j = (run env true img).image.byte j := by
    simp [block]
  rw [e, repair_image_block0 env img hs j hj2]
  unfold sb_written
  by_cases hb : sb_bad (sb_read env img) = true
  · simp only [hb, if_true, hj2]
  · have hb2 : sb_bad (sb_read env img) = false := by simpa using hb
    rw [if_neg hb, sb_used_good env true img hs hb2]
    simp [sb_read, hj2]

theorem run_reports_split (env : Env) (fix_mode : Bool) (img : Image)
    (hs : TOTAL_BLOCKS * BLOCK_SIZE ≤ img.size) :
    reports (run env fix_mode img).log
      = sb_deviations (block img 0) ++ later_reports env fix_mode img := by
  rw [run_reports env fix_mode img hs, List.append_assoc]
  rfl

theorem later_reports_kind (env : Env) (fix_mode : Bool) (img : Image) :
    ∀ m ∈ later_reports env fix_mode img, m.kind ≠ some Kind.superblock := by
  intro m hm
  unfold later_reports at hm
  rw [List.mem_append, List.mem_flatMap, List.mem_flatMap] at hm
  rcases hm with ⟨i, _, hmi⟩ | ⟨r, _, hmr⟩
  · exact step_reports_kind _ _ _ _ _ _ m hmi
  · split at hmr
    · rw [List.mem_singleton] at hmr
      rw [hmr]
      simp [Msg.kind]
    · simp at hmr

/-- The nine checked superblock fields after a repair run. -/
theorem repair_superblock_fields (env : Env) (img : Image)
    (hs : TOTAL_BLOCKS * BLOCK_SIZE ≤ img.size) :
    Superblock.magic (block (run env true img).image 0) = 0xD34D
      ∧ Superblock.block_size (block (run env true img).image 0) = 4096
      ∧ Superblock.total_blocks (block (run env true img).image 0) = 64
      ∧ Superblock.inode_bitmap_block (block (run env true img).image 0) = 1
      ∧ Superblock.data_bitmap_block (block (run env true img).image 0) = 2
      ∧ Superblock.inode_table_start (block (run env true img).image 0) = 3
      ∧ Superblock.first_data_block (block (run env true img).image 0) = 8
      ∧ Superblock.inode_size (block (run env true img).image 0) = 256
      ∧ Superblock.inode_count (block (run env true img).image 0)
          = min (Superblock.inode_count (block img 0)) 80 := by
  obtain ⟨g1, g2, g3, g4, g5, g6, g7, g8, g9⟩ :=
    sb_fields_congr _ _ (repair_block0_fields env img hs)
  obtain ⟨f1, f2, f3, f4, f5, f6, f7, f8, f9⟩ :=
    sb_fields_congr _ _ (sb_read_block0 env img)
  have hok := sb_used_fix_ok env img hs
  obtain ⟨k1, k2, k3, k4, k5, k6, k7, k8, -⟩ := hok
  have hcount := (validate_superblock_fix
    { sb := sb_read env img, sb_changed := false,
      log := [Event.read_block 0, Event.printf Msg.validating_superblock] }).2
  rw [← sb_used_eq env true img hs] at hcount
  have hcount2 : Superblock.inode_count (sb_used env true img)
      = min (Superblock.inode_count (block img 0)) 80 := by
    rw [hcount, ← f9]
    rfl
  rw [g1, g2, g3, g4, g5, g6, g7, g8, g9, k1, k2, k3, k4, k5, k6, k7, k8, hcount2]
  exact ⟨rfl, rfl, rfl, rfl, rfl, rfl, rfl, rfl, rfl⟩

/-! ## Consistent images -/

/-- Among the valid inodes below `n` that store `b` there is a first one. -/
theorem claimed_least (img : Image) (n b : Nat) (h : claimed img n b = true) :
    ∃ j, j < n ∧ valid img j = true ∧ direct img j = b ∧ claimed img j b = false := by
  induction n with
  | zero => rw [claimed_zero] at h; exact absurd h (by simp)
  | succ n ih =>
    rw [claimed_succ] at h
    cases hc : claimed img n b
    · rw [hc, Bool.false_or, Bool.and_eq_true, decide_eq_true_eq] at h
      exact ⟨n, Nat.lt_succ_self n, h.1, h.2, hc⟩
    · obtain ⟨j, hj, hrest⟩ := ih hc
      exact ⟨j, Nat.lt_succ_of_lt hj, hrest⟩

theorem clears_zero (sn : Bool) : clears 0 sn = false := by
  unfold clears
  simp

/-- After a repair run the in-range blocks are stored by valid inodes below `n` exactly
when they were before it. -/
theorem repair_claimed (env : Env) (img : Image) (hs : TOTAL_BLOCKS * BLOCK_SIZE ≤ img.size)
    (n b : Nat) (hn : n ≤ MAX_INODES) (hb1 : DATA_BLOCK_START ≤ b) (hb2 : b < TOTAL_BLOCKS) :
    claimed (run env true img).image n b = claimed img n b := by
  have hb0 : b ≠ 0 := by
    have : 8 ≤ b := hb1
    omega
  apply Bool.eq_iff_iff.mpr
  rw [claimed_iff, claimed_iff]
  constructor
  · rintro ⟨j, hj, hv, hd⟩
    have hj80 : j < MAX_INODES := Nat.lt_of_lt_of_le hj hn
    rw [repair_valid env img hs j] at hv
    rw [repair_direct env img hs j hj80] at hd
    split at hd
    · exact absurd hd.symm hb0
    · exact ⟨j, hj, hv, hd⟩
  · intro h
    obtain ⟨j, hj, hv, hd, hc⟩ := claimed_least img n b ((claimed_iff img n b).mpr h)
    have hj80 : j < MAX_INODES := Nat.lt_of_lt_of_le hj hn
    have hcl : cleared img j = false := by
      rw [cleared_eq, hv, Bool.true_and, hd, hc]
      unfold clears
      rw [if_pos ⟨hb1, hb2⟩]
    refine ⟨j, hj, ?_, ?_⟩
    · rw [repair_valid env img hs j]; exact hv
    · rw [repair_direct env img hs j hj80, hcl]
      simpa using hd

/-- The image a repair run leaves behind is consistent. -/
theorem repair_consistent (env : Env) (img : Image)
    (hs : TOTAL_BLOCKS * BLOCK_SIZE ≤ img.size) : Consistent (run env true img).image := by
  refine ⟨?_, ?_, ?_, ?_⟩
  · rw [sb_ok_congr _ _ (repair_block0_fields env img hs)]
    exact sb_used_fix_ok env img hs
  · intro i hi
    have hi2 : i < 80 := hi
    rw [repair_inode_bit env img hs i (by omega), if_pos hi, repair_valid env img hs i]
  · intro i hi
    rw [cleared_eq, repair_valid env img hs i]
    cases hv : valid img i
    · rfl
    · rw [Bool.true_and, repair_direct env img hs i hi]
      cases hc : cleared img i
      · simp only [Bool.false_eq_true, if_false]
        rw [cleared_eq, hv, Bool.true_and] at hc
        by_cases hr : DATA_BLOCK_START ≤ direct img i ∧ direct img i < TOTAL_BLOCKS
        · rw [repair_claimed env img hs i _ (Nat.le_of_lt hi) hr.1 hr.2]
          exact hc
        · unfold clears at hc ⊢
          rw [if_neg hr] at hc ⊢
          exact hc
      · simp only [if_true]
        exact clears_zero _
  · intro r hr
    have hr2 : r < 56 := hr
    rw [repair_data_bit env img hs r (by omega), if_pos hr,
      repair_claimed env img hs MAX_INODES _ (le_refl _)
        (by simp only [DATA_BLOCK_START]; omega)
        (by simp only [DATA_BLOCK_START, TOTAL_BLOCKS]; omega)]

theorem Consistent.sb_not_bad {img : Image} (h : Consistent img) (env : Env) :
    sb_bad (sb_read env img) = false := by
  rw [sb_bad_congr _ _ (sb_read_block0 env img), sb_bad_eq_false_iff]
  exact h.1

/-- A valid inode of a consistent image whose pointer is in range is the first to store it,
and the data bitmap marks its block. -/
theorem Consistent.in_range {img : Image} (h : Consistent img) (i : Nat)
    (hi : i < MAX_INODES) (hv : valid img i = true)
    (hr : DATA_BLOCK_START ≤ direct img i ∧ direct img i < TOTAL_BLOCKS) :
    claimed img i (direct img i) = false
      ∧ bit (block img 2) (direct img i - DATA_BLOCK_START) = true := by
  obtain ⟨-, -, hcl, hdb⟩ := h
  have h1 := hcl i hi
  rw [cleared_eq, hv, Bool.true_and] at h1
  unfold clears at h1
  rw [if_pos hr] at h1
  refine ⟨h1, ?_⟩
  have h8 : 8 ≤ direct img i := hr.1
  have h64 : direct img i < 64 := hr.2
  have e : direct img i - DATA_BLOCK_START + DATA_BLOCK_START = direct img i := by
    simp only [DATA_BLOCK_START]; omega
  rw [hdb _ (by simp only [DATA_BLOCK_START, DATA_BLOCK_COUNT, TOTAL_BLOCKS]; omega), e,
    claimed_iff]
  exact ⟨i, hi, hv, rfl⟩

/-- A valid inode of a consistent image whose pointer is out of range has the pointer 0. -/
theorem Consistent.out_of_range {img : Image} (h : Consistent img) (i : Nat)
    (hi : i < MAX_INODES) (hv : valid img i = true)
    (hr : ¬ (DATA_BLOCK_START ≤ direct img i ∧ direct img i < TOTAL_BLOCKS)) :
    direct img i = 0 := by
  obtain ⟨-, -, hcl, -⟩ := h
  have h1 := hcl i hi
  rw [cleared_eq, hv, Bool.true_and] at h1
  unfold clears at h1
  rw [if_neg hr] at h1
  simpa using h1

/-- A repair run on a consistent image reports nothing. -/
theorem consistent_reports (env : Env) (img : Image)
    (hs : TOTAL_BLOCKS * BLOCK_SIZE ≤ img.size) (h : Consistent img) :
    reports (run env true img).log = [] := by
  have hbad := h.sb_not_bad env
  rw [sb_bad_congr _ _ (sb_read_block0 env img)] at hbad
  rw [run_reports_split env true img hs, (sb_deviations_eq_nil _).mpr hbad, List.nil_append]
  unfold later_reports
  rw [scan_start_fix env img hs]
  have e1 : ∀ i, i < MAX_INODES →
      step_reports i (valid img i) (direct img i)
        (bit (fun j => if j < 4096 then img.byte (4096 + j) else env.inode_bitmap j) i)
        (bit (fun j => if j < 4096 then img.byte (8192 + j) else env.data_bitmap j)
            (direct img i - DATA_BLOCK_START)
          || (true && claimed img i (direct img i)))
        (claimed img i (direct img i)) = [] := by
    intro i hi
    have hi2 : i < 80 := hi
    have hm := bit_ib_loaded env img i (by omega)
    unfold ib_loaded at hm
    rw [hm, h.2.1 i hi]
    unfold step_reports
    cases hv : valid img i
    · simp
    · by_cases hr : DATA_BLOCK_START ≤ direct img i ∧ direct img i < TOTAL_BLOCKS
      · obtain ⟨hc, hb⟩ := h.in_range i hi hv hr
        have h8 : 8 ≤ direct img i := hr.1
        have h64 : direct img i < 64 := hr.2
        have hu := bit_db_loaded env img (direct img i - DATA_BLOCK_START)
          (by simp only [DATA_BLOCK_START]; omega)
        unfold db_loaded at hu
        rw [hu, hb, hc]
        simp [hr]
      · have hz := h.out_of_range i hi hv hr
        simp [hr, hz]
  have e2 : ∀ r, r < DATA_BLOCK_COUNT →
      (if (bit (fun j => if j < 4096 then img.byte (8192 + j) else env.data_bitmap j) r
              || (true && claimed img MAX_INODES (r + DATA_BLOCK_START))) = true
            ∧ claimed img MAX_INODES (r + DATA_BLOCK_START) = false
        then [Msg.unreferenced (r + DATA_BLOCK_START)] else []) = [] := by
    intro r hr
    have hr2 : r < 56 := hr
    have hu := bit_db_loaded env img r (by omega)
    unfold db_loaded at hu
    rw [hu, h.2.2.2 r hr]
    cases claimed img MAX_INODES (r + DATA_BLOCK_START) <;> simp
  rw [flatMap_range_nil _ _ e1, flatMap_range_nil _ _ e2]
  rfl

/-- A repair run on a consistent image writes the two bitmaps and nothing else. -/
theorem consistent_writes (env : Env) (img : Image)
    (hs : TOTAL_BLOCKS * BLOCK_SIZE ≤ img.size) (h : Consistent img) :
    writes (run env true img).log = [Event.write_block 1, Event.write_block 2] := by
  have hbad := h.sb_not_bad env
  rw [sb_bad_congr _ _ (sb_read_block0 env img)] at hbad
  rw [repair_writes env img hs, hbad]
  have e : ∀ i, i < MAX_INODES → (if cleared img i = true then [Event.write_inode i] else [])
      = [] := by
    intro i hi
    rw [h.2.2.1 i hi]
    rfl
  rw [flatMap_range_nil _ _ e]
  rfl

/-- A repair run on a consistent image leaves it byte-for-byte unchanged. -/
theorem consistent_image (env : Env) (img : Image)
    (hs : TOTAL_BLOCKS * BLOCK_SIZE ≤ img.size) (h : Consistent img) :
    (run env true img).image = img := by
  have hinv := scanned_fix_inv env img hs
  have hsw := swept_inv env true img
  have hbad := h.sb_not_bad env
  have hsbw : sb_written env img = img.byte := by
    unfold sb_written
    rw [hbad]
    rfl
  -- the inode loop changes neither the file nor the two bitmaps
  have hib : (scanned env true img).inode_bitmap = ib_loaded env img := by
    apply hinv.ib_same
    intro _ j hj
    have hj2 : j < 80 := hj
    rw [bit_ib_loaded env img j (by omega), h.2.1 j hj, valid_after_sb]
  have hdb : (scanned env true img).data_bitmap = db_loaded env img := by
    apply hinv.db_same
    intro _ j hj hv hr1 hr2
    rw [valid_after_sb] at hv
    rw [direct_after_sb] at hr1 hr2 ⊢
    have hb := (h.in_range j hj hv ⟨hr1, hr2⟩).2
    rw [bit_db_loaded env img _ (by omega)]
    exact hb
  have hbytes : (scanned env true img).fp.byte = img.byte := by
    funext k
    rw [hinv.kept k, ← hsbw]
    · rfl
    · intro j hj _ hc
      rw [cleared_after_sb, h.2.2.1 j hj] at hc
      exact absurd hc (by simp)
  -- the sweep does not change the data bitmap
  have hdb2 : (swept env true img).data_bitmap = db_loaded env img := by
    rw [← hdb]
    apply hsw.db_same
    intro _ r hr hbit
    have hr2 : r < 56 := hr
    have h56 : decide (r < 56) = true := by simpa using hr2
    rw [hinv.seen r, h56, Bool.true_and, claimed_after_sb]
    rw [hdb, bit_db_loaded env img r (by omega), h.2.2.2 r hr] at hbit
    exact hbit
  have hfun : (fun k =>
        if 8192 ≤ k ∧ k < 12288 then db_loaded env img (k - 8192)
        else if 4096 ≤ k ∧ k < 8192 then ib_loaded env img (k - 4096)
        else img.byte k) = img.byte := by
    funext k
    by_cases h2 : 8192 ≤ k ∧ k < 12288
    · have e1 : k - 8192 < 4096 := by omega
      have e2 : 8192 + (k - 8192) = k := by omega
      simp only [h2, and_self, if_true, db_loaded, e1, e2]
    · by_cases h1 : 4096 ≤ k ∧ k < 8192
      · have e1 : k - 4096 < 4096 := by omega
        have e2 : 4096 + (k - 4096) = k := by omega
        simp only [h2, h1, and_self, if_true, if_false, ib_loaded, e1, e2]
      · simp only [h2, h1, if_false]
  rw [repair_image env img hs, hdb2, hib, hbytes, hfun]

/-! ## The concrete scenario -/

theorem flatMap_range_single {β : Type} (f : Nat → List β) (n i : Nat) (hi : i < n)
    (h : ∀ j, j < n → j ≠ i → f j = []) : (List.range n).flatMap f = f i := by
  have key : ∀ m, m ≤ n → (List.range m).flatMap f = if i < m then f i else [] := by
    intro m
    induction m with
    | zero => intro _; rfl
    | succ m ih =>
      intro hm
      rw [List.range_succ, List.flatMap_append, List.flatMap_singleton,
        ih (Nat.le_of_succ_le hm)]
      by_cases him : i = m
      · subst him
        simp
      · rw [h m hm (fun e => him e.symm), List.append_nil]
        have e1 : (i < m + 1) ↔ (i < m) := by omega
        simp only [e1]
  rw [key n (le_refl n), if_pos hi]

theorem Scenario.valid5 {img : Image} (h : Scenario img) : valid img 5 = true := by
  unfold valid
  rw [h.links5, h.dtime5]
  rfl

theorem Scenario.claimed5 {img : Image} (h : Scenario img) : claimed img 5 10 = false := by
  cases hc : claimed img 5 10
  · rfl
  · obtain ⟨j, hj, hv, hd⟩ := (claimed_iff img 5 10).mp hc
    rcases h.pointers j (by omega) (by omega) hv with hz | ⟨_, _, hne, _⟩
    · rw [hz] at hd; exact absurd hd (by decide)
    · exact absurd hd hne

theorem Scenario.claimed10 {img : Image} (h : Scenario img) :
    claimed img MAX_INODES 10 = true :=
  (claimed_iff img MAX_INODES 10).mpr ⟨5, by decide, h.valid5, h.direct5⟩

/-- In the scenario the other valid inodes have nothing to report about their pointer. -/
theorem Scenario.other {img : Image} (h : Scenario img) (i : Nat) (hi : i < 80) (hne : i ≠ 5)
    (hv : valid img i = true) :
    direct img i = 0
      ∨ ((DATA_BLOCK_START ≤ direct img i ∧ direct img i < TOTAL_BLOCKS)
          ∧ claimed img i (direct img i) = false
          ∧ bit (block img 2) (direct img i - DATA_BLOCK_START) = true) := by
  rcases h.pointers i hi hne hv with hz | ⟨h8, h64, h10, hfirst⟩
  · exact Or.inl hz
  · right
    refine ⟨⟨h8, h64⟩, ?_, ?_⟩
    · cases hc : claimed img i (direct img i)
      · rfl
      · obtain ⟨j, hj, hvj, hdj⟩ := (claimed_iff img i _).mp hc
        exact absurd hdj (hfirst j hj hvj)
    · have e : direct img i - DATA_BLOCK_START + 8 = direct img i := by
        simp only [DATA_BLOCK_START]; omega
      rw [h.data_bits _ (by simp only [DATA_BLOCK_START]; omega)
        (by simp only [DATA_BLOCK_START]; omega), e, claimed_iff]
      exact ⟨i, hi, hv, rfl⟩

/-! ## Bitmap utilities: idempotence -/

theorem is_block_used_div (bitmap : Buffer) (i : Nat) :
    is_block_used bitmap i = bitmap (i / 8) / 2 ^ (i % 8) % 2 := by
  unfold is_block_used
  rw [Nat.shiftRight_eq_div_pow, Nat.and_one_is_mod]

theorem or_mod_idem (x m : Nat) : ((x ||| m) % 256 ||| m) % 256 = (x ||| m) % 256 := by
  apply Nat.eq_of_testBit_eq
  intro k
  have e : (256 : Nat) = 2 ^ 8 := by norm_num
  rw [e]
  simp only [Nat.testBit_mod_two_pow, Nat.testBit_or]
  cases decide (k < 8) <;> cases x.testBit k <;> cases m.testBit k <;> rfl

theorem and_mod_idem (x m : Nat) : ((x &&& m) % 256 &&& m) % 256 = (x &&& m) % 256 := by
  apply Nat.eq_of_testBit_eq
  intro k
  have e : (256 : Nat) = 2 ^ 8 := by norm_num
  rw [e]
  simp only [Nat.testBit_mod_two_pow, Nat.testBit_and]
  cases decide (k < 8) <;> cases x.testBit k <;> cases m.testBit k <;> rfl

theorem set_block_used_idem (bitmap : Buffer) (i : Nat) :
    set_block_used (set_block_used bitmap i) i = set_block_used bitmap i := by
  funext j
  unfold set_block_used
  by_cases h : j = i / 8
  · simp only [h, if_true]
    exact or_mod_idem _ _
  · simp only [h, if_false]

theorem clear_block_used_idem (bitmap : Buffer) (i : Nat) :
    clear_block_used (clear_block_used bitmap i) i = clear_block_used bitmap i := by
  funext j
  unfold clear_block_used
  by_cases h : j = i / 8
  · simp only [h, if_true]
    exact and_mod_idem _ _
  · simp only [h, if_false]

/-! ## The log of a run, phase by phase -/

theorem filterMap_flatMap {α β γ : Type} (g : β → Option γ) (f : α → List β) (l : List α) :
    (l.flatMap f).filterMap g = l.flatMap (fun x => (f x).filterMap g) := by
  induction l with
  | nil => rfl
  | cons a l ih => simp only [List.flatMap_cons, List.filterMap_append, ih]

theorem flatMap_range_self (n : Nat) : (List.range n).flatMap (fun i => [i]) = List.range n := by
  induction n with
  | zero => rfl
  | succ n ih => simp only [List.range_succ, List.flatMap_append, ih, List.flatMap_cons,
      List.flatMap_nil, List.append_nil]

theorem inode_reads_append (a b : List Event) :
    inode_reads (a ++ b) = inode_reads a ++ inode_reads b := by
  simp only [inode_reads, List.filterMap_append]

theorem data_bitmap_tests_append (a b : List Event) :
    data_bitmap_tests (a ++ b) = data_bitmap_tests a ++ data_bitmap_tests b := by
  simp only [data_bitmap_tests, List.filterMap_append]

theorem inode_reads_step_events (fix_mode : Bool) (i : Nat) (v : Bool) (d : Nat) (m u sn : Bool) :
    inode_reads (step_events fix_mode i v d m u sn) = [i] := by
  unfold step_events inode_bitmap_events direct_events inode_reads
  cases fix_mode <;> cases v <;> cases m <;> cases u <;> cases sn <;>
    by_cases hr : (DATA_BLOCK_START ≤ d ∧ d < TOTAL_BLOCKS) <;>
    by_cases hz : d = 0 <;> simp [hr, hz]

theorem inode_reads_sweep_events (fix_mode : Bool) (i : Nat) (u sn : Bool) :
    inode_reads (sweep_events fix_mode i u sn) = [] := by
  unfold sweep_events inode_reads
  cases fix_mode <;> cases u <;> cases sn <;> simp

theorem data_bitmap_tests_sweep_events (fix_mode : Bool) (i : Nat) (u sn : Bool) :
    data_bitmap_tests (sweep_events fix_mode i u sn) = [i] := by
  unfold sweep_events data_bitmap_tests
  cases fix_mode <;> cases u <;> cases sn <;> simp

theorem tail_no_visits (fix_mode : Bool) (b1 b2 : Int) :
    inode_reads (write_back_events fix_mode b1 b2 ++ [Event.printf Msg.completed]) = []
      ∧ data_bitmap_tests (write_back_events fix_mode b1 b2 ++ [Event.printf Msg.completed])
          = [] := by
  unfold write_back_events inode_reads data_bitmap_tests
  cases fix_mode <;> simp

theorem inode_reads_map_printf (l : List Msg) : inode_reads (l.map Event.printf) = [] := by
  unfold inode_reads
  induction l with
  | nil => rfl
  | cons a l ih => simp [ih]

theorem inode_reads_start_log (fix_mode : Bool) (sb : Buffer) (b1 b2 : Int) :
    inode_reads (start_log fix_mode sb b1 b2) = [] := by
  unfold start_log
  rw [inode_reads_append, inode_reads_append, inode_reads_append, inode_reads_map_printf]
  unfold inode_reads
  split <;> simp

theorem scanned_log (env : Env) (fix_mode : Bool) (img : Image)
    (hs : TOTAL_BLOCKS * BLOCK_SIZE ≤ img.size) :
    (scanned env fix_mode img).log
      = (scan_start env fix_mode img).log
        ++ (List.range MAX_INODES).flatMap
            (scan_events fix_mode (scan_start env fix_mode img).fp.image
              (scan_start env fix_mode img).inode_bitmap
              (scan_start env fix_mode img).data_bitmap) :=
  (scanned_inv env fix_mode img (by rw [scan_start_size env fix_mode img hs]; exact hs)
    (scan_start_seen env fix_mode img hs)).log

theorem scan_log_eq (env : Env) (fix_mode : Bool) (img : Image)
    (hs : TOTAL_BLOCKS * BLOCK_SIZE ≤ img.size) :
    scan_log env fix_mode img
      = (List.range MAX_INODES).flatMap
          (scan_events fix_mode (scan_start env fix_mode img).fp.image
            (scan_start env fix_mode img).inode_bitmap
            (scan_start env fix_mode img).data_bitmap) := by
  unfold scan_log
  rw [scanned_log env fix_mode img hs, List.drop_left]

theorem sweep_log_eq (env : Env) (fix_mode : Bool) (img : Image) :
    sweep_log env fix_mode img
      = (List.range DATA_BLOCK_COUNT).flatMap
          (fun i => sweep_events fix_mode i (bit (scanned env fix_mode img).data_bitmap i)
            (bit (scanned env fix_mode img).seen_data_blocks i)) := by
  unfold sweep_log
  rw [(swept_inv env fix_mode img).log, List.drop_left]

theorem run_log_phases (env : Env) (fix_mode : Bool) (img : Image)
    (hs : TOTAL_BLOCKS * BLOCK_SIZE ≤ img.size) :
    (run env fix_mode img).log
      = (scan_start env fix_mode img).log ++ scan_log env fix_mode img
        ++ sweep_log env fix_mode img
        ++ (write_back_events fix_mode
              (to_int32 (Superblock.inode_bitmap_block (sb_used env fix_mode img)))
              (to_int32 (Superblock.data_bitmap_block (sb_used env fix_mode img)))
            ++ [Event.printf Msg.completed]) := by
  rw [run_log env fix_mode img hs, scan_log_eq env fix_mode img hs, sweep_log_eq,
    scan_start_log env fix_mode img hs]

theorem inode_reads_flatMap {α : Type} (l : List α) (f : α → List Event) :
    inode_reads (l.flatMap f) = l.flatMap (fun x => inode_reads (f x)) :=
  filterMap_flatMap _ _ _

theorem data_bitmap_tests_flatMap {α : Type} (l : List α) (f : α → List Event) :
    data_bitmap_tests (l.flatMap f) = l.flatMap (fun x => data_bitmap_tests (f x)) :=
  filterMap_flatMap _ _ _

theorem inode_reads_scan_events (fix_mode : Bool) (img : Image) (ib0 db0 : Buffer) (i : Nat) :
    inode_reads (scan_events fix_mode img ib0 db0 i) = [i] :=
  inode_reads_step_events _ _ _ _ _ _ _

theorem inode_reads_scan_log (env : Env) (fix_mode : Bool) (img : Image)
    (hs : TOTAL_BLOCKS * BLOCK_SIZE ≤ img.size) :
    inode_reads (scan_log env fix_mode img) = List.range MAX_INODES := by
  rw [scan_log_eq env fix_mode img hs, inode_reads_flatMap,
    flatMap_range_congr _ (fun i => [i]) _ (fun j _ => inode_reads_scan_events _ _ _ _ _)]
  exact flatMap_range_self _

theorem visits_sweep_log (env : Env) (fix_mode : Bool) (img : Image) :
    inode_reads (sweep_log env fix_mode img) = []
      ∧ data_bitmap_tests (sweep_log env fix_mode img) = List.range DATA_BLOCK_COUNT := by
  rw [sweep_log_eq, inode_reads_flatMap, data_bitmap_tests_flatMap]
  constructor
  · exact flatMap_range_nil _ _ (fun j _ => inode_reads_sweep_events _ _ _ _)
  · rw [flatMap_range_congr _ (fun i => [i]) _
      (fun j _ => data_bitmap_tests_sweep_events _ _ _ _)]
    exact flatMap_range_self _

/-! ## Bitmap accesses -/

theorem step_events_access (fix_mode : Bool) (i : Nat) (v : Bool) (d : Nat) (m u sn : Bool) :
    ∀ e ∈ step_events fix_mode i v d m u sn, step_access_ok i v d e = true := by
  apply List.all_eq_true.mp
  unfold step_events inode_bitmap_events direct_events
  by_cases hr : (DATA_BLOCK_START ≤ d ∧ d < TOTAL_BLOCKS)
  · have h8 : d = d - DATA_BLOCK_START + DATA_BLOCK_START := by
      have := hr.1
      simp only [DATA_BLOCK_START] at this ⊢
      omega
    have hd : decide (DATA_BLOCK_START ≤ d ∧ d < TOTAL_BLOCKS
        ∧ d = d - DATA_BLOCK_START + DATA_BLOCK_START) = true := by
      rw [decide_eq_true_eq]
      exact ⟨hr.1, hr.2, h8⟩
    cases fix_mode <;> cases v <;> cases m <;> cases u <;> cases sn <;>
      simp [hr, step_access_ok, Event.access, hd]
  · cases fix_mode <;> cases v <;> cases m <;> cases u <;> cases sn <;>
      by_cases hz : d = 0 <;> simp [hr, hz, step_access_ok, Event.access]

theorem sweep_events_access (fix_mode : Bool) (i : Nat) (u sn : Bool) :
    ∀ e ∈ sweep_events fix_mode i u sn, ∀ b k, e.access = some (b, k) →
      b ≠ Bitmap.inode_bitmap ∧ k = i := by
  have h : (sweep_events fix_mode i u sn).all (fun e =>
      match e.access with
      | none => true
      | some (b, k) => decide (b ≠ Bitmap.inode_bitmap) && decide (k = i)) = true := by
    unfold sweep_events
    cases fix_mode <;> cases u <;> cases sn <;> simp [Event.access]
  intro e he b k hbk
  have := List.all_eq_true.mp h e he
  rw [hbk] at this
  simpa using this

theorem map_printf_access (l : List Msg) : ∀ e ∈ l.map Event.printf, e.access = none := by
  intro e he
  obtain ⟨m, -, rfl⟩ := List.mem_map.mp he
  rfl

theorem start_log_access (fix_mode : Bool) (sb : Buffer) (b1 b2 : Int) :
    ∀ e ∈ start_log fix_mode sb b1 b2, e.access = none := by
  intro e he
  unfold start_log at he
  simp only [List.mem_append] at he
  rcases he with ((he | he) | he) | he
  · simp only [List.mem_cons, List.mem_singleton, List.not_mem_nil, or_false] at he
    rcases he with rfl | rfl <;> rfl
  · exact map_printf_access _ e he
  · split at he
    · simp only [List.mem_cons, List.mem_singleton, List.not_mem_nil, or_false] at he
      rcases he with rfl | rfl <;> rfl
    · simp at he
  · simp only [List.mem_cons, List.mem_singleton, List.not_mem_nil, or_false] at he
    rcases he with rfl | rfl | rfl <;> rfl

theorem write_back_events_access (fix_mode : Bool) (b1 b2 : Int) :
    ∀ e ∈ write_back_events fix_mode b1 b2 ++ [Event.printf Msg.completed],
      e.access = none := by
  intro e he
  unfold write_back_events at he
  cases fix_mode
  · simp at he
    rw [he]; rfl
  · simp at he
    rcases he with rfl | rfl | rfl | rfl <;> rfl

/-- The bitmap accesses of the inode loop of a run. -/
theorem scan_log_access (env : Env) (fix_mode : Bool) (img : Image)
    (hs : TOTAL_BLOCKS * BLOCK_SIZE ≤ img.size) (e : Event) (b : Bitmap) (k : Nat)
    (he : e ∈ scan_log env fix_mode img) (ha : e.access = some (b, k)) :
    (b = Bitmap.inode_bitmap ∧ k < MAX_INODES)
      ∨ (b ≠ Bitmap.inode_bitmap
          ∧ ∃ i, i < MAX_INODES ∧ valid img i = true ∧ DATA_BLOCK_START ≤ direct img i
              ∧ direct img i < TOTAL_BLOCKS ∧ direct img i = k + DATA_BLOCK_START) := by
  rw [scan_log_eq env fix_mode img hs] at he
  obtain ⟨i, hi, hei⟩ := List.mem_flatMap.mp he
  have hi2 : i < MAX_INODES := List.mem_range.mp hi
  have h := step_events_access _ _ _ _ _ _ _ e hei
  rw [scan_start_valid env fix_mode img hs, scan_start_direct env fix_mode img hs] at h
  unfold step_access_ok at h
  rw [ha] at h
  cases b with
  | inode_bitmap =>
    left
    simp only [decide_eq_true_eq] at h
    exact ⟨rfl, h ▸ hi2⟩
  | data_bitmap =>
    right
    simp only [Bool.and_eq_true, decide_eq_true_eq] at h
    exact ⟨by decide, i, hi2, h.1, h.2.1, h.2.2.1, h.2.2.2⟩
  | seen_data_blocks =>
    right
    simp only [Bool.and_eq_true, decide_eq_true_eq] at h
    exact ⟨by decide, i, hi2, h.1, h.2.1, h.2.2.1, h.2.2.2⟩

/-- The bitmap accesses of a run stay within the slots of each bitmap. -/
theorem run_log_access (env : Env) (fix_mode : Bool) (img : Image)
    (hs : TOTAL_BLOCKS * BLOCK_SIZE ≤ img.size) (e : Event) (b : Bitmap) (k : Nat)
    (he : e ∈ (run env fix_mode img).log) (ha : e.access = some (b, k)) : k < b.bits := by
  rw [run_log_phases env fix_mode img hs, scan_start_log env fix_mode img hs] at he
  simp only [List.mem_append] at he
  rcases he with ((he | he) | he) | he
  · have := start_log_access _ _ _ _ e he
    rw [ha] at this
    exact absurd this (by simp)
  · rcases scan_log_access env fix_mode img hs e b k he ha with ⟨rfl, h⟩ | ⟨hb, i, -, -, h1, h2, h3⟩
    · exact h
    · have : k < DATA_BLOCK_COUNT := by
        simp only [DATA_BLOCK_START, TOTAL_BLOCKS, DATA_BLOCK_COUNT] at h1 h2 h3 ⊢
        omega
      cases b with
      | inode_bitmap => exact absurd rfl hb
      | data_bitmap => exact this
      | seen_data_blocks => exact this
  · rw [sweep_log_eq] at he
    obtain ⟨i, hi, hei⟩ := List.mem_flatMap.mp he
    have hi2 : i < DATA_BLOCK_COUNT := List.mem_range.mp hi
    obtain ⟨hb, rfl⟩ := sweep_events_access _ _ _ _ e hei b k ha
    cases b with
    | inode_bitmap => exact absurd rfl hb
    | data_bitmap => exact hi2
    | seen_data_blocks => exact hi2
  · have := write_back_events_access _ _ _ e (List.mem_append.mpr he)
    rw [ha] at this
    exact absurd this (by simp)

/-! ## Invalid inodes -/

/-- Iteration `i` of the inode loop of a run, for an inode that is not valid: the record is
read and the inode-bitmap check is made; the image file, the data bitmap and the seen set
stay as they were. -/
theorem scan_step_invalid (env : Env) (fix_mode : Bool) (img : Image)
    (hs : TOTAL_BLOCKS * BLOCK_SIZE ≤ img.size) (i : Nat) (hi : i < MAX_INODES)
    (hv : valid img i = false) :
    (scan_upto env fix_mode (scan_start env fix_mode img) (i + 1)).fp.image
        = (scan_upto env fix_mode (scan_start env fix_mode img) i).fp.image
      ∧ (scan_upto env fix_mode (scan_start env fix_mode img) (i + 1)).data_bitmap
        = (scan_upto env fix_mode (scan_start env fix_mode img) i).data_bitmap
      ∧ (scan_upto env fix_mode (scan_start env fix_mode img) (i + 1)).seen_data_blocks
        = (scan_upto env fix_mode (scan_start env fix_mode img) i).seen_data_blocks
      ∧ (scan_upto env fix_mode (scan_start env fix_mode img) (i + 1)).log
        = (scan_upto env fix_mode (scan_start env fix_mode img) i).log
          ++ Event.read_inode i :: inode_bitmap_events fix_mode i false
              (bit (scan_upto env fix_mode (scan_start env fix_mode img) i).inode_bitmap i) := by
  have hsz : TOTAL_BLOCKS * BLOCK_SIZE ≤ (scan_start env fix_mode img).fp.size := by
    rw [scan_start_size env fix_mode img hs]; exact hs
  have hseen : ∀ r, bit (scan_start env fix_mode img).seen_data_blocks r = false := by
    intro r
    rw [scan_start_seen env fix_mode img hs]
    exact bit_zero_buffer r
  have hinv := scan_inv env fix_mode (scan_start env fix_mode img) hsz hseen i (le_of_lt hi)
  have hv2 : valid (scan_upto env fix_mode (scan_start env fix_mode img) i).fp.image i
      = false := by
    rw [hinv.valid_eq i, scan_start_valid env fix_mode img hs, hv]
  have hsz2 : TOTAL_BLOCKS * BLOCK_SIZE
      ≤ (scan_upto env fix_mode (scan_start env fix_mode img) i).fp.size := by
    rw [hinv.size, image_size]; exact hsz
  rw [scan_upto_succ, scan_step_eq env fix_mode _ i hi hsz2, hv2]
  simp only [Bool.false_eq_true, false_and, and_false, if_false, step_events, List.append_nil,
    and_true, true_and]
  rfl

/-- The record of an inode that the scan does not clear is the same after a run as before
it. -/
theorem run_inode_record_kept (env : Env) (fix_mode : Bool) (img : Image)
    (hs : TOTAL_BLOCKS * BLOCK_SIZE ≤ img.size) (i : Nat) (hc : cleared img i = false)
    (j : Nat) (hj : j < INODE_SIZE) :
    inode_at (run env fix_mode img).image i j = inode_at img i j := by
  cases fix_mode with
  | false =>
    rw [run_eq env false img hs]
    simp only [check_final_image env img hs]
  | true =>
    rw [inode_at_apply, inode_at_apply, repair_image_table env img hs _ (by omega),
      (scanned_fix_inv env img hs).kept, after_sb]
    · exact sb_written_ge env img _ (by omega)
    · intro j2 _ _ hc2
      rw [cleared_after_sb] at hc2
      have hne : j2 ≠ i := fun e => by rw [e, hc] at hc2; exact Bool.false_ne_true hc2
      have hj2 : j < 256 := hj
      omega

/-! ## The final write-back -/

theorem count_writes (a : Event) (h : a.isWrite = true) (l : List Event) :
    (writes l).count a = l.count a := by
  unfold writes
  exact List.count_filter h

/-- The log of a repair run: the log as the sweep left it, then the two bitmap writes and the
two closing lines. -/
theorem repair_log_end (env : Env) (img : Image) (hs : TOTAL_BLOCKS * BLOCK_SIZE ≤ img.size) :
    (run env true img).log
      = (swept env true img).log
        ++ [Event.write_block 1, Event.write_block 2, Event.printf Msg.all_fixed,
            Event.printf Msg.completed] := by
  rw [run_eq env true img hs, repair_final_state env img hs]
  simp only [List.append_assoc, List.cons_append, List.nil_append]

theorem repair_count_write_block (env : Env) (img : Image)
    (hs : TOTAL_BLOCKS * BLOCK_SIZE ≤ img.size) :
    (run env true img).log.count (Event.write_block 1) = 1
      ∧ (run env true img).log.count (Event.write_block 2) = 1 := by
  have h0 : ∀ a : Event, a ≠ Event.write_block 0 →
      (if sb_bad (block img 0) = true then [Event.write_block 0] else []).count a = 0 := by
    intro a ha
    split
    · rw [List.count_singleton]
      simp [ha.symm]
    · rfl
  have h1 : ∀ a : Event, (∀ i, a ≠ Event.write_inode i) →
      ((List.range MAX_INODES).flatMap
        (fun i => if cleared img i = true then [Event.write_inode i] else [])).count a = 0 := by
    intro a ha
    apply count_flatMap_zero
    intro j
    split
    · rw [List.count_singleton]
      simp [(ha j).symm]
    · rfl
  constructor
  · rw [← count_writes (Event.write_block 1) rfl, repair_writes env img hs, List.count_append,
      List.count_append, h0 _ (by decide), h1 _ (by intro i; simp)]
    decide
  · rw [← count_writes (Event.write_block 2) rfl, repair_writes env img hs, List.count_append,
      List.count_append, h0 _ (by decide), h1 _ (by intro i; simp)]
    decide

theorem repair_bitmap_blocks (env : Env) (img : Image)
    (hs : TOTAL_BLOCKS * BLOCK_SIZE ≤ img.size) (j : Nat) (hj : j < 4096) :
    block (run env true img).image 1 j = (swept env true img).inode_bitmap j
      ∧ block (run env true img).image 2 j = (swept env true img).data_bitmap j := by
  rw [repair_image env img hs, (swept_inv env true img).ib]
  have h1 : ¬ (8192 ≤ 1 * BLOCK_SIZE + j ∧ 1 * BLOCK_SIZE + j < 12288) := by
    simp only [BLOCK_SIZE]; omega
  have h2 : 4096 ≤ 1 * BLOCK_SIZE + j ∧ 1 * BLOCK_SIZE + j < 8192 := by
    simp only [BLOCK_SIZE]; omega
  have h3 : 1 * BLOCK_SIZE + j - 4096 = j := by
    simp only [BLOCK_SIZE]; omega
  have h4 : 8192 ≤ 2 * BLOCK_SIZE + j ∧ 2 * BLOCK_SIZE + j < 12288 := by
    simp only [BLOCK_SIZE]; omega
  have h5 : 2 * BLOCK_SIZE + j - 8192 = j := by
    simp only [BLOCK_SIZE]; omega
  constructor
  · simp only [block, h1, h2, h3, if_false, if_true, and_self]
  · simp only [block, h4, h5, if_true, and_self]

/-! ## Which blocks the bitmaps are loaded from -/

theorem load_bitmaps_inode_bitmap (env : Env) (sb : Buffer) (fp : FILE) (log : List Event) :
    (load_bitmaps env sb fp log).inode_bitmap
      = (read_block fp (to_int32 (Superblock.inode_bitmap_block sb)) env.inode_bitmap).1 := by
  unfold load_bitmaps
  simp only []

theorem load_bitmaps_data_bitmap (env : Env) (sb : Buffer) (fp : FILE) (log : List Event) :
    (load_bitmaps env sb fp log).data_bitmap
      = (read_block
          (read_block fp (to_int32 (Superblock.inode_bitmap_block sb)) env.inode_bitmap).2
          (to_int32 (Superblock.data_bitmap_block sb)) env.data_bitmap).1 := by
  unfold load_bitmaps
  simp only []

theorem superblock_phase_check_fp (env : Env) (img : Image)
    (hs : TOTAL_BLOCKS * BLOCK_SIZE ≤ img.size) :
    (superblock_phase env false { size := img.size, byte := img.byte, pos := 0 }).2.1
      = { size := img.size, byte := img.byte, pos := 4096 } := by
  rw [superblock_phase_snd env false img hs]
  simp only [Bool.false_eq_true, false_and, if_false]

/-- The inode bitmap a check-only run loads: the block that the stored superblock names. -/
theorem scan_start_check_inode_bitmap (env : Env) (img : Image)
    (hs : TOTAL_BLOCKS * BLOCK_SIZE ≤ img.size) (n : Nat) (hn : n < TOTAL_BLOCKS)
    (h : Superblock.inode_bitmap_block (block img 0) = n) (j : Nat) (hj : j < 4096) :
    (scan_start env false img).inode_bitmap j = block img n j := by
  have e : to_int32 (n : Int) = (n : Int) :=
    to_int32_of_lt (n : Int) (by omega) (by simp only [TOTAL_BLOCKS] at hn; omega)
  unfold scan_start
  rw [load_bitmaps_inode_bitmap, superblock_phase_check_fp env img hs, sb_used_check env img hs,
    sb_read_inode_bitmap_block, h, e,
    read_block_eq { size := img.size, byte := img.byte, pos := 4096 } n _ hn hs]
  simp only [hj, if_true, block, BLOCK_SIZE]

/-- The data bitmap a check-only run loads: the block that the stored superblock names. -/
theorem scan_start_check_data_bitmap (env : Env) (img : Image)
    (hs : TOTAL_BLOCKS * BLOCK_SIZE ≤ img.size) (n : Nat) (hn : n < TOTAL_BLOCKS)
    (h : Superblock.data_bitmap_block (block img 0) = n) (j : Nat) (hj : j < 4096) :
    (scan_start env false img).data_bitmap j = block img n j := by
  have e : to_int32 (n : Int) = (n : Int) :=
    to_int32_of_lt (n : Int) (by omega) (by simp only [TOTAL_BLOCKS] at hn; omega)
  unfold scan_start
  rw [load_bitmaps_data_bitmap, superblock_phase_check_fp env img hs, sb_used_check env img hs,
    sb_read_data_bitmap_block, h, e]
  have hsz : TOTAL_BLOCKS * BLOCK_SIZE
      ≤ (read_block { size := img.size, byte := img.byte, pos := 4096 }
          (to_int32 (Superblock.inode_bitmap_block (sb_read env img))) env.inode_bitmap).2.size := by
    rw [read_block_size]; exact hs
  have hb := read_block_byte { size := img.size, byte := img.byte, pos := 4096 }
    (to_int32 (Superblock.inode_bitmap_block (sb_read env img))) env.inode_bitmap
  generalize (read_block { size := img.size, byte := img.byte, pos := 4096 }
    (to_int32 (Superblock.inode_bitmap_block (sb_read env img))) env.inode_bitmap).2 = fp2
    at hsz hb
  rw [read_block_eq fp2 n _ hn hsz, hb]
  simp only [hj, if_true, block, BLOCK_SIZE]

theorem scan_start_fix_bitmaps (env : Env) (img : Image)
    (hs : TOTAL_BLOCKS * BLOCK_SIZE ≤ img.size) (j : Nat) (hj : j < 4096) :
    (scan_start env true img).inode_bitmap j = block img 1 j
      ∧ (scan_start env true img).data_bitmap j = block img 2 j := by
  rw [scan_start_fix env img hs]
  simp only [hj, if_true, block, BLOCK_SIZE, and_self]

/-- The inode-bitmap bit that iteration `i` of the inode loop tests is bit `i` of the bitmap
the loop started from. -/
theorem scan_upto_inode_bit (env : Env) (fix_mode : Bool) (img : Image)
    (hs : TOTAL_BLOCKS * BLOCK_SIZE ≤ img.size) (i : Nat) (hi : i < MAX_INODES) :
    bit (scan_upto env fix_mode (scan_start env fix_mode img) i).inode_bitmap i
      = bit (scan_start env fix_mode img).inode_bitmap i := by
  have hsz : TOTAL_BLOCKS * BLOCK_SIZE ≤ (scan_start env fix_mode img).fp.size := by
    rw [scan_start_size env fix_mode img hs]; exact hs
  have hseen : ∀ r, bit (scan_start env fix_mode img).seen_data_blocks r = false := by
    intro r
    rw [scan_start_seen env fix_mode img hs]
    exact bit_zero_buffer r
  have hinv := scan_inv env fix_mode (scan_start env fix_mode img) hsz hseen i (le_of_lt hi)
  rw [hinv.ib i]
  simp

/-! ## The reports of the two modes compared -/

theorem step_reports_congr (i : Nat) (v : Bool) (d : Nat) (m m2 u u2 sn : Bool) (hm : m = m2)
    (hu : DATA_BLOCK_START ≤ d ∧ d < TOTAL_BLOCKS → u = u2) :
    step_reports i v d m u sn = step_reports i v d m2 u2 sn := by
  subst hm
  unfold step_reports
  by_cases hr : DATA_BLOCK_START ≤ d ∧ d < TOTAL_BLOCKS
  · rw [hu hr]
  · simp only [hr, if_false]

theorem scan_start_bits (env : Env) (fix_mode : Bool) (img : Image)
    (hs : TOTAL_BLOCKS * BLOCK_SIZE ≤ img.size)
    (h1 : fix_mode = true ∨ Superblock.inode_bitmap_block (block img 0) = 1)
    (h2 : fix_mode = true ∨ Superblock.data_bitmap_block (block img 0) = 2)
    (i : Nat) (hi : i < 32768) :
    bit (scan_start env fix_mode img).inode_bitmap i = bit (block img 1) i
      ∧ bit (scan_start env fix_mode img).data_bitmap i = bit (block img 2) i := by
  have h8 : i / 8 < 4096 := by omega
  cases fix_mode with
  | true =>
    exact ⟨bit_congr _ _ _ (scan_start_fix_bitmaps env img hs _ h8).1,
      bit_congr _ _ _ (scan_start_fix_bitmaps env img hs _ h8).2⟩
  | false =>
    have e1 : Superblock.inode_bitmap_block (block img 0) = 1 := by
      rcases h1 with h | h
      · exact absurd h (by simp)
      · exact h
    have e2 : Superblock.data_bitmap_block (block img 0) = 2 := by
      rcases h2 with h | h
      · exact absurd h (by simp)
      · exact h
    exact ⟨bit_congr _ _ _ (scan_start_check_inode_bitmap env img hs 1 (by decide) e1 _ h8),
      bit_congr _ _ _ (scan_start_check_data_bitmap env img hs 2 (by decide) e2 _ h8)⟩

/-- The reports of a run that loads the bitmaps from blocks 1 and 2, in terms of the image
alone. -/
theorem run_reports_of (env : Env) (fix_mode : Bool) (img : Image)
    (hs : TOTAL_BLOCKS * BLOCK_SIZE ≤ img.size)
    (h1 : fix_mode = true ∨ Superblock.inode_bitmap_block (block img 0) = 1)
    (h2 : fix_mode = true ∨ Superblock.data_bitmap_block (block img 0) = 2) :
    reports (run env fix_mode img).log = reports_of fix_mode img := by
  rw [run_reports env fix_mode img hs]
  unfold reports_of
  refine congrArg₂ (· ++ ·) (congrArg₂ (· ++ ·) rfl ?_) ?_
  · apply flatMap_range_congr
    intro i hi
    have hi2 : i < 80 := hi
    apply step_reports_congr
    · exact (scan_start_bits env fix_mode img hs h1 h2 i (by omega)).1
    · intro hr
      have hr2 : direct img i < 64 := hr.2
      rw [(scan_start_bits env fix_mode img hs h1 h2 (direct img i - DATA_BLOCK_START)
        (by omega)).2]
  · apply flatMap_range_congr
    intro r hr
    have hr2 : r < 56 := hr
    rw [(scan_start_bits env fix_mode img hs h1 h2 r (by omega)).2]

theorem filter_flatMap {α β : Type} (p : β → Bool) (f : α → List β) (l : List α) :
    (l.flatMap f).filter p = l.flatMap (fun x => (f x).filter p) := by
  induction l with
  | nil => rfl
  | cons a l ih => simp only [List.flatMap_cons, List.filter_append, ih]

theorem filter_sb_deviations (img : Image) (sb : Buffer) :
    (sb_deviations sb).filter (fun m => !repeated_unmarked img m) = sb_deviations sb := by
  apply List.filter_eq_self.mpr
  intro m hm
  unfold sb_deviations at hm
  simp only [List.mem_append] at hm
  rcases hm with (((((((hm | hm) | hm) | hm) | hm) | hm) | hm) | hm) | hm <;>
    (split at hm
     · rw [List.mem_singleton.mp hm]; rfl
     · simp at hm)

theorem filter_step_reports (img : Image) (i : Nat) (v : Bool) (m u : Bool) :
    (step_reports i v (direct img i) m u (claimed img i (direct img i))).filter
        (fun x => !repeated_unmarked img x)
      = step_reports i v (direct img i) m (u || claimed img i (direct img i))
          (claimed img i (direct img i)) := by
  unfold step_reports
  cases hc : claimed img i (direct img i) <;> cases v <;> cases m <;> cases u <;>
    by_cases hr : (DATA_BLOCK_START ≤ direct img i ∧ direct img i < TOTAL_BLOCKS) <;>
    by_cases hz : direct img i = 0 <;> simp [hr, hz, repeated_unmarked, hc]

/-- The reports of a repair run are those of a check-only run without the repeated "not
marked" reports. -/
theorem reports_of_filter (img : Image) :
    (reports_of false img).filter (fun m => !repeated_unmarked img m) = reports_of true img := by
  unfold reports_of
  rw [List.filter_append, List.filter_append, filter_sb_deviations, filter_flatMap,
    filter_flatMap]
  refine congrArg₂ (· ++ ·) (congrArg₂ (· ++ ·) rfl ?_) ?_
  · apply flatMap_range_congr
    intro i _
    simp only [Bool.false_and, Bool.or_false, Bool.true_and]
    exact filter_step_reports img i _ _ _
  · apply flatMap_range_congr
    intro r _
    cases bit (block img 2) r <;> cases claimed img MAX_INODES (r + DATA_BLOCK_START) <;>
      simp [repeated_unmarked]

/-- When every block stored by two valid inodes is marked in the data bitmap, both modes
report the same. -/
theorem reports_of_eq (img : Image)
    (h : ∀ i, i < MAX_INODES → valid img i = true → DATA_BLOCK_START ≤ direct img i →
      direct img i < TOTAL_BLOCKS → claimed img i (direct img i) = true →
      bit (block img 2) (direct img i - DATA_BLOCK_START) = true) :
    reports_of true img = reports_of false img := by
  unfold reports_of
  refine congrArg₂ (· ++ ·) (congrArg₂ (· ++ ·) rfl ?_) ?_
  · apply flatMap_range_congr
    intro i hi
    simp only [Bool.false_and, Bool.or_false, Bool.true_and]
    cases hv : valid img i
    · unfold step_reports
      simp
    · cases hc : claimed img i (direct img i)
      · simp
      · apply step_reports_congr _ _ _ _ _ _ _ _ rfl
        intro hr
        rw [h i hi hv hr.1 hr.2 hc]
        rfl
  · apply flatMap_range_congr
    intro r _
    cases bit (block img 2) r <;> cases claimed img MAX_INODES (r + DATA_BLOCK_START) <;>
      simp

/-! ## The frame of a repair run -/

theorem sb_bad_sb_read (env : Env) (img : Image) :
    sb_bad (sb_read env img) = sb_bad (block img 0) :=
  sb_bad_congr _ _ (sb_read_block0 env img)

/-- Block 0 after a repair run, past the nine fields: every byte is as it was, the last
four bytes of the block included. -/
theorem repair_frame_block0 (env : Env) (img : Image)
    (hs : TOTAL_BLOCKS * BLOCK_SIZE ≤ img.size) (k : Nat) (h34 : 34 ≤ k) (hk : k < 4096) :
    (run env true img).image.byte k = img.byte k := by
  rw [repair_image_block0 env img hs k hk]
  unfold sb_written
  by_cases hb : sb_bad (sb_read env img) = true
  · simp only [hb, if_true, hk]
    rw [sb_used_eq env true img hs, validate_superblock_frame true _ k h34]
    simp only [sb_read, hk, if_true]
  · rw [if_neg hb]

/-- Block 0 after a repair run on an image without a superblock deviation: as it was. -/
theorem repair_frame_fields (env : Env) (img : Image)
    (hs : TOTAL_BLOCKS * BLOCK_SIZE ≤ img.size) (k : Nat) (hk : k < 4096)
    (hb : sb_bad (block img 0) = false) :
    (run env true img).image.byte k = img.byte k := by
  rw [repair_image_block0 env img hs k hk]
  unfold sb_written
  rw [sb_bad_sb_read, hb]
  simp only [Bool.false_eq_true, if_false]

/-- Block 1 after a repair run, past the bytes that hold the bits of the 80 inodes. -/
theorem repair_frame_block1 (env : Env) (img : Image)
    (hs : TOTAL_BLOCKS * BLOCK_SIZE ≤ img.size) (k : Nat) (h1 : 4096 + 10 ≤ k) (h2 : k < 8192) :
    (run env true img).image.byte k = img.byte k := by
  rw [repair_image env img hs]
  have c1 : ¬ (8192 ≤ k ∧ k < 12288) := by omega
  have c2 : 4096 ≤ k ∧ k < 8192 := by omega
  simp only [c1, c2, if_false, if_true, and_self]
  rw [(scanned_fix_inv env img hs).ib_bytes (k - 4096) (by omega)]
  have c3 : k - 4096 < 4096 := by omega
  have c4 : 4096 + (k - 4096) = k := by omega
  simp only [ib_loaded, c3, if_true, c4]

/-- Block 2 after a repair run, past the bytes that hold the bits of the 56 data blocks. -/
theorem repair_frame_block2 (env : Env) (img : Image)
    (hs : TOTAL_BLOCKS * BLOCK_SIZE ≤ img.size) (k : Nat) (h1 : 8192 + 7 ≤ k) (h2 : k < 12288) :
    (run env true img).image.byte k = img.byte k := by
  rw [repair_image env img hs]
  have c1 : 8192 ≤ k ∧ k < 12288 := by omega
  simp only [c1, if_true, and_self]
  rw [(swept_inv env true img).db_bytes (k - 8192) (by simp only [DATA_BLOCK_COUNT, TOTAL_BLOCKS, DATA_BLOCK_START]; omega),
    (scanned_fix_inv env img hs).db_bytes (k - 8192) (by omega)]
  have c3 : k - 8192 < 4096 := by omega
  have c4 : 8192 + (k - 8192) = k := by omega
  simp only [db_loaded, c3, if_true, c4]

/-- From the inode table on, a repair run changes only bytes of the `direct` field of inodes
that the scan clears. -/
theorem repair_frame_table (env : Env) (img : Image)
    (hs : TOTAL_BLOCKS * BLOCK_SIZE ≤ img.size) (k : Nat) (hk : 12288 ≤ k)
    (hne : (run env true img).image.byte k ≠ img.byte k) :
    ∃ i, i < MAX_INODES ∧ cleared img i = true
      ∧ 12288 + 256 * i + 40 ≤ k ∧ k < 12288 + 256 * i + 44 := by
  by_contra hex
  apply hne
  rw [repair_image_table env img hs k hk, (scanned_fix_inv env img hs).kept, after_sb]
  · exact sb_written_ge env img k (by omega)
  · intro j hj _ hc hin
    rw [cleared_after_sb] at hc
    exact hex ⟨j, hj, hc, hin.1, hin.2⟩

/-- An inode that the scan clears is reported as a duplicate or as an invalid pointer. -/
theorem cleared_reported (env : Env) (fix_mode : Bool) (img : Image)
    (hs : TOTAL_BLOCKS * BLOCK_SIZE ≤ img.size) (i : Nat) (hi : i < MAX_INODES)
    (hc : cleared img i = true) :
    report_count Kind.duplicate i (run env fix_mode img).log = 1
      ∨ report_count Kind.invalid_pointer i (run env fix_mode img).log = 1 := by
  rw [run_report_count env fix_mode img hs _ i hi, run_report_count env fix_mode img hs _ i hi,
    step_count_duplicate, step_count_invalid_pointer]
  unfold cleared clears at hc
  rw [Bool.and_eq_true] at hc
  obtain ⟨hv, hcl⟩ := hc
  by_cases hr : DATA_BLOCK_START ≤ direct img i ∧ direct img i < TOTAL_BLOCKS
  · left
    rw [if_pos hr] at hcl
    rw [if_pos ⟨hv, hr, hcl⟩]
  · right
    rw [if_neg hr] at hcl
    rw [if_pos ⟨hv, hr, by simpa using hcl⟩]

/-! ## The claims -/

/-- C1: for every image of at least 64*4096 bytes, a run in check-only mode leaves the
image byte-for-byte unchanged and performs no write (no `write_block`, no `write_inode`),
whatever it reports. -/
theorem check_only_leaves_image_unchanged (env : Env) (img : Image)
    (hs : 64 * 4096 ≤ img.size) :
    (run env false img).image = img ∧ writes (run env false img).log = [] := by
  rw [run_eq env false img hs]
  refine ⟨check_final_image env img hs, ?_⟩
  show writes ((final_state env false img).log ++ [Event.printf Msg.completed]) = []
  rw [writes_append, check_final_writes env img hs]
  rfl

theorem check_only_leaves_image_unchanged_witness :
    64 * 4096 ≤ zero_image.size
      ∧ (run sample_env false zero_image).image = zero_image
      ∧ writes (run sample_env false zero_image).log = [] :=
  ⟨by decide, check_only_leaves_image_unchanged sample_env zero_image (by decide)⟩

/-- C2, as stated, fails in check-only mode: on `relocated_image` the stored inode-bitmap
bit 0 agrees with the validity of inode 0, yet the run reports a mismatch for inode 0
(it consults block 2, which the superblock names). -/
theorem inode_bitmap_report_relocated :
    64 * 4096 ≤ relocated_image.size
      ∧ bit (block relocated_image 1) 0 = valid relocated_image 0
      ∧ report_count Kind.inode_bitmap 0 (run sample_env false relocated_image).log = 1 := by
  decide!

/-- C2 (amended): for every image of at least 64*4096 bytes and every inode index `i` below
80, a run in repair mode, or in check-only mode on an image whose superblock names block 1
as the inode bitmap block, emits exactly one inode-bitmap mismatch report for `i` when bit
`i` of block 1 differs from the validity of inode `i`, and none when they agree; after a
repair run bit `i` of block 1 equals that validity, which the run does not change. -/
theorem inode_bitmap_reconciled (env : Env) (fix_mode : Bool) (img : Image)
    (hs : 64 * 4096 ≤ img.size) (i : Nat) (hi : i < 80)
    (hmode : fix_mode = true ∨ Superblock.inode_bitmap_block (block img 0) = 1) :
    report_count Kind.inode_bitmap i (run env fix_mode img).log
        = (if bit (block img 1) i = valid img i then 0 else 1)
      ∧ bit (block (run env true img).image 1) i = valid img i
      ∧ valid (run env true img).image i = valid img i := by
  refine ⟨?_, ?_, repair_valid env img hs i⟩
  · unfold report_count
    rw [run_countP_inode env fix_mode img hs _ i hi (reportsOn_inode _ i)]
    unfold scan_events
    rw [step_count_inode_bitmap, scan_start_inode_bitmap env fix_mode img hs hmode,
      scan_start_valid env fix_mode img hs, bit_ib_loaded env img i (by omega)]
  · rw [repair_inode_bit env img hs i (by omega), if_pos (show i < MAX_INODES from hi)]

theorem inode_bitmap_reconciled_witness :
    report_count Kind.inode_bitmap 5 (run sample_env false scenario_image).log
        = (if bit (block scenario_image 1) 5 = valid scenario_image 5 then 0 else 1)
      ∧ bit (block (run sample_env true scenario_image).image 1) 5 = valid scenario_image 5
      ∧ valid (run sample_env true scenario_image).image 5 = valid scenario_image 5 :=
  inode_bitmap_reconciled sample_env false scenario_image (by decide) 5 (by decide)
    (Or.inr (by decide))

/-- C3: for every image of at least 64*4096 bytes and every relative data-block index `r`
below 56, after a repair run bit `r` of block 2 is set exactly when some valid inode stored
the direct pointer `8 + r` before the run; the sweep of that run reports block `8 + r` as
unreferenced at most once, and it does so exactly when bit `r` was set before the run and
no valid inode stored `8 + r` (so a set bit that matches a live reference is never
reported). -/
theorem data_bitmap_reconciled (env : Env) (img : Image) (hs : 64 * 4096 ≤ img.size)
    (r : Nat) (hr : r < 56) :
    (bit (block (run env true img).image 2) r = true
        ↔ ∃ i, i < 80 ∧ valid img i = true ∧ direct img i = 8 + r)
      ∧ (run env true img).log.count (Event.printf (Msg.unreferenced (8 + r))) ≤ 1
      ∧ ((run env true img).log.count (Event.printf (Msg.unreferenced (8 + r))) = 1
          ↔ (bit (block img 2) r = true
              ∧ ¬ ∃ i, i < 80 ∧ valid img i = true ∧ direct img i = 8 + r)) := by
  have hinv := scanned_fix_inv env img hs
  have hcl : (claimed img MAX_INODES (8 + r) = true)
      ↔ ∃ i, i < 80 ∧ valid img i = true ∧ direct img i = 8 + r := by
    rw [claimed_iff]
    exact Iff.rfl
  have hcount := run_count_unreferenced env true img hs r hr
  rw [hinv.db r, hinv.seen r, claimed_after_sb, bit_db_loaded env img r (by omega)] at hcount
  have e8 : r + DATA_BLOCK_START = 8 + r := Nat.add_comm r 8
  rw [e8] at hcount
  have h56 : decide (r < 56) = true := by simpa using hr
  rw [h56] at hcount
  simp only [Bool.true_and] at hcount
  refine ⟨?_, ?_, ?_⟩
  · rw [repair_data_bit env img hs r (by omega), if_pos (show r < DATA_BLOCK_COUNT from hr),
      e8]
    exact hcl
  · rw [hcount]
    split <;> omega
  · rw [hcount, ← hcl]
    cases bit (block img 2) r <;> cases claimed img MAX_INODES (8 + r) <;> simp

theorem data_bitmap_reconciled_witness :
    (bit (block (run sample_env true scenario_image).image 2) 2 = true
        ↔ ∃ i, i < 80 ∧ valid scenario_image i = true ∧ direct scenario_image i = 8 + 2)
      ∧ (run sample_env true scenario_image).log.count
          (Event.printf (Msg.unreferenced (8 + 2))) ≤ 1
      ∧ ((run sample_env true scenario_image).log.count
            (Event.printf (Msg.unreferenced (8 + 2))) = 1
          ↔ (bit (block scenario_image 2) 2 = true
              ∧ ¬ ∃ i, i < 80 ∧ valid scenario_image i = true
                  ∧ direct scenario_image i = 8 + 2)) :=
  data_bitmap_reconciled sample_env scenario_image (by decide) 2 (by decide)

/-- C4 (duplicate tie-break): for every image of at least 64*4096 bytes, every block value
`b` with `8 ≤ b < 64` and every valid inode `i` that stores `b` as its direct pointer: if no
valid inode of lower index stores `b`, then after a repair run inode `i` still has direct
pointer `b` and no duplicate-block report names `i`; if some valid inode of lower index
stores `b`, then after a repair run inode `i` has direct pointer 0 and exactly one
duplicate-block report names `i`, the one for block `b`. -/
theorem duplicate_tie_break (env : Env) (img : Image) (hs : 64 * 4096 ≤ img.size)
    (b : Nat) (hb1 : 8 ≤ b) (hb2 : b < 64) (i : Nat) (hi : i < 80)
    (hv : valid img i = true) (hd : direct img i = b) :
    ((∀ j, j < i → valid img j = true → direct img j ≠ b) →
        direct (run env true img).image i = b
          ∧ report_count Kind.duplicate i (run env true img).log = 0)
      ∧ ((∃ j, j < i ∧ valid img j = true ∧ direct img j = b) →
        direct (run env true img).image i = 0
          ∧ report_count Kind.duplicate i (run env true img).log = 1
          ∧ (run env true img).log.count (Event.printf (Msg.duplicate_block b i)) = 1) := by
  have hr : DATA_BLOCK_START ≤ direct img i ∧ direct img i < TOTAL_BLOCKS := by
    rw [hd]; exact ⟨hb1, hb2⟩
  have hcl : cleared img i = claimed img i b := by
    rw [cleared_eq, hv, Bool.true_and]
    unfold clears
    rw [if_pos hr, hd]
  have hcount := run_report_count env true img hs Kind.duplicate i hi
  rw [step_count_duplicate] at hcount
  have hevent := run_count_inode_event env true img hs
    (Event.printf (Msg.duplicate_block (direct img i) i)) i hi rfl
  rw [step_count_duplicate_event] at hevent
  have hdir := repair_direct env img hs i hi
  rw [hcl] at hdir
  rw [hd] at hcount hevent
  constructor
  · intro hlow
    have hnc : claimed img i b = false := by
      cases hc : claimed img i b
      · rfl
      · obtain ⟨j, hj, hvj, hdj⟩ := (claimed_iff img i b).mp hc
        exact absurd hdj (hlow j hj hvj)
    rw [hnc] at hdir hcount
    refine ⟨by simpa [hd] using hdir, ?_⟩
    rw [hcount]
    simp
  · intro hex
    have hc : claimed img i b = true := (claimed_iff img i b).mpr hex
    rw [hc] at hdir hcount hevent
    rw [hd] at hr
    refine ⟨by simpa using hdir, ?_, ?_⟩
    · rw [hcount, if_pos ⟨hv, hr, rfl⟩]
    · rw [hevent, if_pos ⟨hv, hr, rfl⟩]

theorem duplicate_tie_break_witness :
    (direct (run sample_env true duplicate_image).image 0 = 9
        ∧ report_count Kind.duplicate 0 (run sample_env true duplicate_image).log = 0)
      ∧ (direct (run sample_env true duplicate_image).image 1 = 0
        ∧ report_count Kind.duplicate 1 (run sample_env true duplicate_image).log = 1
        ∧ (run sample_env true duplicate_image).log.count
            (Event.printf (Msg.duplicate_block 9 1)) = 1) :=
  ⟨(duplicate_tie_break sample_env duplicate_image (by decide) 9 (by decide) (by decide) 0
      (by decide) (by decide) (by decide)).1 (fun j hj => absurd hj (Nat.not_lt_zero j)),
    (duplicate_tie_break sample_env duplicate_image (by decide) 9 (by decide) (by decide) 1
      (by decide) (by decide) (by decide)).2 ⟨0, by decide, by decide, by decide⟩⟩

/-- C5: for every image of at least 64*4096 bytes and every valid inode `i` below 80 with
direct pointer `p`: a run in either mode emits exactly one invalid-pointer report for `i`
when `p ≠ 0` and (`p < 8` or `p ≥ 64`), and none otherwise; in the former case the direct
pointer of inode `i` is 0 after a repair run; and when `p = 0` no data-block, duplicate or
invalid-pointer report names `i` and inode `i` is not written. -/
theorem invalid_pointer_cleared (env : Env) (fix_mode : Bool) (img : Image)
    (hs : 64 * 4096 ≤ img.size) (i : Nat) (hi : i < 80) (hv : valid img i = true) :
    report_count Kind.invalid_pointer i (run env fix_mode img).log
        = (if direct img i ≠ 0 ∧ (direct img i < 8 ∨ 64 ≤ direct img i) then 1 else 0)
      ∧ (direct img i ≠ 0 ∧ (direct img i < 8 ∨ 64 ≤ direct img i) →
          direct (run env true img).image i = 0)
      ∧ (direct img i = 0 →
          report_count Kind.data_bitmap i (run env fix_mode img).log = 0
            ∧ report_count Kind.duplicate i (run env fix_mode img).log = 0
            ∧ report_count Kind.invalid_pointer i (run env fix_mode img).log = 0
            ∧ (run env fix_mode img).log.count (Event.write_inode i) = 0) := by
  have h1 := run_report_count env fix_mode img hs Kind.invalid_pointer i hi
  have h2 := run_report_count env fix_mode img hs Kind.data_bitmap i hi
  have h3 := run_report_count env fix_mode img hs Kind.duplicate i hi
  have h4 := run_count_inode_event env fix_mode img hs (Event.write_inode i) i hi rfl
  rw [step_count_invalid_pointer] at h1
  rw [step_count_data_bitmap] at h2
  rw [step_count_duplicate] at h3
  rw [step_count_write_inode] at h4
  refine ⟨?_, ?_, ?_⟩
  · rw [h1]
    simp only [hv, true_and, DATA_BLOCK_START, TOTAL_BLOCKS]
    by_cases hz : direct img i = 0
    · simp [hz]
    · by_cases hr : 8 ≤ direct img i ∧ direct img i < 64
      · have : ¬ (direct img i < 8 ∨ 64 ≤ direct img i) := by omega
        simp [hz, hr, this]
      · have : direct img i < 8 ∨ 64 ≤ direct img i := by omega
        simp [hz, hr, this]
  · rintro ⟨hz, hout⟩
    have hr : ¬ (DATA_BLOCK_START ≤ direct img i ∧ direct img i < TOTAL_BLOCKS) := by
      simp only [DATA_BLOCK_START, TOTAL_BLOCKS]; omega
    have hcl : cleared img i = true := by
      rw [cleared_eq, hv, Bool.true_and]
      unfold clears
      rw [if_neg hr]
      simpa using hz
    rw [repair_direct env img hs i hi, if_pos hcl]
  · intro hz
    have hr : ¬ (DATA_BLOCK_START ≤ direct img i ∧ direct img i < TOTAL_BLOCKS) := by
      simp only [DATA_BLOCK_START, TOTAL_BLOCKS]; omega
    have hcl : ∀ sn, clears (direct img i) sn = false := by
      intro sn
      unfold clears
      rw [if_neg hr]
      simpa using hz
    refine ⟨?_, ?_, ?_, ?_⟩
    · rw [h2, if_neg (fun h => hr h.2.1)]
    · rw [h3, if_neg (fun h => hr h.2.1)]
    · rw [h1, if_neg (fun h => h.2.2 hz)]
    · rw [h4, if_neg (fun h => by rw [hcl] at h; exact absurd h.2.2 (by simp))]

theorem invalid_pointer_cleared_witness :
    report_count Kind.invalid_pointer 2 (run sample_env false duplicate_image).log
        = (if direct duplicate_image 2 ≠ 0
            ∧ (direct duplicate_image 2 < 8 ∨ 64 ≤ direct duplicate_image 2) then 1 else 0)
      ∧ (direct duplicate_image 2 ≠ 0
          ∧ (direct duplicate_image 2 < 8 ∨ 64 ≤ direct duplicate_image 2) →
          direct (run sample_env true duplicate_image).image 2 = 0)
      ∧ (direct duplicate_image 2 = 0 →
          report_count Kind.data_bitmap 2 (run sample_env false duplicate_image).log = 0
            ∧ report_count Kind.duplicate 2 (run sample_env false duplicate_image).log = 0
            ∧ report_count Kind.invalid_pointer 2 (run sample_env false duplicate_image).log = 0
            ∧ (run sample_env false duplicate_image).log.count (Event.write_inode 2) = 0) :=
  invalid_pointer_cleared sample_env false duplicate_image (by decide) 2 (by decide)
    (by decide)

/-- C6: for every image of at least 64*4096 bytes, after a repair run the superblock in
block 0 has magic 0xD34D, block_size 4096, total_blocks 64, inode_bitmap_block 1,
data_bitmap_block 2, inode_table_start 3, first_data_block 8, inode_size 256 and an
inode_count that is the smaller of the original one and 80; the reports of the run start
with one line per deviating field, in the order of the checks, and no later report is a
superblock report; block 0 is written exactly when at least one of the nine checks
fired. -/
theorem superblock_repaired (env : Env) (img : Image) (hs : 64 * 4096 ≤ img.size) :
    (Superblock.magic (block (run env true img).image 0) = 0xD34D
        ∧ Superblock.block_size (block (run env true img).image 0) = 4096
        ∧ Superblock.total_blocks (block (run env true img).image 0) = 64
        ∧ Superblock.inode_bitmap_block (block (run env true img).image 0) = 1
        ∧ Superblock.data_bitmap_block (block (run env true img).image 0) = 2
        ∧ Superblock.inode_table_start (block (run env true img).image 0) = 3
        ∧ Superblock.first_data_block (block (run env true img).image 0) = 8
        ∧ Superblock.inode_size (block (run env true img).image 0) = 256
        ∧ Superblock.inode_count (block (run env true img).image 0)
            = min (Superblock.inode_count (block img 0)) 80)
      ∧ (∃ rest, reports (run env true img).log = sb_deviations (block img 0) ++ rest
          ∧ ∀ m ∈ rest, m.kind ≠ some Kind.superblock)
      ∧ (Event.write_block 0 ∈ (run env true img).log ↔ sb_deviations (block img 0) ≠ []) := by
  refine ⟨repair_superblock_fields env img hs, ?_, ?_⟩
  · exact ⟨later_reports env true img, run_reports_split env true img hs,
      later_reports_kind env true img⟩
  · have hmem : Event.write_block 0 ∈ (run env true img).log
        ↔ Event.write_block 0 ∈ writes (run env true img).log := by
      unfold writes
      rw [List.mem_filter]
      simp [Event.isWrite]
    rw [hmem, repair_writes env img hs, Ne, sb_deviations_eq_nil, List.mem_append,
      List.mem_append, List.mem_flatMap]
    constructor
    · rintro ((h | ⟨i, _, h⟩) | h)
      · split at h
        · next hb => simp [hb]
        · simp at h
      · split at h <;> simp at h
      · simp at h
    · intro h
      have hb : sb_bad (block img 0) = true := by simpa using h
      left; left
      rw [if_pos hb]
      exact List.mem_singleton.mpr rfl

theorem superblock_repaired_witness :
    64 * 4096 ≤ scenario_image.size
      ∧ Superblock.magic (block (run sample_env true scenario_image).image 0) = 0xD34D
      ∧ (Event.write_block 0 ∈ (run sample_env true scenario_image).log
          ↔ sb_deviations (block scenario_image 0) ≠ []) :=
  ⟨by decide, (superblock_repaired sample_env scenario_image (by decide)).1.1,
    (superblock_repaired sample_env scenario_image (by decide)).2.2⟩

/-- C7 (idempotence of repair): for every image of at least 64*4096 bytes, a repair run on
the image a first repair run produced emits no inconsistency report at all and yields an
image byte-for-byte equal to its input: `repair (repair img) = repair img`. -/
theorem repair_idempotent (env env2 : Env) (img : Image) (hs : 64 * 4096 ≤ img.size) :
    reports (run env2 true (run env true img).image).log = []
      ∧ (run env2 true (run env true img).image).image = (run env true img).image := by
  have hs2 : TOTAL_BLOCKS * BLOCK_SIZE ≤ (run env true img).image.size := by
    rw [repair_image_size env img hs]; exact hs
  have hc := repair_consistent env img hs
  exact ⟨consistent_reports env2 _ hs2 hc, consistent_image env2 _ hs2 hc⟩

theorem repair_idempotent_witness :
    64 * 4096 ≤ duplicate_image.size
      ∧ reports (run sample_env true (run sample_env true duplicate_image).image).log = []
      ∧ (run sample_env true (run sample_env true duplicate_image).image).image
          = (run sample_env true duplicate_image).image :=
  ⟨by decide, repair_idempotent sample_env sample_env duplicate_image (by decide)⟩

/-- C8, as stated, fails: the second repair run on a 64-block image of zero bytes executes
two `write_block` calls, for blocks 1 and 2. -/
theorem second_repair_run_writes :
    64 * 4096 ≤ zero_image.size
      ∧ writes (run sample_env true (run sample_env true zero_image).image).log
          = [Event.write_block 1, Event.write_block 2] :=
  ⟨by decide,
    consistent_writes sample_env _
      (by rw [repair_image_size sample_env zero_image (by decide)]; decide)
      (repair_consistent sample_env zero_image (by decide))⟩

/-- C8 (amended): for every image of at least 64*4096 bytes, a second repair run on the
image a first repair run produced executes no `write_inode` call and no `write_block` call
for block 0; its only writes are the two `write_block` calls of the final write-back, for
blocks 1 and 2, and they leave the image byte-for-byte unchanged. -/
theorem second_repair_run_writes_bitmaps_only (env env2 : Env) (img : Image)
    (hs : 64 * 4096 ≤ img.size) :
    writes (run env2 true (run env true img).image).log
        = [Event.write_block 1, Event.write_block 2]
      ∧ (run env2 true (run env true img).image).image = (run env true img).image := by
  have hs2 : TOTAL_BLOCKS * BLOCK_SIZE ≤ (run env true img).image.size := by
    rw [repair_image_size env img hs]; exact hs
  have hc := repair_consistent env img hs
  exact ⟨consistent_writes env2 _ hs2 hc, consistent_image env2 _ hs2 hc⟩

theorem second_repair_run_writes_bitmaps_only_witness :
    64 * 4096 ≤ duplicate_image.size
      ∧ writes (run sample_env true (run sample_env true duplicate_image).image).log
          = [Event.write_block 1, Event.write_block 2]
      ∧ (run sample_env true (run sample_env true duplicate_image).image).image
          = (run sample_env true duplicate_image).image :=
  ⟨by decide,
    second_repair_run_writes_bitmaps_only sample_env sample_env duplicate_image (by decide)⟩

/-- C9 (concrete scenario): on every image of the scenario a repair run emits exactly three
inconsistency reports, in this order: the bad magic, inode 5 not marked but valid, data
block 10 of inode 5 not marked; afterwards the stored superblock magic is 0xD34D,
inode-bitmap bit 5 is set and data-bitmap bit 2 is set. -/
theorem concrete_scenario (env : Env) (img : Image) (h : Scenario img) :
    reports (run env true img).log
        = [Msg.invalid_magic 0, Msg.inode_not_marked_but_valid 5,
            Msg.data_block_not_marked 10 5]
      ∧ Superblock.magic (block (run env true img).image 0) = 0xD34D
      ∧ bit (block (run env true img).image 1) 5 = true
      ∧ bit (block (run env true img).image 2) 2 = true := by
  have hs : TOTAL_BLOCKS * BLOCK_SIZE ≤ img.size := by rw [h.size]
  have hv5 := h.valid5
  have hd5 : direct img 5 = 10 := h.direct5
  refine ⟨?_, (repair_superblock_fields env img hs).1, ?_, ?_⟩
  · have hsb : sb_deviations (block img 0) = [Msg.invalid_magic 0] := by
      have hc : ¬ Superblock.inode_count (block img 0) > MAX_INODES :=
        Nat.not_lt.mpr h.inode_count
      unfold sb_deviations
      rw [h.magic, h.block_size, h.total_blocks, h.inode_bitmap_block, h.data_bitmap_block,
        h.inode_table_start, h.first_data_block, h.inode_size, if_neg hc]
      rfl
    have e1 : (List.range MAX_INODES).flatMap (fun i =>
        step_reports i (valid img i) (direct img i)
          (bit (fun j => if j < 4096 then img.byte (4096 + j) else env.inode_bitmap j) i)
          (bit (fun j => if j < 4096 then img.byte (8192 + j) else env.data_bitmap j)
              (direct img i - DATA_BLOCK_START)
            || (true && claimed img i (direct img i)))
          (claimed img i (direct img i)))
        = [Msg.inode_not_marked_but_valid 5, Msg.data_block_not_marked 10 5] := by
      rw [flatMap_range_single _ MAX_INODES 5 (by decide)]
      · have hm := bit_ib_loaded env img 5 (by decide)
        unfold ib_loaded at hm
        have hu := bit_db_loaded env img 2 (by decide)
        unfold db_loaded at hu
        rw [hm, h.inode_bit5, hv5, hd5, h.claimed5]
        have e2 : 10 - DATA_BLOCK_START = 2 := rfl
        rw [e2, hu, h.data_bit2]
        rfl
      · intro i hi hne
        have hi2 : i < 80 := hi
        have hm := bit_ib_loaded env img i (by omega)
        unfold ib_loaded at hm
        rw [hm, h.inode_bits i hi hne]
        unfold step_reports
        cases hv : valid img i
        · simp
        · rcases h.other i hi hne hv with hz | ⟨hr, hc, hb⟩
          · simp [hz]
          · have h8 : 8 ≤ direct img i := hr.1
            have h64 : direct img i < 64 := hr.2
            have hu := bit_db_loaded env img (direct img i - DATA_BLOCK_START)
              (by simp only [DATA_BLOCK_START]; omega)
            unfold db_loaded at hu
            rw [hu, hb, hc]
            simp [hr]
    have e2 : (List.range DATA_BLOCK_COUNT).flatMap (fun r =>
        if (bit (fun j => if j < 4096 then img.byte (8192 + j) else env.data_bitmap j) r
              || (true && claimed img MAX_INODES (r + DATA_BLOCK_START))) = true
            ∧ claimed img MAX_INODES (r + DATA_BLOCK_START) = false
        then [Msg.unreferenced (r + DATA_BLOCK_START)] else []) = [] := by
      apply flatMap_range_nil
      intro r hr
      have hr2 : r < 56 := hr
      have hu := bit_db_loaded env img r (by omega)
      unfold db_loaded at hu
      rw [hu]
      by_cases h2 : r = 2
      · subst h2
        have e3 : 2 + DATA_BLOCK_START = 10 := rfl
        rw [e3, h.claimed10]
        simp
      · rw [h.data_bits r hr h2]
        cases claimed img MAX_INODES (r + DATA_BLOCK_START) <;> simp
    rw [run_reports_split env true img hs, hsb]
    unfold later_reports
    rw [scan_start_fix env img hs]
    simp only []
    rw [e1, e2]
    rfl
  · rw [repair_inode_bit env img hs 5 (by decide), if_pos (by decide), hv5]
  · rw [repair_data_bit env img hs 2 (by decide), if_pos (by decide)]
    exact h.claimed10

theorem concrete_scenario_witness :
    reports (run sample_env true scenario_image).log
        = [Msg.invalid_magic 0, Msg.inode_not_marked_but_valid 5,
            Msg.data_block_not_marked 10 5]
      ∧ Superblock.magic (block (run sample_env true scenario_image).image 0) = 0xD34D
      ∧ bit (block (run sample_env true scenario_image).image 1) 5 = true
      ∧ bit (block (run sample_env true scenario_image).image 2) 2 = true :=
  concrete_scenario sample_env scenario_image
    { size := by decide
      magic := by decide
      block_size := by decide
      total_blocks := by decide
      inode_bitmap_block := by decide
      data_bitmap_block := by decide
      inode_table_start := by decide
      first_data_block := by decide
      inode_size := by decide
      inode_count := by decide
      links5 := by decide
      dtime5 := by decide
      direct5 := by decide
      inode_bit5 := by decide
      data_bit2 := by decide
      inode_bits := by decide!
      pointers := fun i hi hne hv =>
        absurd hv (by
          rw [(by decide! : ∀ i, i < 80 → i ≠ 5 → valid scenario_image i = false) i hi hne]
          decide)
      data_bits := by decide! }

/-- C10: in either mode, an image smaller than 64*4096 = 262144 bytes makes the run print
the actual size and nothing else, leave the image alone and exit with a non-zero status; an
image of at least 262144 bytes makes the run exit with status 0. -/
theorem exit_status_by_size (env : Env) (fix_mode : Bool) (img : Image) :
    (img.size < 262144 →
        (run env fix_mode img).status ≠ 0
          ∧ (run env fix_mode img).log = [Event.printf (Msg.too_small img.size)]
          ∧ (run env fix_mode img).image = img)
      ∧ (262144 ≤ img.size → (run env fix_mode img).status = 0) := by
  constructor
  · intro h
    rw [run_small env fix_mode img h]
    exact ⟨Nat.one_ne_zero, rfl, rfl⟩
  · intro h
    rw [run_eq env fix_mode img h]

theorem exit_status_by_size_witness :
    (small_image.size < 262144
        ∧ (run sample_env true small_image).status ≠ 0
        ∧ (run sample_env true small_image).log
            = [Event.printf (Msg.too_small small_image.size)]
        ∧ (run sample_env true small_image).image = small_image)
      ∧ (262144 ≤ zero_image.size ∧ (run sample_env true zero_image).status = 0) :=
  ⟨⟨by decide, (exit_status_by_size sample_env true small_image).1 (by decide)⟩,
    ⟨by decide, (exit_status_by_size sample_env true zero_image).2 (by decide)⟩⟩

/-- C11. The packed `Superblock` record is 4092 bytes long, four bytes short of the
4096-byte block. So `read_block(fp, 0, &sb)` stores file bytes at the offsets 4092 to 4095 of
its destination, past the end of the record, and `write_block(fp, 0, &sb)` writes to the file
offsets 4092 to 4095 the four bytes that follow the record in memory. -/
theorem superblock_record_shorter_than_block :
    sizeof_Superblock = 4092 ∧ BLOCK_SIZE = 4096 ∧ sizeof_Superblock + 4 = BLOCK_SIZE
      ∧ (∀ (fp : FILE) (sb : Buffer), TOTAL_BLOCKS * BLOCK_SIZE ≤ fp.size →
          ∀ j, sizeof_Superblock ≤ j → j < BLOCK_SIZE → (read_block fp 0 sb).1 j = fp.byte j)
      ∧ (∀ (env : Env) (fp : FILE) (sb : Buffer), TOTAL_BLOCKS * BLOCK_SIZE ≤ fp.size →
          ∀ j, sizeof_Superblock ≤ j → j < BLOCK_SIZE →
            (write_block fp 0 (sb_block env sb)).byte j = env.past_sb (j - sizeof_Superblock)) := by
  refine ⟨rfl, rfl, rfl, ?_, ?_⟩
  · intro fp sb hs j _ h2
    rw [read_block_zero fp sb hs]
    have : j < 4096 := h2
    simp only [this, if_true]
  · intro env fp sb hs j h1 h2
    rw [write_block_zero fp _ hs]
    have h3 : j < 4096 := h2
    have h4 : ¬ j < sizeof_Superblock := not_lt.mpr h1
    simp only [h3, if_true, sb_block, h4, if_false]

theorem superblock_record_shorter_than_block_witness :
    (read_block { size := zero_image.size, byte := fun k => k % 256, pos := 0 } 0
        (fun _ => 0)).1 4093 = 4093 % 256
      ∧ (write_block { size := zero_image.size, byte := zero_image.byte, pos := 0 } 0
          (sb_block overrun_env (fun _ => 0))).byte 4092 = 1 :=
  ⟨superblock_record_shorter_than_block.2.2.2.1
      { size := zero_image.size, byte := fun k => k % 256, pos := 0 } (fun _ => 0)
      (by decide) 4093 (by decide) (by decide),
    superblock_record_shorter_than_block.2.2.2.2 overrun_env
      { size := zero_image.size, byte := zero_image.byte, pos := 0 } (fun _ => 0)
      (by decide) 4092 (by decide) (by decide)⟩

/-- C12. A run on an image of at least 64 blocks returns (status 0); its inode loop reads the
inodes 0, 1, ..., 79, each once and in this order, whatever the image holds; the sweep comes
after all of them and tests the data-bitmap bits 0, 1, ..., 55, each once and in this order;
nothing after the sweep reads an inode or tests the data bitmap. -/
theorem scan_and_sweep_visit_every_slot_once (env : Env) (fix_mode : Bool) (img : Image)
    (hs : 64 * 4096 ≤ img.size) :
    (run env fix_mode img).status = 0
      ∧ inode_reads (run env fix_mode img).log = List.range 80
      ∧ inode_reads (scan_start env fix_mode img).log = []
      ∧ inode_reads (scan_log env fix_mode img) = List.range 80
      ∧ inode_reads (sweep_log env fix_mode img) = []
      ∧ data_bitmap_tests (sweep_log env fix_mode img) = List.range 56
      ∧ ∃ rest, (run env fix_mode img).log
            = (scan_start env fix_mode img).log ++ scan_log env fix_mode img
              ++ sweep_log env fix_mode img ++ rest
          ∧ inode_reads rest = [] ∧ data_bitmap_tests rest = [] := by
  have h1 := inode_reads_scan_log env fix_mode img hs
  have h2 := visits_sweep_log env fix_mode img
  have h3 := tail_no_visits fix_mode
    (to_int32 (Superblock.inode_bitmap_block (sb_used env fix_mode img)))
    (to_int32 (Superblock.data_bitmap_block (sb_used env fix_mode img)))
  have h4 : inode_reads (scan_start env fix_mode img).log = [] := by
    rw [scan_start_log env fix_mode img hs]
    exact inode_reads_start_log _ _ _ _
  have h5 := run_log_phases env fix_mode img hs
  refine ⟨?_, ?_, h4, h1, h2.1, h2.2, _, h5, h3.1, h3.2⟩
  · rw [run_eq env fix_mode img hs]
  · rw [h5, inode_reads_append, inode_reads_append, inode_reads_append, h4, h1, h2.1, h3.1]
    rfl

theorem scan_and_sweep_visit_every_slot_once_witness :
    (run sample_env true scenario_image).status = 0
      ∧ inode_reads (run sample_env true scenario_image).log = List.range 80 :=
  have h := scan_and_sweep_visit_every_slot_once sample_env true scenario_image (by decide)
  ⟨h.1, h.2.1⟩

/-- C13, counterexample. On an image with a correct superblock in which the valid inodes 0
and 1 both store block 9 and the data bitmap does not mark it, a check-only run reports the
unmarked block for both inodes, a repair run for inode 0 only. -/
theorem reports_differ_between_modes :
    64 * 4096 ≤ unmarked_shared_image.size
      ∧ Superblock.inode_bitmap_block (block unmarked_shared_image 0) = 1
      ∧ Superblock.data_bitmap_block (block unmarked_shared_image 0) = 2
      ∧ reports (run sample_env false unmarked_shared_image).log
          = [Msg.data_block_not_marked 9 0, Msg.data_block_not_marked 9 1,
              Msg.duplicate_block 9 1]
      ∧ reports (run sample_env true unmarked_shared_image).log
          = [Msg.data_block_not_marked 9 0, Msg.duplicate_block 9 1] := by
  refine ⟨by decide, by decide, by decide, by decide!, by decide!⟩

/-- C13, amended. For an image whose stored superblock names blocks 1 and 2 as the bitmap
blocks, the reports of a repair run are the reports of a check-only run, in the same order,
without the "not marked in bitmap" reports for inodes whose block is also stored by a valid
inode of lower index (in repair mode the first such inode has set the bit by then). So the
two sequences are equal when every in-range block that a valid inode shares with a valid
inode of lower index is marked in the data bitmap. -/
theorem repair_reports_are_check_reports_filtered (env env2 : Env) (img : Image)
    (hs : 64 * 4096 ≤ img.size)
    (h1 : Superblock.inode_bitmap_block (block img 0) = 1)
    (h2 : Superblock.data_bitmap_block (block img 0) = 2) :
    reports (run env true img).log
        = (reports (run env2 false img).log).filter (fun m => !repeated_unmarked img m)
      ∧ ((∀ i, i < 80 → valid img i = true → 8 ≤ direct img i → direct img i < 64 →
            (∃ j, j < i ∧ valid img j = true ∧ direct img j = direct img i) →
            bit (block img 2) (direct img i - 8) = true) →
          reports (run env true img).log = reports (run env2 false img).log) := by
  rw [run_reports_of env true img hs (Or.inl rfl) (Or.inl rfl),
    run_reports_of env2 false img hs (Or.inr h1) (Or.inr h2)]
  refine ⟨(reports_of_filter img).symm, ?_⟩
  intro h
  apply reports_of_eq
  intro i hi hv hd1 hd2 hc
  exact h i hi hv hd1 hd2 ((claimed_iff img i (direct img i)).mp hc)

theorem repair_reports_are_check_reports_filtered_witness :
    reports (run sample_env true unmarked_shared_image).log
        = (reports (run sample_env false unmarked_shared_image).log).filter
            (fun m => !repeated_unmarked unmarked_shared_image m)
      ∧ reports (run sample_env true duplicate_image).log
          = reports (run sample_env false duplicate_image).log :=
  ⟨(repair_reports_are_check_reports_filtered sample_env sample_env unmarked_shared_image
      (by decide) (by decide) (by decide)).1,
    (repair_reports_are_check_reports_filtered sample_env sample_env duplicate_image
      (by decide) (by decide) (by decide)).2
      (by
        intro i hi hv hd1 hd2 hex
        have h : ∀ i, i < 80 → valid duplicate_image i = true → 8 ≤ direct duplicate_image i →
            direct duplicate_image i < 64 →
            bit (block duplicate_image 2) (direct duplicate_image i - 8) = true := by
          decide!
        exact h i hi hv hd1 hd2)⟩

/-- C14, counterexample. A check-only run on an image whose stored superblock names block 2
as the inode bitmap block never reads block 1: the inode bitmap its scan works on is the
content of block 2 (first byte 2), not that of block 1 (first byte 1). -/
theorem check_only_loads_the_named_block :
    64 * 4096 ≤ relocated_image.size
      ∧ Superblock.inode_bitmap_block (block relocated_image 0) = 2
      ∧ Event.read_block 1 ∉ (run sample_env false relocated_image).log
      ∧ (scan_start sample_env false relocated_image).inode_bitmap 0 = 2
      ∧ block relocated_image 1 0 = 1 := by
  refine ⟨by decide, by decide, by decide!, by decide!, by decide⟩

/-- C14, amended. A repair run loads the inode bitmap from block 1 and the data bitmap from
block 2 of the image, whatever the stored superblock holds. A check-only run whose stored
`inode_bitmap_block` field is a value `n` below 64 loads the inode bitmap from block `n`, and
one whose stored `data_bitmap_block` field is a value `n` below 64 loads the data bitmap from
block `n`. In both modes the inode-bitmap bit tested for inode `i` is bit `i` of the bitmap
so loaded; the data bitmap after `i` iterations of the inode loop (after all 80, the one the
sweep starts from) is the one loaded, with, in repair mode, the bits set of the blocks 8 to
63 stored by valid inodes below `i`; and the data-bitmap bit that the sweep tests for the
relative block `r` is bit `r` of the bitmap the sweep starts from. -/
theorem bitmaps_loaded_from_named_blocks (env : Env) (fix_mode : Bool) (img : Image)
    (hs : 64 * 4096 ≤ img.size) :
    (∀ j, j < 4096 → (scan_start env true img).inode_bitmap j = block img 1 j
        ∧ (scan_start env true img).data_bitmap j = block img 2 j)
      ∧ (∀ n, n < 64 → Superblock.inode_bitmap_block (block img 0) = n →
          ∀ j, j < 4096 → (scan_start env false img).inode_bitmap j = block img n j)
      ∧ (∀ n, n < 64 → Superblock.data_bitmap_block (block img 0) = n →
          ∀ j, j < 4096 → (scan_start env false img).data_bitmap j = block img n j)
      ∧ (∀ i, i < 80 →
          bit (scan_upto env fix_mode (scan_start env fix_mode img) i).inode_bitmap i
            = bit (scan_start env fix_mode img).inode_bitmap i)
      ∧ (∀ i r, i ≤ 80 →
          bit (scan_upto env fix_mode (scan_start env fix_mode img) i).data_bitmap r
            = (bit (scan_start env fix_mode img).data_bitmap r
                || (fix_mode && (decide (r < 56) && claimed img i (r + 8)))))
      ∧ (∀ r, r < 56 →
          bit (sweep_upto fix_mode (scanned env fix_mode img) r).data_bitmap r
            = bit (scanned env fix_mode img).data_bitmap r) := by
  refine ⟨fun j hj => scan_start_fix_bitmaps env img hs j hj,
    fun n hn h j hj => scan_start_check_inode_bitmap env img hs n hn h j hj,
    fun n hn h j hj => scan_start_check_data_bitmap env img hs n hn h j hj,
    fun i hi => scan_upto_inode_bit env fix_mode img hs i hi, ?_, ?_⟩
  · intro i r hi
    have hsz : TOTAL_BLOCKS * BLOCK_SIZE ≤ (scan_start env fix_mode img).fp.size := by
      rw [scan_start_size env fix_mode img hs]; exact hs
    have hseen : ∀ r, bit (scan_start env fix_mode img).seen_data_blocks r = false := by
      intro r
      rw [scan_start_seen env fix_mode img hs]
      exact bit_zero_buffer r
    have hinv := scan_inv env fix_mode (scan_start env fix_mode img) hsz hseen i hi
    rw [hinv.db r, scan_start_claimed env fix_mode img hs]
  · intro r _
    rw [(sweep_inv fix_mode (scanned env fix_mode img) r).db r]
    simp

theorem bitmaps_loaded_from_named_blocks_witness :
    (scan_start sample_env false relocated_image).inode_bitmap 0 = block relocated_image 2 0
      ∧ (scan_start sample_env false relocated_image).data_bitmap 0
          = block relocated_image 2 0
      ∧ (scan_start sample_env true relocated_image).inode_bitmap 0
          = block relocated_image 1 0 :=
  have h := bitmaps_loaded_from_named_blocks sample_env false relocated_image (by decide)
  ⟨h.2.1 2 (by decide) (by decide) 0 (by decide),
    h.2.2.1 2 (by decide) (by decide) 0 (by decide), (h.1 0 (by decide)).1⟩

/-- C15. In repair mode each of the two bitmaps is written to the image once: the log of the
run is the log as the sweep left it (with the whole inode loop, every `write_inode` included,
and the whole sweep), followed by `write_block` of block 1, `write_block` of block 2 and the
two closing lines; these are the only writes of blocks 1 and 2 in the log, whatever the run
found; and afterwards block 1 of the image holds the inode bitmap and block 2 the data
bitmap as the loops left them in memory. -/
theorem bitmaps_written_once_at_end (env : Env) (img : Image) (hs : 64 * 4096 ≤ img.size) :
    (run env true img).log
        = (swept env true img).log
          ++ [Event.write_block 1, Event.write_block 2, Event.printf Msg.all_fixed,
              Event.printf Msg.completed]
      ∧ (run env true img).log.count (Event.write_block 1) = 1
      ∧ (run env true img).log.count (Event.write_block 2) = 1
      ∧ (∀ i, (swept env true img).log.count (Event.write_inode i)
          = (run env true img).log.count (Event.write_inode i))
      ∧ (∀ j, j < 4096 →
          block (run env true img).image 1 j = (swept env true img).inode_bitmap j)
      ∧ (∀ j, j < 4096 →
          block (run env true img).image 2 j = (swept env true img).data_bitmap j) := by
  have h := repair_count_write_block env img hs
  refine ⟨repair_log_end env img hs, h.1, h.2, ?_,
    fun j hj => (repair_bitmap_blocks env img hs j hj).1,
    fun j hj => (repair_bitmap_blocks env img hs j hj).2⟩
  intro i
  rw [repair_log_end env img hs, List.count_append]
  simp

theorem bitmaps_written_once_at_end_witness :
    (run sample_env true zero_image).log.count (Event.write_block 1) = 1
      ∧ (run sample_env true zero_image).log.count (Event.write_block 2) = 1 :=
  have h := bitmaps_written_once_at_end sample_env zero_image (by decide)
  ⟨h.2.1, h.2.2.1⟩

/-- C16. An inode `i` that is not valid (`links == 0` or `dtime != 0`) gets no data-block,
duplicate or invalid-pointer report and no `write_inode`, whatever its direct pointer holds;
its iteration of the inode loop reads the record and makes the inode-bitmap check and nothing
else, leaving the image file, the data bitmap and the seen set as they were; and its record
is the same after the run as before it. -/
theorem invalid_inode_skipped (env : Env) (fix_mode : Bool) (img : Image)
    (hs : 64 * 4096 ≤ img.size) (i : Nat) (hi : i < 80)
    (hv : Inode.links (inode_at img i) = 0 ∨ Inode.dtime (inode_at img i) ≠ 0) :
    report_count Kind.data_bitmap i (run env fix_mode img).log = 0
      ∧ report_count Kind.duplicate i (run env fix_mode img).log = 0
      ∧ report_count Kind.invalid_pointer i (run env fix_mode img).log = 0
      ∧ (run env fix_mode img).log.count (Event.write_inode i) = 0
      ∧ (scan_upto env fix_mode (scan_start env fix_mode img) (i + 1)).log
          = (scan_upto env fix_mode (scan_start env fix_mode img) i).log
            ++ Event.read_inode i :: inode_bitmap_events fix_mode i false
                (bit (scan_upto env fix_mode (scan_start env fix_mode img) i).inode_bitmap i)
      ∧ (scan_upto env fix_mode (scan_start env fix_mode img) (i + 1)).seen_data_blocks
          = (scan_upto env fix_mode (scan_start env fix_mode img) i).seen_data_blocks
      ∧ (scan_upto env fix_mode (scan_start env fix_mode img) (i + 1)).data_bitmap
          = (scan_upto env fix_mode (scan_start env fix_mode img) i).data_bitmap
      ∧ (scan_upto env fix_mode (scan_start env fix_mode img) (i + 1)).fp.image
          = (scan_upto env fix_mode (scan_start env fix_mode img) i).fp.image
      ∧ ∀ j, j < 256 → inode_at (run env fix_mode img).image i j = inode_at img i j := by
  have hv2 : valid img i = false := by
    unfold valid
    rcases hv with h | h
    · simp [h]
    · simp [h]
  have hc : cleared img i = false := by
    unfold cleared
    rw [hv2]
    rfl
  have hstep := scan_step_invalid env fix_mode img hs i hi hv2
  refine ⟨?_, ?_, ?_, ?_, hstep.2.2.2, hstep.2.2.1, hstep.2.1, hstep.1,
    fun j hj => run_inode_record_kept env fix_mode img hs i hc j hj⟩
  · rw [run_report_count env fix_mode img hs _ i hi, step_count_data_bitmap, hv2]
    simp
  · rw [run_report_count env fix_mode img hs _ i hi, step_count_duplicate, hv2]
    simp
  · rw [run_report_count env fix_mode img hs _ i hi, step_count_invalid_pointer, hv2]
    simp
  · rw [run_count_inode_event env fix_mode img hs (Event.write_inode i) i hi rfl,
      step_count_write_inode, hv2]
    simp

theorem invalid_inode_skipped_witness :
    report_count Kind.data_bitmap 2 (run sample_env true stale_pointer_image).log = 0
      ∧ report_count Kind.duplicate 1 (run sample_env true stale_pointer_image).log = 0
      ∧ report_count Kind.invalid_pointer 2 (run sample_env true stale_pointer_image).log = 0
      ∧ (run sample_env true stale_pointer_image).log.count (Event.write_inode 2) = 0 :=
  have h1 := invalid_inode_skipped sample_env true stale_pointer_image (by decide) 1
    (by decide) (Or.inl (by decide))
  have h2 := invalid_inode_skipped sample_env true stale_pointer_image (by decide) 2
    (by decide) (Or.inl (by decide))
  ⟨h2.1, h1.2.1, h2.2.2.1, h2.2.2.2.1⟩

/-- C17. Bitmap utilities: `is_block_used` returns bit `i % 8`, counted from the least
significant one, of byte `i / 8`; after `set_block_used` at `i` it returns 1 there and after
`clear_block_used` at `i` it returns 0 there; at every other index `j` neither operation
changes what it returns; and doing either operation twice is the same as doing it once. -/
theorem bitmap_utilities (bitmap : Buffer) (i j : Nat) :
    is_block_used bitmap i = bitmap (i / 8) / 2 ^ (i % 8) % 2
      ∧ is_block_used (set_block_used bitmap i) i = 1
      ∧ is_block_used (clear_block_used bitmap i) i = 0
      ∧ (j ≠ i →
          is_block_used (set_block_used bitmap i) j = is_block_used bitmap j
            ∧ is_block_used (clear_block_used bitmap i) j = is_block_used bitmap j)
      ∧ set_block_used (set_block_used bitmap i) i = set_block_used bitmap i
      ∧ clear_block_used (clear_block_used bitmap i) i = clear_block_used bitmap i := by
  refine ⟨is_block_used_div bitmap i, ?_, ?_, ?_, set_block_used_idem bitmap i,
    clear_block_used_idem bitmap i⟩
  · rw [is_block_used_eq, bit_set_block_used]
    simp
  · rw [is_block_used_eq, bit_clear_block_used]
    simp
  · intro hne
    constructor
    · rw [is_block_used_eq, is_block_used_eq, bit_set_block_used]
      simp [hne]
    · rw [is_block_used_eq, is_block_used_eq, bit_clear_block_used]
      simp [hne]

theorem bitmap_utilities_witness :
    is_block_used sample_bitmap 10 = sample_bitmap (10 / 8) / 2 ^ (10 % 8) % 2
      ∧ is_block_used (set_block_used sample_bitmap 10) 10 = 1
      ∧ is_block_used (clear_block_used sample_bitmap 10) 10 = 0
      ∧ is_block_used (set_block_used sample_bitmap 10) 2 = is_block_used sample_bitmap 2
      ∧ is_block_used (clear_block_used sample_bitmap 10) 2 = is_block_used sample_bitmap 2 :=
  have h := bitmap_utilities sample_bitmap 10 2
  ⟨h.1, h.2.1, h.2.2.1, (h.2.2.2.1 (by decide)).1, (h.2.2.2.1 (by decide)).2⟩

/-- C18. Frame of a repair run on an image of at least 64 blocks. The size of the image stays,
and a byte that differs after the run lies (a) in the nine superblock fields (bytes 0 to 33
of block 0) of an image with a superblock deviation, or (b) in the bytes of block 1 that hold
the bits of the 80 inodes (its first 10 bytes), or (c) in the bytes of block 2 that hold the
bits of the 56 data blocks (its first 7 bytes), or (d) in the four bytes of the `direct`
field of an inode reported as duplicate or as invalid pointer. In particular the rest of
block 0 (the reserved padding, up to the last byte of the block), the rest of blocks 1 and 2,
and every byte from the inode table on that is not in the `direct` field of an inode so
reported (the other fields and the padding of every inode, the data region) are as they
were. -/
theorem repair_frame (env : Env) (img : Image) (hs : 64 * 4096 ≤ img.size) (k : Nat) :
    (run env true img).image.size = img.size
      ∧ ((run env true img).image.byte k ≠ img.byte k →
          (k < 34 ∧ sb_deviations (block img 0) ≠ [])
          ∨ (4096 ≤ k ∧ k < 4096 + 10)
          ∨ (8192 ≤ k ∧ k < 8192 + 7)
          ∨ ∃ i, i < 80 ∧ 12288 + 256 * i + 40 ≤ k ∧ k < 12288 + 256 * i + 44
              ∧ (report_count Kind.duplicate i (run env true img).log = 1
                  ∨ report_count Kind.invalid_pointer i (run env true img).log = 1))
      ∧ (34 ≤ k → k < 4096 → (run env true img).image.byte k = img.byte k)
      ∧ (4096 + 10 ≤ k → k < 8192 → (run env true img).image.byte k = img.byte k)
      ∧ (8192 + 7 ≤ k → k < 12288 → (run env true img).image.byte k = img.byte k)
      ∧ (12288 ≤ k →
          (∀ i, i < 80 → 12288 + 256 * i + 40 ≤ k → k < 12288 + 256 * i + 44 →
            report_count Kind.duplicate i (run env true img).log = 0
              ∧ report_count Kind.invalid_pointer i (run env true img).log = 0) →
          (run env true img).image.byte k = img.byte k) := by
  have hdev : sb_deviations (block img 0) ≠ [] ↔ sb_bad (block img 0) = true := by
    rw [Ne, sb_deviations_eq_nil]
    simp
  refine ⟨repair_image_size env img hs, ?_,
    fun h1 h2 => repair_frame_block0 env img hs k h1 h2,
    fun h1 h2 => repair_frame_block1 env img hs k h1 h2,
    fun h1 h2 => repair_frame_block2 env img hs k h1 h2, ?_⟩
  · intro hne
    by_cases hk0 : k < 4096
    · by_cases h34 : k < 34
      · by_cases hb : sb_bad (block img 0) = true
        · exact Or.inl ⟨h34, hdev.mpr hb⟩
        · exact absurd (repair_frame_fields env img hs k hk0 (by simpa using hb)) hne
      · exact absurd (repair_frame_block0 env img hs k (by omega) hk0) hne
    · by_cases hk1 : k < 8192
      · by_cases h10 : k < 4096 + 10
        · exact Or.inr (Or.inl ⟨by omega, h10⟩)
        · exact absurd (repair_frame_block1 env img hs k (by omega) hk1) hne
      · by_cases hk2 : k < 12288
        · by_cases h7 : k < 8192 + 7
          · exact Or.inr (Or.inr (Or.inl ⟨by omega, h7⟩))
          · exact absurd (repair_frame_block2 env img hs k (by omega) hk2) hne
        · obtain ⟨i, hi, hc, h1, h2⟩ := repair_frame_table env img hs k (by omega) hne
          exact Or.inr (Or.inr (Or.inr
            ⟨i, hi, h1, h2, cleared_reported env true img hs i hi hc⟩))
  · intro hk hno
    by_contra hne
    obtain ⟨i, hi, hc, h1, h2⟩ := repair_frame_table env img hs k hk hne
    have h0 := hno i hi h1 h2
    rcases cleared_reported env true img hs i hi hc with h | h
    · rw [h0.1] at h
      exact absurd h (by decide)
    · rw [h0.2] at h
      exact absurd h (by decide)

theorem repair_frame_witness :
    (run overrun_env true scenario_image).image.size = scenario_image.size
      ∧ (run overrun_env true scenario_image).image.byte 0 ≠ scenario_image.byte 0
      ∧ (0 < 34 ∧ sb_deviations (block scenario_image 0) ≠ [])
      ∧ (run overrun_env true scenario_image).image.byte 4092 = scenario_image.byte 4092
      ∧ (run overrun_env true scenario_image).image.byte 13609
          = scenario_image.byte 13609 :=
  have h0 := repair_frame overrun_env scenario_image (by decide) 0
  have h1 := repair_frame overrun_env scenario_image (by decide) 4092
  have h2 := repair_frame overrun_env scenario_image (by decide) 13609
  ⟨h0.1, by decide!, ⟨by decide, by decide!⟩, h1.2.2.1 (by decide) (by decide),
    h2.2.2.2.2.2 (by decide) (by
      intro i hi ha hb
      have hi5 : i = 5 := by omega
      subst hi5
      exact ⟨by decide!, by decide!⟩)⟩

/-- C19. Every call of `is_block_used`, `set_block_used` or `clear_block_used` that a run
makes passes a bit index below 80 for the inode bitmap and below 56 for the data bitmap and
the seen set, so the byte it touches lies inside the 4096-byte array; and in the inode loop a
bit `k` of the data bitmap or of the seen set is accessed only as `direct - 8` for a valid
inode whose pointer satisfies `8 ≤ direct < 64`. -/
theorem bitmap_indices_in_bounds (env : Env) (fix_mode : Bool) (img : Image)
    (hs : 64 * 4096 ≤ img.size) (e : Event) (b : Bitmap) (k : Nat)
    (ha : e.access = some (b, k)) :
    (e ∈ (run env fix_mode img).log → k < b.bits ∧ k / 8 < BLOCK_SIZE)
      ∧ (e ∈ scan_log env fix_mode img → b ≠ Bitmap.inode_bitmap →
          ∃ i, i < 80 ∧ valid img i = true ∧ 8 ≤ direct img i ∧ direct img i < 64
            ∧ direct img i = k + 8) := by
  constructor
  · intro he
    have h := run_log_access env fix_mode img hs e b k he ha
    refine ⟨h, ?_⟩
    have hb : b.bits ≤ 80 := by cases b <;> decide
    simp only [BLOCK_SIZE]
    omega
  · intro he hb
    rcases scan_log_access env fix_mode img hs e b k he ha with ⟨h, -⟩ | ⟨-, h⟩
    · exact absurd h hb
    · exact h

theorem bitmap_indices_in_bounds_witness :
    Event.set_block_used Bitmap.data_bitmap 2 ∈ (run sample_env true scenario_image).log
      ∧ Event.set_block_used Bitmap.data_bitmap 2 ∈ scan_log sample_env true scenario_image
      ∧ (2 < Bitmap.data_bitmap.bits ∧ 2 / 8 < BLOCK_SIZE)
      ∧ ∃ i, i < 80 ∧ valid scenario_image i = true ∧ 8 ≤ direct scenario_image i
          ∧ direct scenario_image i < 64 ∧ direct scenario_image i = 2 + 8 :=
  have h := bitmap_indices_in_bounds sample_env true scenario_image (by decide)
    (Event.set_block_used Bitmap.data_bitmap 2) Bitmap.data_bitmap 2 rfl
  have h1 : Event.set_block_used Bitmap.data_bitmap 2
      ∈ (run sample_env true scenario_image).log := by decide!
  have h2 : Event.set_block_used Bitmap.data_bitmap 2
      ∈ scan_log sample_env true scenario_image := by decide!
  ⟨h1, h2, h.1 h1, h.2 h2 (by decide)⟩

end VSFS
